import Mathlib

/-!
# CART driver: opcode codec, LRU frame cache and file layer

A shallow embedding of `cart_driver.c` and `cart_cache.c`.

Conventions of the embedding.

* `CartXferRegister` is a 64-bit unsigned register: a `Nat` with an explicit `% 2 ^ 64`
  where a shift could leave the register.
* `CartridgeIndex` and `CartFrameIndex` are the 16-bit unsigned index types of the codec
  fields: a `Nat` below `2 ^ 16`.
* `int` values (`current_pos`, `end_pos`, `file_counter`, loop counters) are `Int`;
  their arithmetic is exact (signed overflow, undefined in C, is not modelled), and the
  conversions between `int`, `uint32_t` and `int16_t` are explicit.
* A local variable that the C code reads without having assigned it (`frame_pos` and
  `tempbuf` in `cart_read`, `tempbuf` in `cart_write`) is an argument of the function:
  the value the variable happens to hold.
* C arrays are total maps from the index to the cell; a cell whose index lies outside the
  declared bounds stands for the memory next to the array.
* Byte buffers (`char *`, `void *`) are maps from the byte offset to the byte.
* The constants of `cart_controller.h` and `cart_driver.h` (frame size, frames per
  cartridge, number of cartridges, size of the file table, command codes) are declared
  in headers the repository does not contain; they are the fields of `Config`.
* A loop that the C code may run without bound carries a fuel argument; `none` stands
  for "the call has not returned within the fuel".
-/

namespace Cart

/-! ## Opcode codec (`cart_driver.c`, lines 62-91) -/

/-- The five fields of the opcode register (`struct Opcode`). -/
structure Opcode where
  KY1 : Nat
  KY2 : Nat
  RT1 : Nat
  CT1 : Nat
  FM1 : Nat
deriving DecidableEq, Repr

/-- `create_cart_regstate`: mask every field to its width, shift it to its place and
combine the five temporaries with bitwise or. -/
def create_cart_regstate (KY1 KY2 RT1 CT1 FM1 : Nat) : Nat :=
  let tempKY1 := ((KY1 &&& 0xff) <<< 56) % 2 ^ 64
  let tempKY2 := ((KY2 &&& 0xff) <<< 48) % 2 ^ 64
  let tempRT1 := ((RT1 &&& 0x1) <<< 47) % 2 ^ 64
  let tempCT1 := ((CT1 &&& 0xffff) <<< 31) % 2 ^ 64
  let tempFM1 := ((FM1 &&& 0xffff) <<< 15) % 2 ^ 64
  let unused := 0x0
  tempKY1 ||| tempKY2 ||| tempRT1 ||| tempCT1 ||| tempFM1 ||| unused

/-- `extract_cart_opcode`: the five fields the function computes from `reg` into its
local record `oregstate`.  (The C function returns `0`; the record it receives by value
is not written, so the computed fields are the whole of its work.) -/
def extract_cart_opcode (reg : Nat) : Opcode :=
  { KY1 := (reg &&& 0xff00000000000000) >>> 56
    KY2 := (reg &&& 0x00ff000000000000) >>> 48
    RT1 := (reg &&& 0x0000800000000000) >>> 47
    CT1 := (reg &&& 0x00007FFF80000000) >>> 31
    FM1 := (reg &&& 0x000000007FFF8000) >>> 15 }

/-! ## Constants and buffers -/

/-- The constants of the headers `cart_controller.h` and `cart_driver.h`. -/
structure Config where
  CART_FRAME_SIZE : Int
  CART_CARTRIDGE_SIZE : Nat
  CART_MAX_CARTRIDGES : Nat
  CART_MAX_TOTAL_FILES : Int
  CART_OP_INITMS : Nat
  CART_OP_BZERO : Nat
  CART_OP_LDCART : Nat
  CART_OP_RDFRME : Nat
  CART_OP_WRFRME : Nat
  CART_OP_POWOFF : Nat

/-- A byte buffer: the byte at every offset from the start of the array. -/
abbrev Buf := Int → Nat

/-- The call `memcpy(dst + doff, src + soff, n)`: the `n` bytes of `dst` from offset `doff` are
replaced by the `n` bytes of `src` from offset `soff`. -/
def memcpy (dst : Buf) (doff : Int) (src : Buf) (soff : Int) (n : Int) : Buf :=
  fun j => if doff ≤ j ∧ j < doff + n then src (soff + (j - doff)) else dst j

/-- Conversion of a `uint32_t` to `int` (two's complement). -/
def int_of_uint32 (t : Nat) : Int :=
  if t % 2 ^ 32 < 2 ^ 31 then ((t % 2 ^ 32 : Nat) : Int) else ((t % 2 ^ 32 : Nat) : Int) - 2 ^ 32

/-- Conversion of an `int` to `uint32_t`. -/
def uint32_of_int (x : Int) : Nat := (x % 2 ^ 32).toNat

/-- Conversion of an `int` to `int16_t` (two's complement). -/
def int16_of_int (x : Int) : Int :=
  if x % 2 ^ 16 < 2 ^ 15 then x % 2 ^ 16 else x % 2 ^ 16 - 2 ^ 16

/-! ## LRU cache (`cart_cache.c`) -/

/-- One cache slot, `struct LRUCache_Frame`.  The field `free` is `1` in a slot that
holds a frame and `0` in a slot that does not. -/
structure LRUCache_Frame where
  cart_index : Nat
  frame_index : Nat
  FrameData : Buf
  access_time : Int
  free : Int

/-- The globals of `cart_cache.c`: the pointer `LRUCache` (`none` is the null pointer,
`some arr` the array it points to), `Cache_Max_Frames` and `Cache_Current_Time`. -/
structure Cache where
  LRUCache : Option (Nat → LRUCache_Frame)
  Cache_Max_Frames : Nat
  Cache_Current_Time : Nat

/-- A slot as `calloc` leaves it. -/
def zero_frame : LRUCache_Frame :=
  { cart_index := 0, frame_index := 0, FrameData := fun _ => 0, access_time := 0, free := 0 }

/-- Assignment to the slot `LRUCache[i]`. -/
def set_slot (arr : Nat → LRUCache_Frame) (i : Nat) (e : LRUCache_Frame) :
    Nat → LRUCache_Frame :=
  fun j => if j = i then e else arr j

/-- `init_cart_cache`: default capacity 15 when none was set, then `calloc`. -/
def init_cart_cache (c : Cache) : Cache × Int :=
  let n := if c.Cache_Max_Frames = 0 then 15 else c.Cache_Max_Frames
  ({ c with Cache_Max_Frames := n, LRUCache := some (fun _ => zero_frame) }, 0)

/-- The scan that opens `put_cart_cache` (lines 98-107), `get_cart_cache` (147-154) and
`delete_cart_cache` (168-174): the first slot among `i, i+1, ..., i+n-1` that holds the
key `(cart, frm)` and has `free == 1`. -/
def find_slot (arr : Nat → LRUCache_Frame) (cart frm : Nat) : Nat → Nat → Option Nat
  | 0, _ => none
  | n + 1, i =>
    if (arr i).cart_index = cart ∧ (arr i).frame_index = frm ∧ (arr i).free = 1 then some i
    else find_slot arr cart frm n (i + 1)

/-- The second loop of `put_cart_cache` (lines 112-120) from slot `i` on, `n` slots to
go: the pair `(index, Time_Min)` at loop exit; `index` is `-1` when no slot with
`free == 0` was met. -/
def put_scan (arr : Nat → LRUCache_Frame) : Nat → Nat → Nat → Int × Nat
  | 0, _, Time_Min => (-1, Time_Min)
  | n + 1, i, Time_Min =>
    if (arr i).free = 0 then ((i : Int), Time_Min)
    else if (arr i).access_time < (arr Time_Min).access_time then put_scan arr n (i + 1) i
    else put_scan arr n (i + 1) Time_Min

/-- The slot `put_cart_cache` writes when the key is not resident (lines 108-124). -/
def put_index (arr : Nat → LRUCache_Frame) (Cache_Max_Frames : Nat) : Nat :=
  let r := put_scan arr Cache_Max_Frames 0 0
  let index : Int := if r.1 = -1 then (r.2 : Int) else r.1
  index.toNat

/-- `put_cart_cache`.  `none`: the call dereferences the null pointer.  Every call that
returns, returns `0`. -/
def put_cart_cache (cfg : Config) (c : Cache) (cart frm : Nat) (buf : Buf) : Option Cache :=
  match c.LRUCache with
  | none => none
  | some arr =>
    match find_slot arr cart frm c.Cache_Max_Frames 0 with
    | some i =>
      some { c with
        LRUCache := some (set_slot arr i { arr i with
          access_time := int_of_uint32 c.Cache_Current_Time
          FrameData := memcpy (arr i).FrameData 0 buf 0 cfg.CART_FRAME_SIZE })
        Cache_Current_Time := (c.Cache_Current_Time + 1) % 2 ^ 32 }
    | none =>
      let index := put_index arr c.Cache_Max_Frames
      some { c with
        LRUCache := some (set_slot arr index
          { FrameData := memcpy (arr index).FrameData 0 buf 0 cfg.CART_FRAME_SIZE
            cart_index := cart
            free := 1
            frame_index := frm
            access_time := int_of_uint32 c.Cache_Current_Time })
        Cache_Current_Time := (c.Cache_Current_Time + 1) % 2 ^ 32 }

/-- `get_cart_cache`: the frame data found (`none` for `NULL`) and the cache after the
call.  The outer `none`: the call dereferences the null pointer. -/
def get_cart_cache (c : Cache) (cart_index frame_index : Nat) : Option (Option Buf × Cache) :=
  match c.LRUCache with
  | none => if c.Cache_Max_Frames = 0 then some (none, c) else none
  | some arr =>
    match find_slot arr cart_index frame_index c.Cache_Max_Frames 0 with
    | some i =>
      some (some (arr i).FrameData,
        { c with
          LRUCache := some (set_slot arr i { arr i with
            access_time := int_of_uint32 c.Cache_Current_Time })
          Cache_Current_Time := (c.Cache_Current_Time + 1) % 2 ^ 32 })
    | none => some (none, c)

/-- Slot `i` holds the key `(cart, frm)` and is occupied: the test of the scans. -/
def holds (arr : Nat → LRUCache_Frame) (cart frm : Nat) (i : Nat) : Prop :=
  (arr i).cart_index = cart ∧ (arr i).frame_index = frm ∧ (arr i).free = 1

/-! ## The controller interface -/

/-- The bus to the external controller, `cart_client_bus_request(regstate, buf)`, over a
controller state `σ`: from the register and the buffer handed over (`none` for `NULL`)
to the response record the driver reads, the buffer after the call and the controller
after the call. -/
abbrev Bus (σ : Type) := σ → Nat → Option Buf → Opcode × Buf × σ

/-! ## File system state (`cart_driver.c`, lines 30-51) -/

/-- The address of a frame, `struct Frame`. -/
structure Frame where
  cart_index : Nat
  frame_index : Nat
deriving DecidableEq, Repr

/-- An entry of the file table, `struct File`. -/
structure File where
  file_path : String
  current_pos : Int
  end_pos : Int
  file_open : Int
  FrameList : Int → Frame
  frame_list_index : Int

/-- The globals of `cart_driver.c`, the cache of `cart_cache.c` and the controller
behind the bus. -/
structure Driver (σ : Type) where
  FileArray : Int → File
  file_counter : Int
  loaded_cartridge : Nat
  avail_cart : Nat
  avail_frame : Nat
  cache : Cache
  ctl : σ

/-- The globals at program start: zero-initialised, `loaded_cartridge = -1` (as a 16-bit
unsigned index), the cache pointer null. -/
def Driver.start {σ : Type} (ctl : σ) : Driver σ :=
  { FileArray := fun _ =>
      { file_path := "", current_pos := 0, end_pos := 0, file_open := 0,
        FrameList := (fun _ => { cart_index := 0, frame_index := 0 }), frame_list_index := 0 }
    file_counter := 0
    loaded_cartridge := 65535
    avail_cart := 0
    avail_frame := 0
    cache := { LRUCache := none, Cache_Max_Frames := 0, Cache_Current_Time := 0 }
    ctl := ctl }

/-- Assignment to the entry `FileArray[i]`. -/
def set_file {σ : Type} (d : Driver σ) (i : Int) (f : File) : Driver σ :=
  { d with FileArray := fun j => if j = i then f else d.FileArray j }

/-- Assignment to the cell `FrameList[k]`. -/
def set_frame (l : Int → Frame) (k : Int) (a : Frame) : Int → Frame :=
  fun j => if j = k then a else l j

/-! ## Controller commands (`cart_driver.c`, lines 101-187) -/

/-- `LDCART_opcode`: when another cartridge is recorded as loaded, send the load command;
the response's `RT1` is compared with `-1` (as a 64-bit register). -/
def LDCART_opcode {σ : Type} (cfg : Config) (bus : Bus σ) (d : Driver σ) (cart_index : Nat) :
    Driver σ × Int :=
  if d.loaded_cartridge ≠ cart_index then
    let regstate := create_cart_regstate cfg.CART_OP_LDCART 0 0 cart_index 0
    let r := bus d.ctl regstate none
    let oregstate := r.1
    let d1 := { d with ctl := r.2.2 }
    if oregstate.RT1 = 2 ^ 64 - 1 then (d1, -1)
    else ({ d1 with loaded_cartridge := cart_index }, 0)
  else (d, 0)

/-- `BZERO_opcode`: send the zero command for the loaded cartridge. -/
def BZERO_opcode {σ : Type} (cfg : Config) (bus : Bus σ) (d : Driver σ) : Driver σ × Int :=
  let regstate := create_cart_regstate cfg.CART_OP_BZERO 0 0 0 0
  let r := bus d.ctl regstate none
  let oregstate := r.1
  let d1 := { d with ctl := r.2.2 }
  if oregstate.RT1 = 2 ^ 64 - 1 then (d1, -1) else (d1, 0)

/-- `RDFRME_opcode`: look the frame up in the cache under the loaded cartridge; on a miss
send the read command with `buf`, on a hit copy the cached frame into `buf`.  `none`: the
cache lookup dereferences the null pointer. -/
def RDFRME_opcode {σ : Type} (cfg : Config) (bus : Bus σ) (d : Driver σ) (frame_index : Nat)
    (buf : Buf) : Option (Driver σ × Buf × Int) :=
  match get_cart_cache d.cache d.loaded_cartridge frame_index with
  | none => none
  | some (none, cache) =>
    let regstate := create_cart_regstate cfg.CART_OP_RDFRME 0 0 0 frame_index
    let r := bus d.ctl regstate (some buf)
    let oregstate := r.1
    let d1 := { d with cache := cache, ctl := r.2.2 }
    if oregstate.RT1 = 2 ^ 64 - 1 then some (d1, r.2.1, -1) else some (d1, r.2.1, 0)
  | some (some tempbuf, cache) =>
    some ({ d with cache := cache }, memcpy buf 0 tempbuf 0 cfg.CART_FRAME_SIZE, 0)

/-- `WRFRME_opcode`: send the write command with `buf`. -/
def WRFRME_opcode {σ : Type} (cfg : Config) (bus : Bus σ) (d : Driver σ) (frame_index : Nat)
    (buf : Buf) : Driver σ × Buf × Int :=
  let regstate := create_cart_regstate cfg.CART_OP_WRFRME 0 0 0 frame_index
  let r := bus d.ctl regstate (some buf)
  let oregstate := r.1
  let d1 := { d with ctl := r.2.2 }
  if oregstate.RT1 = 2 ^ 64 - 1 then (d1, r.2.1, -1) else (d1, r.2.1, 0)

/-- Modelled from the spec: `RDCART_opcode(cart, frame, buf)`, which `cart_read` and
`cart_write` call and the sources do not define.  Spec 4.4 (read): the caller "attempts a
cache hit, and on miss issues a read-frame opcode (ensuring the owning cartridge is
mounted first) and populates the cache with the result".  The mount is `LDCART_opcode`,
the read-frame opcode is `RDFRME_opcode`; the result is `0` on success and `-1` on
failure, as for the commands of the sources. -/
def RDCART_opcode {σ : Type} (cfg : Config) (bus : Bus σ) (d : Driver σ) (cart frame : Nat)
    (buf : Buf) : Option (Driver σ × Buf × Int) :=
  match get_cart_cache d.cache cart frame with
  | none => none
  | some (some tempbuf, cache) =>
    some ({ d with cache := cache }, memcpy buf 0 tempbuf 0 cfg.CART_FRAME_SIZE, 0)
  | some (none, cache) =>
    let l := LDCART_opcode cfg bus { d with cache := cache } cart
    if l.2 = -1 then some (l.1, buf, -1)
    else
      match RDFRME_opcode cfg bus l.1 frame buf with
      | none => none
      | some (d2, buf2, r2) =>
        if r2 = -1 then some (d2, buf2, -1)
        else
          match put_cart_cache cfg d2.cache cart frame buf2 with
          | none => none
          | some cache2 => some ({ d2 with cache := cache2 }, buf2, 0)

/-- Modelled from the spec: `WRCART_opcode(cart, frame, buf)`, which `cart_write` calls
and the sources do not define.  Spec 4.4 (write): the caller "issues a write-frame opcode
to the controller (ensuring mount first)".  The mount is `LDCART_opcode`, the write-frame
opcode is `WRFRME_opcode`. -/
def WRCART_opcode {σ : Type} (cfg : Config) (bus : Bus σ) (d : Driver σ) (cart frame : Nat)
    (buf : Buf) : Driver σ × Buf × Int :=
  let l := LDCART_opcode cfg bus d cart
  if l.2 = -1 then (l.1, buf, -1) else WRFRME_opcode cfg bus l.1 frame buf

/-! ## Power on (`cart_driver.c`, lines 196-236) -/

/-- The loop of `cart_poweron` that loads and zeroes the cartridges `i, i+1, ...`, `n` to
go.  The result of `BZERO_opcode` is not looked at. -/
def poweron_loop {σ : Type} (cfg : Config) (bus : Bus σ) : Nat → Nat → Driver σ → Driver σ × Int
  | 0, _, d => (d, 0)
  | n + 1, i, d =>
    let l := LDCART_opcode cfg bus d (i % 2 ^ 16)
    if l.2 = -1 then (l.1, -1)
    else poweron_loop cfg bus n (i + 1) (BZERO_opcode cfg bus l.1).1

/-- `cart_poweron`.  Its first statement stores `NULL` (zero) in the loaded-cartridge
variable (spelled `loaded_cartidge` there).  The file table and the allocation cursor are
reset and the cache is initialised only when the controller commands before them did not
fail. -/
def cart_poweron {σ : Type} (cfg : Config) (bus : Bus σ) (d : Driver σ) : Driver σ × Int :=
  let d0 := { d with loaded_cartridge := 0 }
  let regstate := create_cart_regstate cfg.CART_OP_INITMS 0 0 0 0
  if regstate = 2 ^ 64 - 1 then (d0, -1)
  else
    let r := bus d0.ctl regstate none
    let oregstate := r.1
    let d1 := { d0 with ctl := r.2.2 }
    if oregstate.RT1 ≠ 0 then (d1, -1)
    else
      let l := poweron_loop cfg bus cfg.CART_MAX_CARTRIDGES 0 d1
      if l.2 = -1 then (l.1, -1)
      else
        let d2 := l.1
        let d3 := { d2 with
          file_counter := 0
          FileArray := fun i =>
            if 0 ≤ i ∧ i < cfg.CART_MAX_TOTAL_FILES then
              { d2.FileArray i with file_path := "", current_pos := 0, end_pos := 0,
                                    file_open := 0 }
            else d2.FileArray i
          avail_cart := 0
          avail_frame := 0 }
        ({ d3 with cache := (init_cart_cache d3.cache).1 }, 0)

/-! ## File operations (`cart_driver.c`, lines 270-475) -/

/-- The search loop of `cart_open` (lines 274-287) over the entries `i, i+1, ...`, `n` to
go: the first entry whose stored path compares equal to `path`.  The comparison is
`strncmp` over `strlen(path) + 1` characters, that is equality of the two strings; the
source hands the `file_open` field of the entry to `strncmp`, and the comparison is read
as being with the path stored in the entry ("search for a file with that path"). -/
def open_search {σ : Type} (d : Driver σ) (path : String) : Nat → Int → Option Int
  | 0, _ => none
  | n + 1, i =>
    if (d.FileArray i).file_path = path then some i else open_search d path n (i + 1)

/-- `cart_open`: the state after the call and the `int16_t` returned. -/
def cart_open {σ : Type} (d : Driver σ) (path : String) : Driver σ × Int :=
  match open_search d path d.file_counter.toNat 0 with
  | some i =>
    if (d.FileArray i).file_open = 1 then (d, int16_of_int (-1))
    else (set_file d i { d.FileArray i with file_open := 1, current_pos := 0 }, int16_of_int i)
  | none =>
    let file_counter := d.file_counter + 1
    let d1 := { d with file_counter := file_counter }
    (set_file d1 file_counter
      { d1.FileArray file_counter with
        file_path := path, file_open := 1, current_pos := 0, end_pos := 0,
        frame_list_index := -1 },
     int16_of_int file_counter)

/-- `cart_close`. -/
def cart_close {σ : Type} (cfg : Config) (d : Driver σ) (fd : Int) : Driver σ × Int :=
  if fd ≥ cfg.CART_MAX_TOTAL_FILES ∨ fd < 0 then (d, -1)
  else if (d.FileArray fd).file_open = 0 then (d, -1)
  else (set_file d fd { d.FileArray fd with file_open := 0 }, 0)

/-- `cart_seek`; `loc` is a `uint32_t`.  The comparison with `end_pos` is made on unsigned
32-bit values, the store into `current_pos` converts `loc` to `int`. -/
def cart_seek {σ : Type} (cfg : Config) (d : Driver σ) (fd : Int) (loc : Nat) : Driver σ × Int :=
  if fd ≥ cfg.CART_MAX_TOTAL_FILES ∨ fd < 0 then (d, -1)
  else if (d.FileArray fd).file_open = 0 then (d, -1)
  else if loc % 2 ^ 32 > uint32_of_int (d.FileArray fd).end_pos then (d, -1)
  else (set_file d fd { d.FileArray fd with current_pos := int_of_uint32 loc }, 0)

/-- The loop of `cart_read` (lines 351-375).  `frame_pos` is the local of that name, which
the function never assigns: the argument is the value the local happens to hold.
Result: the state, the caller's buffer and the value returned; `none` when the loop has
not ended within the fuel or a cache call dereferences the null pointer. -/
def cart_read_loop {σ : Type} (cfg : Config) (bus : Bus σ) (fd : Int) (read_length : Int)
    (frame_pos : Int) :
    Nat → Driver σ → Buf → Buf → Int → Int → Option (Driver σ × Buf × Int)
  | fuel, d, buf, tempbuf, remaining_bytes, buf_loc =>
    if remaining_bytes > 0 then
      match fuel with
      | 0 => none
      | fuel + 1 =>
        let f := d.FileArray fd
        match RDCART_opcode cfg bus d
            (f.FrameList (f.current_pos.tdiv cfg.CART_FRAME_SIZE)).cart_index
            (f.FrameList (f.current_pos.tmod cfg.CART_FRAME_SIZE)).frame_index tempbuf with
        | none => none
        | some (d1, tempbuf1, r) =>
          if r = -1 then some (d1, buf, -1)
          else
            let frame_bytes : Int :=
              if remaining_bytes = read_length then
                if read_length < cfg.CART_FRAME_SIZE then read_length
                else cfg.CART_FRAME_SIZE - frame_pos
              else if remaining_bytes < cfg.CART_FRAME_SIZE then remaining_bytes
              else cfg.CART_FRAME_SIZE
            let buf1 : Buf :=
              if remaining_bytes = read_length then
                memcpy buf buf_loc tempbuf1 frame_pos frame_bytes
              else memcpy buf buf_loc tempbuf1 0 frame_bytes
            let f1 := d1.FileArray fd
            let d2 := set_file d1 fd { f1 with current_pos := f1.current_pos + frame_bytes }
            cart_read_loop cfg bus fd read_length frame_pos fuel d2 buf1 tempbuf1
              (remaining_bytes - frame_bytes) (buf_loc + frame_bytes)
    else some (d, buf, read_length)

/-- `cart_read`.  `frame_pos` and `tempbuf` are the initial contents of the two locals the
function does not initialise, `buf` is the caller's buffer before the call. -/
def cart_read {σ : Type} (cfg : Config) (bus : Bus σ) (fuel : Nat) (frame_pos : Int)
    (tempbuf : Buf) (d : Driver σ) (fd : Int) (buf : Buf) (count : Int) :
    Option (Driver σ × Buf × Int) :=
  if fd ≥ cfg.CART_MAX_TOTAL_FILES ∨ fd < 0 then some (d, buf, -1)
  else if (d.FileArray fd).file_open = 0 then some (d, buf, -1)
  else
    let read_length : Int :=
      if count > (d.FileArray fd).end_pos - (d.FileArray fd).current_pos then
        (d.FileArray fd).end_pos - (d.FileArray fd).current_pos
      else count
    cart_read_loop cfg bus fd read_length frame_pos fuel d buf tempbuf read_length 0

/-- The length of the segment `cart_write` writes in one iteration (lines 409-417). -/
def write_bytes (cfg : Config) (remaining_bytes frame_pos : Int) : Int :=
  if cfg.CART_FRAME_SIZE ≤ remaining_bytes + frame_pos then cfg.CART_FRAME_SIZE - frame_pos
  else if (remaining_bytes + frame_pos).tmod cfg.CART_FRAME_SIZE ≠ 0 then
    remaining_bytes.tmod cfg.CART_FRAME_SIZE
  else cfg.CART_FRAME_SIZE

/-- The loop of `cart_write` (lines 405-443).  The results of `RDCART_opcode`,
`put_cart_cache` and `WRCART_opcode` are not looked at.  `none` when the loop has not
ended within the fuel or a cache call dereferences the null pointer. -/
def cart_write_loop {σ : Type} (cfg : Config) (bus : Bus σ) (fd : Int) (buf : Buf) :
    Nat → Driver σ → Buf → Int → Int → Option (Driver σ)
  | fuel, d, tempbuf, remaining_bytes, buf_loc =>
    if remaining_bytes > 0 then
      match fuel with
      | 0 => none
      | fuel + 1 =>
        let f := d.FileArray fd
        let frame_pos := f.current_pos.tmod cfg.CART_FRAME_SIZE
        let list_loc := f.current_pos.tdiv cfg.CART_FRAME_SIZE
        let wb := write_bytes cfg remaining_bytes frame_pos
        let step1 : Option (Driver σ × Buf) :=
          if list_loc > f.frame_list_index then
            let a : Frame := { cart_index := d.avail_cart, frame_index := d.avail_frame }
            let f1 := { f with FrameList := set_frame f.FrameList list_loc a }
            let d1 := set_file d fd f1
            if (d.avail_frame : Int) ≥ (cfg.CART_CARTRIDGE_SIZE : Int) - 1 then
              some ({ d1 with avail_cart := (d.avail_cart + 1) % 2 ^ 16, avail_frame := 0 },
                    tempbuf)
            else some ({ d1 with avail_frame := (d.avail_frame + 1) % 2 ^ 16 }, tempbuf)
          else
            match RDCART_opcode cfg bus d (f.FrameList list_loc).cart_index
                (f.FrameList list_loc).frame_index tempbuf with
            | none => none
            | some (d1, tempbuf1, _) => some (d1, tempbuf1)
        match step1 with
        | none => none
        | some (d1, tempbuf1) =>
          let tempbuf2 := memcpy tempbuf1 frame_pos buf buf_loc wb
          let a := (d1.FileArray fd).FrameList list_loc
          match put_cart_cache cfg d1.cache a.cart_index a.frame_index tempbuf2 with
          | none => none
          | some cache2 =>
            let w := WRCART_opcode cfg bus { d1 with cache := cache2 } a.cart_index
              a.frame_index tempbuf2
            let d3 := w.1
            let f3 := d3.FileArray fd
            let cur := f3.current_pos + wb
            let d4 := set_file d3 fd
              { f3 with current_pos := cur,
                        end_pos := if f3.end_pos < cur then cur else f3.end_pos }
            cart_write_loop cfg bus fd buf fuel d4 w.2.1 (remaining_bytes - wb) (buf_loc + wb)
    else some d

/-- `cart_write`.  `tempbuf` is the initial content of the local array the function does
not initialise, `buf` the caller's buffer. -/
def cart_write {σ : Type} (cfg : Config) (bus : Bus σ) (fuel : Nat) (tempbuf : Buf)
    (d : Driver σ) (fd : Int) (buf : Buf) (count : Int) : Option (Driver σ × Int) :=
  if fd ≥ cfg.CART_MAX_TOTAL_FILES ∨ fd < 0 then some (d, -1)
  else if (d.FileArray fd).file_open = 0 then some (d, -1)
  else
    match cart_write_loop cfg bus fd buf fuel d tempbuf count 0 with
    | none => none
    | some d1 => some (d1, count)

/-! ## A controller that stores frames -/

/-- The state of a controller: the bytes of every frame of every cartridge, the
cartridge loaded, the registers received (latest first). -/
structure Controller where
  frames : Nat → Nat → Buf
  loaded : Option Nat
  log : List Nat

/-- Modelled from the spec: the external storage controller behind the bus (spec 2 and
6: "accepts an encoded opcode plus an optional frame-sized buffer, performs the
operation, and returns a decoded opcode carrying a success/failure flag"), in the form
of a controller that stores and returns frames faithfully: mount records the cartridge,
zero clears the loaded cartridge, read-frame fills the buffer with the frame, write-frame
stores the buffer as the frame, and the return flag is 0 (1 when a frame command arrives
while no cartridge is loaded). -/
def faithful_bus (cfg : Config) : Bus Controller := fun s regstate buf =>
  let op := extract_cart_opcode regstate
  let ok : Opcode := { op with RT1 := 0 }
  let failed : Opcode := { op with RT1 := 1 }
  let b : Buf := buf.getD (fun _ => 0)
  let s1 := { s with log := regstate :: s.log }
  if op.KY1 = cfg.CART_OP_LDCART then (ok, b, { s1 with loaded := some op.CT1 })
  else if op.KY1 = cfg.CART_OP_BZERO then
    match s.loaded with
    | none => (failed, b, s1)
    | some c =>
      (ok, b, { s1 with
        frames := (fun c1 f => if c1 = c then (fun _ => 0) else s.frames c1 f) })
  else if op.KY1 = cfg.CART_OP_RDFRME then
    match s.loaded with
    | none => (failed, b, s1)
    | some c => (ok, memcpy b 0 (s.frames c op.FM1) 0 cfg.CART_FRAME_SIZE, s1)
  else if op.KY1 = cfg.CART_OP_WRFRME then
    match s.loaded with
    | none => (failed, b, s1)
    | some c =>
      let stored : Buf := memcpy (s.frames c op.FM1) 0 b 0 cfg.CART_FRAME_SIZE
      (ok, b, { s1 with
        frames := (fun c1 f => if c1 = c ∧ f = op.FM1 then stored else s.frames c1 f) })
  else (ok, b, s1)

/-- A controller with no cartridge loaded and every byte `0xAA`. -/
def Controller.fresh : Controller :=
  { frames := (fun _ _ _ => 170), loaded := none, log := [] }

/-- The cache pointer is not null: the cache has been allocated by `init_cart_cache`. -/
def cache_alloc (c : Cache) : Prop := c.LRUCache.isSome = true

/-! ## Concrete inputs -/

/-- A configuration: 1024-byte frames, 1024 frames in a cartridge, 64 cartridges, a file
table of 1024 entries, command codes 0 to 5. -/
def cfg1024 : Config :=
  { CART_FRAME_SIZE := 1024
    CART_CARTRIDGE_SIZE := 1024
    CART_MAX_CARTRIDGES := 64
    CART_MAX_TOTAL_FILES := 1024
    CART_OP_INITMS := 0
    CART_OP_BZERO := 1
    CART_OP_LDCART := 2
    CART_OP_RDFRME := 3
    CART_OP_WRFRME := 4
    CART_OP_POWOFF := 5 }

/-- The slots of a full cache of capacity 2: key `(1, 1)` touched at time 2 in slot 0,
key `(1, 2)` written at time 1 in slot 1. -/
def full_arr : Nat → LRUCache_Frame := fun i =>
  if i = 0 then
    { cart_index := 1, frame_index := 1, FrameData := fun _ => 7, access_time := 2, free := 1 }
  else
    { cart_index := 1, frame_index := 2, FrameData := fun _ => 8, access_time := 1, free := 1 }

/-- A full cache of capacity 2 at time 3. -/
def full_cache : Cache :=
  { LRUCache := some full_arr, Cache_Max_Frames := 2, Cache_Current_Time := 3 }

/-- The driver after `cart_poweron` on the program-start globals, with the storing
controller behind the bus. -/
def on1024 : Driver Controller :=
  (cart_poweron cfg1024 (faithful_bus cfg1024) (Driver.start Controller.fresh)).1

/-- The driver after `cart_poweron` and `cart_open("a")`; the handle returned is 1. -/
def opened1024 : Driver Controller := (cart_open on1024 "a").1

/-- The storing controller as the bus of the configuration `cfg1024`. -/
def bus1024 : Bus Controller := faithful_bus cfg1024

/-- An all-zero buffer. -/
def zeros : Buf := fun _ => 0

/-- A run from `cart_poweron`: open `"a"` (handle 1), write 1024 bytes `1` (a whole frame),
seek to 5, write the two bytes `77, 88`, seek to 5, read two bytes.  `frame_pos` is what
the uninitialised local of `cart_read` holds; the uninitialised arrays are taken as zero.
Result: the values returned by the two writes and the two seeks in call order, the value
returned by the read, and the two bytes read. -/
def rewrite_then_read (frame_pos : Int) : Option (List Int) :=
  (cart_write cfg1024 bus1024 1 zeros opened1024 1 (fun _ => 1) 1024).bind fun w1 =>
  let s1 := cart_seek cfg1024 w1.1 1 5
  (cart_write cfg1024 bus1024 1 zeros s1.1 1 (fun j => if j = 0 then 77 else 88) 2).bind
    fun w2 =>
  let s2 := cart_seek cfg1024 w2.1 1 5
  (cart_read cfg1024 bus1024 1 frame_pos zeros s2.1 1 zeros 2).map fun r =>
  [w1.2, s1.2, w2.2, s2.2, r.2.2, r.2.1 0, r.2.1 1]

/-- A run from `cart_poweron`: open `"a"` (handle 1), write 1024 bytes `1` (a whole frame),
seek to 0, write the single byte `9`; `tempbuf` is what the uninitialised local array of
that second `cart_write` holds.  Result: the address of logical frame 0 and byte 1 of
that frame at the controller before the second write; then, after it, the address of
logical frame 0, bytes 0 and 1 of the frame of that address at the controller, byte 1 of
its cached copy, byte 1 of the frame of the old address at the controller, and the number
of bus requests the second write made. -/
def partial_rewrite (tempbuf : Buf) : Option (List Int) :=
  (cart_write cfg1024 bus1024 1 zeros opened1024 1 (fun _ => 1) 1024).bind fun w1 =>
  let s1 := cart_seek cfg1024 w1.1 1 0
  (cart_write cfg1024 bus1024 1 tempbuf s1.1 1 (fun _ => 9) 1).bind fun w2 =>
  let a1 := (w1.1.FileArray 1).FrameList 0
  let a2 := (w2.1.FileArray 1).FrameList 0
  (get_cart_cache w2.1.cache a2.cart_index a2.frame_index).map fun g =>
  [a1.cart_index, a1.frame_index, w1.1.ctl.frames a1.cart_index a1.frame_index 1,
   a2.cart_index, a2.frame_index, w2.1.ctl.frames a2.cart_index a2.frame_index 0,
   w2.1.ctl.frames a2.cart_index a2.frame_index 1, (g.1.getD zeros) 1,
   w2.1.ctl.frames a1.cart_index a1.frame_index 1,
   w2.1.ctl.log.length - w1.1.ctl.log.length]

/-- A run from `cart_poweron`: open `"a"` (handle 1), write 1024 bytes `1`, seek to 0, read
1024 bytes with fuel for two iterations; `frame_pos` is what the uninitialised local of
`cart_read` holds.  Result: the value returned by the read, then the current position and
the end position of the file after it. -/
def read_whole_frame (frame_pos : Int) : Option (List Int) :=
  (cart_write cfg1024 bus1024 1 zeros opened1024 1 (fun _ => 1) 1024).bind fun w1 =>
  let s1 := cart_seek cfg1024 w1.1 1 0
  (cart_read cfg1024 bus1024 2 frame_pos zeros s1.1 1 zeros 1024).map fun r =>
  [r.2.2, (r.1.FileArray 1).current_pos, (r.1.FileArray 1).end_pos]

/-- A run from `cart_poweron`: open `"a"`, write three bytes, close, open `"a"` again.
Result: the handle of the first open, the values returned by the write and the close, the
handle of the second open, then `file_counter`, the end position of the entry of the
first handle and the end position of the entry of the second handle. -/
def reopen_after_close : Option (List Int) :=
  let o1 := cart_open on1024 "a"
  (cart_write cfg1024 bus1024 1 zeros o1.1 o1.2 (fun _ => 65) 3).map fun w =>
  let c := cart_close cfg1024 w.1 o1.2
  let o2 := cart_open c.1 "a"
  [o1.2, w.2, c.2, o2.2, o2.1.file_counter, (o2.1.FileArray o1.2).end_pos,
   (o2.1.FileArray o2.2).end_pos]

/-- The `k`-th of a family of pairwise different paths: `k / 32` letters `a` followed by
`k % 32` letters `b` (the empty path for `k = 0`, at most 63 characters for `k ≤ 1024`). -/
def path_of (k : Nat) : String :=
  String.mk (List.replicate (k / 32) 'a' ++ List.replicate (k % 32) 'b')

/-- The driver after `cart_open` of the `k` paths `path_of 1`, ..., `path_of k`, in this
order. -/
def open_many {σ : Type} (d : Driver σ) : Nat → Driver σ
  | 0 => d
  | k + 1 => (cart_open (open_many d k) (path_of (k + 1))).1

/-! ## Cache size and release, power off -/

/-- `set_cart_cache_size`: stores `max_frames` (a `uint32_t`) in `Cache_Max_Frames`, then
compares the two and returns `-1` when they differ, `0` otherwise. -/
def set_cart_cache_size (c : Cache) (max_frames : Nat) : Cache × Int :=
  let c1 := { c with Cache_Max_Frames := max_frames % 2 ^ 32 }
  if max_frames % 2 ^ 32 ≠ c1.Cache_Max_Frames then (c1, -1) else (c1, 0)

/-- `close_cart_cache`: `free(LRUCache)`, then the pointer is set to null; returns `0`.
(The head of the function is swallowed by its comment block in the source; the
statements that are left are these.) -/
def close_cart_cache (c : Cache) : Cache × Int :=
  ({ c with LRUCache := none }, 0)

/-- `cart_poweroff`: send the power-off command; when the response's `RT1` is not zero
return `-1`, otherwise close the cache and return `0`. -/
def cart_poweroff {σ : Type} (cfg : Config) (bus : Bus σ) (d : Driver σ) : Driver σ × Int :=
  let regstate := create_cart_regstate cfg.CART_OP_POWOFF 0 0 0 0
  let r := bus d.ctl regstate none
  let oregstate := r.1
  let d1 := { d with ctl := r.2.2 }
  if oregstate.RT1 ≠ 0 then (d1, -1)
  else ({ d1 with cache := (close_cart_cache d1.cache).1 }, 0)

/-- A bus whose controller answers every command with the return flag `flag` and does
nothing else but record the register received. -/
def flag_bus (flag : Nat) : Bus Controller := fun s regstate buf =>
  ({ extract_cart_opcode regstate with RT1 := flag }, buf.getD (fun _ => 0),
   { s with log := regstate :: s.log })

/-- The commands that `cart_poweron`, run on the program-start globals, sends to a
controller that answers every command with success: the command code and the cartridge
field of every register received, in the order of arrival. -/
def poweron_commands : List (Nat × Nat) :=
  (cart_poweron cfg1024 (flag_bus 0) (Driver.start Controller.fresh)).1.ctl.log.reverse.map
    fun r => ((extract_cart_opcode r).KY1, (extract_cart_opcode r).CT1)

/-- The state `cart_poweron` leaves in the run of `poweron_commands`: the value returned,
the loaded cartridge, the file counter, the cursor, and the number of entries among the
1024 of the table that are marked open. -/
def poweron_outcome : List Int :=
  let r := cart_poweron cfg1024 (flag_bus 0) (Driver.start Controller.fresh)
  [r.2, r.1.loaded_cartridge, r.1.file_counter, r.1.avail_cart, r.1.avail_frame,
   ((List.range 1024).filter fun i => (r.1.FileArray i).file_open ≠ 0).length]

/-! ## Cache deletion and runs of cache calls -/

/-- `delete_cart_cache`: the first occupied slot that holds the key is marked unoccupied
(`free = 0`) and its frame data returned; `NULL` when no slot holds the key.  The outer
`none`: the call dereferences the null pointer. -/
def delete_cart_cache (c : Cache) (cart blk : Nat) : Option (Option Buf × Cache) :=
  match c.LRUCache with
  | none => if c.Cache_Max_Frames = 0 then some (none, c) else none
  | some arr =>
    match find_slot arr cart blk c.Cache_Max_Frames 0 with
    | some i =>
      some (some (arr i).FrameData,
        { c with LRUCache := some (set_slot arr i { arr i with free := 0 }) })
    | none => some (none, c)

/-- A call of the cache interface with its arguments. -/
inductive CacheOp where
  | put (cart frm : Nat) (buf : Buf)
  | get (cart frm : Nat)
  | delete (cart frm : Nat)

/-- The cache after one call (`none`: the call dereferences the null pointer). -/
def run_cache_op (cfg : Config) (c : Cache) : CacheOp → Option Cache
  | .put cart frm buf => put_cart_cache cfg c cart frm buf
  | .get cart frm => (get_cart_cache c cart frm).map fun r => r.2
  | .delete cart frm => (delete_cart_cache c cart frm).map fun r => r.2

/-- The cache after a sequence of calls, first call first. -/
def run_cache_ops (cfg : Config) (c : Cache) : List CacheOp → Option Cache
  | [] => some c
  | op :: ops => (run_cache_op cfg c op).bind fun c1 => run_cache_ops cfg c1 ops

/-- No two occupied slots of the array, below the capacity `n`, hold the same (cartridge
index, frame index) pair. -/
def keys_unique (arr : Nat → LRUCache_Frame) (n : Nat) : Prop :=
  ∀ i j, i < n → j < n → (arr i).free = 1 → (arr j).free = 1 →
    (arr i).cart_index = (arr j).cart_index → (arr i).frame_index = (arr j).frame_index →
    i = j

/-! ## Runs for the position and address invariants -/

/-- A run from `cart_poweron`: open `"a"` (handle 1), write 1024 bytes `1`, seek to 0, read
1024 bytes with fuel for three iterations; `frame_pos` is what the uninitialised local of
`cart_read` holds.  Result: the current position and the end position of the file before
the read, the value the read returns, the current position and the end position after
it. -/
def read_positions (frame_pos : Int) : Option (List Int) :=
  (cart_write cfg1024 bus1024 1 zeros opened1024 1 (fun _ => 1) 1024).bind fun w1 =>
  let s1 := cart_seek cfg1024 w1.1 1 0
  (cart_read cfg1024 bus1024 3 frame_pos zeros s1.1 1 zeros 1024).map fun r =>
  [(s1.1.FileArray 1).current_pos, (s1.1.FileArray 1).end_pos, r.2.2,
   (r.1.FileArray 1).current_pos, (r.1.FileArray 1).end_pos]

/-- A run from `cart_poweron`: open `"a"` (handle 1), write 1024 bytes `1` (logical frame
0), seek to 5, write two bytes inside logical frame 0.  Result: after the first write the
address (cartridge, frame) stored for logical frame 0 and the cursor (`avail_cart`,
`avail_frame`); after the second write the address stored for logical frame 0 and the
cursor. -/
def rewrite_addresses : Option (List Int) :=
  (cart_write cfg1024 bus1024 1 zeros opened1024 1 (fun _ => 1) 1024).bind fun w1 =>
  let s1 := cart_seek cfg1024 w1.1 1 5
  (cart_write cfg1024 bus1024 1 zeros s1.1 1 (fun _ => 9) 2).map fun w2 =>
  [((w1.1.FileArray 1).FrameList 0).cart_index, ((w1.1.FileArray 1).FrameList 0).frame_index,
   w1.1.avail_cart, w1.1.avail_frame,
   ((w2.1.FileArray 1).FrameList 0).cart_index, ((w2.1.FileArray 1).FrameList 0).frame_index,
   w2.1.avail_cart, w2.1.avail_frame]

/-! ## The allocation cursor and runs of file operations -/

/-- The allocation statements of `cart_write` (lines 419-426) for logical frame `list_loc`
of the file `fd`: the cursor is stored as the address of that logical frame, then moved
on by one frame (to the next cartridge after the last frame of a cartridge). -/
def allocate {σ : Type} (cfg : Config) (d : Driver σ) (fd : Int) (list_loc : Int) : Driver σ :=
  let f := d.FileArray fd
  let a : Frame := { cart_index := d.avail_cart, frame_index := d.avail_frame }
  let f1 := { f with FrameList := set_frame f.FrameList list_loc a }
  let d1 := set_file d fd f1
  if (d.avail_frame : Int) ≥ (cfg.CART_CARTRIDGE_SIZE : Int) - 1 then
    { d1 with avail_cart := (d.avail_cart + 1) % 2 ^ 16, avail_frame := 0 }
  else { d1 with avail_frame := (d.avail_frame + 1) % 2 ^ 16 }

/-- The place of the cursor in the order of the frames: cartridges first, frames
second. -/
def cursor_rank {σ : Type} (cfg : Config) (d : Driver σ) : Nat :=
  d.avail_cart * cfg.CART_CARTRIDGE_SIZE + d.avail_frame

/-- The second half of an iteration of the loop of `cart_write` (lines 431-442): the
segment is copied into the frame buffer, the frame is put into the cache and written to
the cartridge, the position of the file moves on by the segment length `wb`.  The
results of `put_cart_cache` and `WRCART_opcode` are not looked at.  `none` when the cache
call dereferences the null pointer. -/
def cart_write_store {σ : Type} (cfg : Config) (bus : Bus σ) (fd : Int) (buf : Buf)
    (d1 : Driver σ) (tempbuf1 : Buf) (frame_pos list_loc wb buf_loc : Int) :
    Option (Driver σ × Buf) :=
  let tempbuf2 := memcpy tempbuf1 frame_pos buf buf_loc wb
  let a := (d1.FileArray fd).FrameList list_loc
  match put_cart_cache cfg d1.cache a.cart_index a.frame_index tempbuf2 with
  | none => none
  | some cache2 =>
    let w := WRCART_opcode cfg bus { d1 with cache := cache2 } a.cart_index
      a.frame_index tempbuf2
    let d3 := w.1
    let f3 := d3.FileArray fd
    let cur := f3.current_pos + wb
    some (set_file d3 fd
      { f3 with current_pos := cur,
                end_pos := if f3.end_pos < cur then cur else f3.end_pos }, w.2.1)

/-- One iteration of the loop of `cart_write` (the loop body, lines 406-443) from the
state `d` with the locals `tempbuf`, `remaining_bytes` and `buf_loc`: the state and the
local `tempbuf` at the end of the iteration.  `none` when a cache call dereferences the
null pointer. -/
def cart_write_iter {σ : Type} (cfg : Config) (bus : Bus σ) (fd : Int) (buf : Buf)
    (d : Driver σ) (tempbuf : Buf) (remaining_bytes buf_loc : Int) :
    Option (Driver σ × Buf) :=
  let f := d.FileArray fd
  let frame_pos := f.current_pos.tmod cfg.CART_FRAME_SIZE
  let list_loc := f.current_pos.tdiv cfg.CART_FRAME_SIZE
  let wb := write_bytes cfg remaining_bytes frame_pos
  let step1 : Option (Driver σ × Buf) :=
    if list_loc > f.frame_list_index then some (allocate cfg d fd list_loc, tempbuf)
    else
      match RDCART_opcode cfg bus d (f.FrameList list_loc).cart_index
          (f.FrameList list_loc).frame_index tempbuf with
      | none => none
      | some (d1, tempbuf1, _) => some (d1, tempbuf1)
  match step1 with
  | none => none
  | some (d1, tempbuf1) =>
    cart_write_store cfg bus fd buf d1 tempbuf1 frame_pos list_loc wb buf_loc

/-- A call of a file operation with its arguments (for `read` and `write` also the fuel
and the contents of the uninitialised locals). -/
inductive FileOp where
  | call_open (path : String)
  | call_close (fd : Int)
  | call_seek (fd : Int) (loc : Nat)
  | call_read (fuel : Nat) (frame_pos : Int) (tempbuf : Buf) (fd : Int) (buf : Buf) (count : Int)
  | call_write (fuel : Nat) (tempbuf : Buf) (fd : Int) (buf : Buf) (count : Int)

/-- The driver after one file operation (`none`: the call has not returned). -/
def run_file_op {σ : Type} (cfg : Config) (bus : Bus σ) (d : Driver σ) :
    FileOp → Option (Driver σ)
  | .call_open path => some (cart_open d path).1
  | .call_close fd => some (cart_close cfg d fd).1
  | .call_seek fd loc => some (cart_seek cfg d fd loc).1
  | .call_read fuel frame_pos tempbuf fd buf count =>
    (cart_read cfg bus fuel frame_pos tempbuf d fd buf count).map fun r => r.1
  | .call_write fuel tempbuf fd buf count =>
    (cart_write cfg bus fuel tempbuf d fd buf count).map fun r => r.1

/-- The driver after a sequence of file operations, first call first. -/
def run_file_ops {σ : Type} (cfg : Config) (bus : Bus σ) (d : Driver σ) :
    List FileOp → Option (Driver σ)
  | [] => some d
  | op :: ops => (run_file_op cfg bus d op).bind fun d1 => run_file_ops cfg bus d1 ops

/-- An upper bound of the number of loop iterations, hence of allocations, of the writes
of a sequence of file operations: the sum of their fuels. -/
def write_fuel : List FileOp → Nat
  | [] => 0
  | .call_write fuel _ _ _ _ :: ops => fuel + write_fuel ops
  | _ :: ops => write_fuel ops

/-- The states that come after a state: `follows cfg bus n d e` when `e` is reached from
`d` by calls of `cart_open`, `cart_close`, `cart_seek`, calls of `cart_read` that return,
and iterations of the loop of `cart_write`, `n` of them iterations of that loop. -/
inductive follows {σ : Type} (cfg : Config) (bus : Bus σ) : Nat → Driver σ → Driver σ → Prop
  | here (d : Driver σ) : follows cfg bus 0 d d
  | iter (n : Nat) (d d4 e : Driver σ) (fd : Int) (buf tempbuf tempbuf4 : Buf)
      (remaining_bytes buf_loc : Int) :
      cart_write_iter cfg bus fd buf d tempbuf remaining_bytes buf_loc = some (d4, tempbuf4) →
      follows cfg bus n d4 e → follows cfg bus (n + 1) d e
  | opened (n : Nat) (d e : Driver σ) (path : String) :
      follows cfg bus n (cart_open d path).1 e → follows cfg bus n d e
  | closed (n : Nat) (d e : Driver σ) (fd : Int) :
      follows cfg bus n (cart_close cfg d fd).1 e → follows cfg bus n d e
  | sought (n : Nat) (d e : Driver σ) (fd : Int) (loc : Nat) :
      follows cfg bus n (cart_seek cfg d fd loc).1 e → follows cfg bus n d e
  | read (n : Nat) (d d1 e : Driver σ) (fuel : Nat) (frame_pos : Int) (tempbuf : Buf)
      (fd : Int) (buf buf1 : Buf) (count r : Int) :
      cart_read cfg bus fuel frame_pos tempbuf d fd buf count = some (d1, buf1, r) →
      follows cfg bus n d1 e → follows cfg bus n d e

/-- The driver after `n` rounds of: seek handle 1 to position 0, write one byte; from
`opened1024`. -/
def rewrite_many : Nat → Option (Driver Controller)
  | 0 => some opened1024
  | n + 1 =>
    (rewrite_many n).bind fun d =>
      (cart_write cfg1024 bus1024 1 zeros (cart_seek cfg1024 d 1 0).1 1 (fun _ => 9) 1).map
        fun w => w.1

/-! ## Runs of the cache clock and of a write behind the end position -/

/-- The cache after `n` calls `put_cart_cache(1, 1, zeros)` in a row (`none`: a call
dereferences the null pointer). -/
def put_repeat (cfg : Config) : Nat → Cache → Option Cache
  | 0, c => some c
  | n + 1, c => (put_repeat cfg n c).bind fun c1 => put_cart_cache cfg c1 1 1 zeros

/-- The cache from program start after `set_cart_cache_size(2)`, `init_cart_cache()` and
`n` puts of the key (1, 1). -/
def aged_cache (n : Nat) : Option Cache :=
  put_repeat cfg1024 n
    (init_cart_cache (set_cart_cache_size (Driver.start Controller.fresh).cache 2).1).1

/-- The cache `aged_cache` arrives at after `n + 1` puts: the key (1, 1) in slot 0 with
the stamp of the clock value `n`, slot 1 unoccupied, the clock at `n + 1`. -/
def aged (n : Nat) : Cache :=
  { LRUCache := some fun i =>
      if i = 0 then
        { cart_index := 1, frame_index := 1, FrameData := fun _ => 0,
          access_time := int_of_uint32 n, free := 1 }
      else zero_frame
    Cache_Max_Frames := 2
    Cache_Current_Time := n + 1 }

/-- The LRU scenario on a cache of capacity 2 that holds the key (1, 1): put of the key
(1, 2), which fills the cache; get of (1, 1), the touch; put of the new key (2, 2), which
evicts.  Result: whether the touch found (1, 1), and whether (1, 1), (1, 2) and (2, 2) are
found in the cache after the eviction. -/
def touch_then_evict (cfg : Config) (c : Cache) : Option (List Bool) :=
  (put_cart_cache cfg c 1 2 zeros).bind fun c1 =>
  (get_cart_cache c1 1 1).bind fun g =>
  (put_cart_cache cfg g.2 2 2 zeros).bind fun c2 =>
  (get_cart_cache c2 1 1).bind fun a =>
  (get_cart_cache c2 1 2).bind fun b =>
  (get_cart_cache c2 2 2).map fun k =>
  [g.1.isSome, a.1.isSome, b.1.isSome, k.1.isSome]

/-- A run from `cart_poweron`: open `"a"` (handle 1), write 1024 bytes `1`, seek to 0, read
1024 bytes (`frame_pos` is what the uninitialised local of `cart_read` holds), then a
`cart_write` of `count` 0.  Result: the current position and the end position before
that write, the value it returns, the current position and the end position after it. -/
def write_nothing_after_read (frame_pos : Int) : Option (List Int) :=
  (cart_write cfg1024 bus1024 1 zeros opened1024 1 (fun _ => 1) 1024).bind fun w1 =>
  let s1 := cart_seek cfg1024 w1.1 1 0
  (cart_read cfg1024 bus1024 3 frame_pos zeros s1.1 1 zeros 1024).bind fun r =>
  (cart_write cfg1024 bus1024 0 zeros r.1 1 (fun _ => 9) 0).map fun w2 =>
  [(r.1.FileArray 1).current_pos, (r.1.FileArray 1).end_pos, w2.2,
   (w2.1.FileArray 1).current_pos, (w2.1.FileArray 1).end_pos]

/-! # Lemmas and theorems -/

/-! ### Codec lemmas -/

/-- Masking with `w` ones placed at bit `k` and shifting right by `k` reads the `w`-bit
field at bit `k`. -/
theorem mask_shift_eq_div_mod (x k w : Nat) :
    (x &&& ((2 ^ w - 1) <<< k)) >>> k = (x / 2 ^ k) % 2 ^ w := by
  apply Nat.eq_of_testBit_eq
  intro i
  rw [← Nat.shiftRight_eq_div_pow]
  simp only [Nat.testBit_shiftRight, Nat.testBit_and, Nat.testBit_shiftLeft,
    Nat.testBit_two_pow_sub_one, Nat.testBit_mod_two_pow]
  by_cases h : i < w <;> simp [h]

/-- A field shifted above `k` bits and a value below `2 ^ k` do not overlap: their
bitwise or is their sum. -/
theorem shifted_or_eq_add (y x k : Nat) (h : x < 2 ^ k) :
    (y * 2 ^ k) ||| x = y * 2 ^ k + x := by
  rw [Nat.mul_comm]
  exact (Nat.mul_add_lt_is_or h y).symm

/-- Arithmetic form of the encoder, for arbitrary arguments. -/
theorem create_cart_regstate_eq_sum (KY1 KY2 RT1 CT1 FM1 : Nat) :
    create_cart_regstate KY1 KY2 RT1 CT1 FM1
      = (KY1 % 2 ^ 8) * 2 ^ 56 + (KY2 % 2 ^ 8) * 2 ^ 48 + (RT1 % 2) * 2 ^ 47
        + (CT1 % 2 ^ 16) * 2 ^ 31 + (FM1 % 2 ^ 16) * 2 ^ 15 := by
  have m8 : ∀ x : Nat, x &&& 0xff = x % 2 ^ 8 := fun x =>
    Nat.and_pow_two_sub_one_eq_mod x 8
  have m1 : ∀ x : Nat, x &&& 0x1 = x % 2 := fun x =>
    Nat.and_pow_two_sub_one_eq_mod x 1
  have m16 : ∀ x : Nat, x &&& 0xffff = x % 2 ^ 16 := fun x =>
    Nat.and_pow_two_sub_one_eq_mod x 16
  have a := Nat.mod_lt KY1 (show 0 < 2 ^ 8 by norm_num)
  have b := Nat.mod_lt KY2 (show 0 < 2 ^ 8 by norm_num)
  have c := Nat.mod_lt RT1 (show 0 < 2 by norm_num)
  have d := Nat.mod_lt CT1 (show 0 < 2 ^ 16 by norm_num)
  have e := Nat.mod_lt FM1 (show 0 < 2 ^ 16 by norm_num)
  simp only [create_cart_regstate, m8, m1, m16, Nat.shiftLeft_eq, Nat.or_zero]
  generalize KY1 % 2 ^ 8 = k1 at *
  generalize KY2 % 2 ^ 8 = k2 at *
  generalize RT1 % 2 = r at *
  generalize CT1 % 2 ^ 16 = ct at *
  generalize FM1 % 2 ^ 16 = fm at *
  rw [Nat.mod_eq_of_lt (show k1 * 2 ^ 56 < 2 ^ 64 by omega),
    Nat.mod_eq_of_lt (show k2 * 2 ^ 48 < 2 ^ 64 by omega),
    Nat.mod_eq_of_lt (show r * 2 ^ 47 < 2 ^ 64 by omega),
    Nat.mod_eq_of_lt (show ct * 2 ^ 31 < 2 ^ 64 by omega),
    Nat.mod_eq_of_lt (show fm * 2 ^ 15 < 2 ^ 64 by omega)]
  rw [Nat.or_assoc, Nat.or_assoc, Nat.or_assoc,
    shifted_or_eq_add ct (fm * 2 ^ 15) 31 (by omega),
    shifted_or_eq_add r _ 47 (by omega),
    shifted_or_eq_add k2 _ 48 (by omega),
    shifted_or_eq_add k1 _ 56 (by omega)]
  omega

/-- The decoder reads each field as a quotient and remainder of the register. -/
theorem extract_cart_opcode_eq_div_mod (reg : Nat) :
    extract_cart_opcode reg
      = { KY1 := reg / 2 ^ 56 % 2 ^ 8
          KY2 := reg / 2 ^ 48 % 2 ^ 8
          RT1 := reg / 2 ^ 47 % 2 ^ 1
          CT1 := reg / 2 ^ 31 % 2 ^ 16
          FM1 := reg / 2 ^ 15 % 2 ^ 16 } := by
  have h1 := mask_shift_eq_div_mod reg 56 8
  have h2 := mask_shift_eq_div_mod reg 48 8
  have h3 := mask_shift_eq_div_mod reg 47 1
  have h4 := mask_shift_eq_div_mod reg 31 16
  have h5 := mask_shift_eq_div_mod reg 15 16
  norm_num at h1 h2 h3 h4 h5
  simp only [extract_cart_opcode]
  norm_num
  exact ⟨h1, h2, h3, h4, h5⟩

/-! ### Codec: claim C2 -/

/-- C2 (codec round-trip): for every field tuple with `command < 2^8`,
`sub_command < 2^8`, `return_flag < 2`, `cartridge_index < 2^16` and
`frame_index < 2^16`, the five fields `extract_cart_opcode` computes from
`create_cart_regstate` of the tuple are the tuple. -/
theorem codec_round_trip (KY1 KY2 RT1 CT1 FM1 : Nat)
    (h1 : KY1 < 2 ^ 8) (h2 : KY2 < 2 ^ 8) (h3 : RT1 < 2)
    (h4 : CT1 < 2 ^ 16) (h5 : FM1 < 2 ^ 16) :
    extract_cart_opcode (create_cart_regstate KY1 KY2 RT1 CT1 FM1)
      = { KY1 := KY1, KY2 := KY2, RT1 := RT1, CT1 := CT1, FM1 := FM1 } := by
  rw [extract_cart_opcode_eq_div_mod, create_cart_regstate_eq_sum,
    Nat.mod_eq_of_lt h1, Nat.mod_eq_of_lt h2, Nat.mod_eq_of_lt h3,
    Nat.mod_eq_of_lt h4, Nat.mod_eq_of_lt h5]
  norm_num at h1 h2 h4 h5 ⊢
  refine ⟨?_, ?_, ?_, ?_, ?_⟩ <;> omega

/-- Witness for `codec_round_trip`: the tuple `(4, 0, 1, 63, 1023)`. -/
theorem codec_round_trip_witness :
    extract_cart_opcode (create_cart_regstate 4 0 1 63 1023)
      = { KY1 := 4, KY2 := 0, RT1 := 1, CT1 := 63, FM1 := 1023 } :=
  codec_round_trip 4 0 1 63 1023 (by decide) (by decide) (by decide) (by decide) (by decide)

/-! ### Cache lemmas -/

theorem find_slot_eq_none (arr : Nat → LRUCache_Frame) (cart frm : Nat) :
    ∀ (n s : Nat), (∀ i, s ≤ i → i < s + n → ¬ holds arr cart frm i) →
      find_slot arr cart frm n s = none := by
  intro n
  induction n with
  | zero => intro s _; rfl
  | succ n ih =>
    intro s h
    have hs : ¬ holds arr cart frm s := h s (Nat.le_refl s) (by omega)
    unfold holds at hs
    rw [find_slot, if_neg hs]
    exact ih (s + 1) (fun i h1 h2 => h i (by omega) (by omega))

theorem find_slot_eq_some (arr : Nat → LRUCache_Frame) (cart frm : Nat) :
    ∀ (n s i : Nat), s ≤ i → i < s + n → holds arr cart frm i →
      (∀ j, s ≤ j → j < i → ¬ holds arr cart frm j) →
      find_slot arr cart frm n s = some i := by
  intro n
  induction n with
  | zero => intro s i h1 h2; omega
  | succ n ih =>
    intro s i h1 h2 hi hfirst
    by_cases hsi : s = i
    · subst hsi
      unfold holds at hi
      rw [find_slot, if_pos hi]
    · have hs : ¬ holds arr cart frm s := hfirst s (Nat.le_refl s) (by omega)
      unfold holds at hs
      rw [find_slot, if_neg hs]
      exact ih (s + 1) i (by omega) (by omega) hi (fun j h3 h4 => hfirst j (by omega) h4)

theorem find_slot_some_holds (arr : Nat → LRUCache_Frame) (cart frm : Nat) :
    ∀ (n s i : Nat), find_slot arr cart frm n s = some i →
      s ≤ i ∧ i < s + n ∧ holds arr cart frm i := by
  intro n
  induction n with
  | zero => intro s i h; simp [find_slot] at h
  | succ n ih =>
    intro s i h
    rw [find_slot] at h
    split at h
    · rename_i hh
      have : s = i := by simpa using h
      subst this
      exact ⟨Nat.le_refl s, by omega, hh⟩
    · obtain ⟨h1, h2, h3⟩ := ih (s + 1) i h
      exact ⟨by omega, by omega, h3⟩

/-- The second loop of `put_cart_cache` over occupied slots: no free slot is reported,
and `Time_Min` ends on the first slot of least access time. -/
theorem put_scan_full (arr : Nat → LRUCache_Frame) :
    ∀ (n s tm : Nat), tm ≤ s → (∀ i, s ≤ i → i < s + n → (arr i).free ≠ 0) →
      ∃ v, put_scan arr n s tm = (-1, v) ∧ (v = tm ∨ (s ≤ v ∧ v < s + n)) ∧
        (arr v).access_time ≤ (arr tm).access_time ∧
        (∀ i, s ≤ i → i < s + n → (arr v).access_time ≤ (arr i).access_time) ∧
        (v ≠ tm → (arr v).access_time < (arr tm).access_time) ∧
        (∀ i, s ≤ i → i < v → (arr v).access_time < (arr i).access_time) := by
  intro n
  induction n with
  | zero =>
    intro s tm hts _
    exact ⟨tm, rfl, Or.inl rfl, le_refl _, fun i h1 h2 => by omega,
      fun h => absurd rfl h, fun i h1 h2 => by omega⟩
  | succ n ih =>
    intro s tm hts hfull
    have hs : (arr s).free ≠ 0 := hfull s (Nat.le_refl s) (by omega)
    have hrest : ∀ i, s + 1 ≤ i → i < s + 1 + n → (arr i).free ≠ 0 :=
      fun i h1 h2 => hfull i (by omega) (by omega)
    rw [put_scan, if_neg hs]
    by_cases hlt : (arr s).access_time < (arr tm).access_time
    · rw [if_pos hlt]
      obtain ⟨v, hv, hrange, hle, hall, hne, hfirst⟩ := ih (s + 1) s (by omega) hrest
      refine ⟨v, hv, ?_, by omega, ?_, fun _ => by omega, ?_⟩
      · rcases hrange with h | h
        · exact Or.inr ⟨by omega, by omega⟩
        · exact Or.inr ⟨by omega, by omega⟩
      · intro i h1 h2
        by_cases his : i = s
        · subst his; exact hle
        · exact hall i (by omega) (by omega)
      · intro i h1 h2
        by_cases his : i = s
        · subst his; exact hne (by omega)
        · exact hfirst i (by omega) h2
    · rw [if_neg hlt]
      obtain ⟨v, hv, hrange, hle, hall, hne, hfirst⟩ := ih (s + 1) tm (by omega) hrest
      refine ⟨v, hv, ?_, hle, ?_, hne, ?_⟩
      · rcases hrange with h | h
        · exact Or.inl h
        · exact Or.inr ⟨by omega, by omega⟩
      · intro i h1 h2
        by_cases his : i = s
        · subst his; omega
        · exact hall i (by omega) (by omega)
      · intro i h1 h2
        by_cases his : i = s
        · subst his
          have : v ≠ tm := by omega
          have := hne this
          omega
        · exact hfirst i (by omega) h2

/-- On a full cache `put_index` is the first slot of least access time. -/
theorem put_index_full (arr : Nat → LRUCache_Frame) (n : Nat) (hn : 1 ≤ n)
    (hfull : ∀ i, i < n → (arr i).free = 1) :
    put_index arr n < n ∧
      (∀ i, i < n → (arr (put_index arr n)).access_time ≤ (arr i).access_time) ∧
      (∀ i, i < put_index arr n →
        (arr (put_index arr n)).access_time < (arr i).access_time) := by
  obtain ⟨v, hv, hrange, _, hall, _, hfirst⟩ := put_scan_full arr n 0 0 (Nat.le_refl 0)
    (fun i _ h2 => by rw [hfull i (by omega)]; decide)
  have hidx : put_index arr n = v := by
    simp [put_index, hv]
  rw [hidx]
  refine ⟨by omega, fun i hi => hall i (Nat.zero_le i) (by omega),
    fun i hi => hfirst i (Nat.zero_le i) hi⟩

theorem get_cart_cache_hit (c : Cache) (arr : Nat → LRUCache_Frame) (kc kf i : Nat)
    (harr : c.LRUCache = some arr)
    (hfind : find_slot arr kc kf c.Cache_Max_Frames 0 = some i) :
    get_cart_cache c kc kf = some (some (arr i).FrameData,
      { c with
        LRUCache := some (set_slot arr i { arr i with
          access_time := int_of_uint32 c.Cache_Current_Time })
        Cache_Current_Time := (c.Cache_Current_Time + 1) % 2 ^ 32 }) := by
  simp only [get_cart_cache, harr, hfind]

theorem get_cart_cache_miss (c : Cache) (arr : Nat → LRUCache_Frame) (kc kf : Nat)
    (harr : c.LRUCache = some arr)
    (hfind : find_slot arr kc kf c.Cache_Max_Frames 0 = none) :
    get_cart_cache c kc kf = some (none, c) := by
  simp only [get_cart_cache, harr, hfind]

/-- A hit of `get_cart_cache` read backwards: the slot found, the data returned and the
cache left behind. -/
theorem get_cart_cache_some_inv (c0 c : Cache) (arr0 : Nat → LRUCache_Frame) (kc kf : Nat)
    (data : Buf) (harr0 : c0.LRUCache = some arr0)
    (hget : get_cart_cache c0 kc kf = some (some data, c)) :
    ∃ j, j < c0.Cache_Max_Frames ∧ holds arr0 kc kf j ∧ data = (arr0 j).FrameData ∧
      c = { c0 with
        LRUCache := some (set_slot arr0 j { arr0 j with
          access_time := int_of_uint32 c0.Cache_Current_Time })
        Cache_Current_Time := (c0.Cache_Current_Time + 1) % 2 ^ 32 } := by
  cases hfind : find_slot arr0 kc kf c0.Cache_Max_Frames 0 with
  | none =>
    rw [get_cart_cache_miss c0 arr0 kc kf harr0 hfind] at hget
    simp at hget
  | some j =>
    rw [get_cart_cache_hit c0 arr0 kc kf j harr0 hfind] at hget
    obtain ⟨_, h2, h3⟩ := find_slot_some_holds arr0 kc kf _ _ _ hfind
    simp only [Option.some.injEq, Prod.mk.injEq] at hget
    exact ⟨j, by omega, h3, hget.1.symm, hget.2.symm⟩

/-! ### Cache: eviction by access time -/

/-- Eviction by access time: in a cache whose slots are all occupied (with pairwise different
keys, the invariant of the cache entries), `put_cart_cache` of a key that is not
resident overwrites exactly the slot `v` of smallest access time, the lowest index among
equal access times; afterwards `get_cart_cache` does not find the evicted key and finds
every other previously resident key with its frame bytes unchanged.  In particular, when
the cache is the one left by a hit of `get_cart_cache` on a key and some other slot has an
access time below the stamp of that touch (the clock value as an `int`), the touched key
is still found after the put. -/
theorem lru_eviction (cfg : Config) (c : Cache) (arr : Nat → LRUCache_Frame)
    (cart frm : Nat) (buf : Buf)
    (harr : c.LRUCache = some arr)
    (hcap : 1 ≤ c.Cache_Max_Frames)
    (hfull : ∀ i, i < c.Cache_Max_Frames → (arr i).free = 1)
    (huniq : ∀ i j, i < c.Cache_Max_Frames → j < c.Cache_Max_Frames →
      (arr i).cart_index = (arr j).cart_index →
      (arr i).frame_index = (arr j).frame_index → i = j)
    (hnew : ∀ i, i < c.Cache_Max_Frames →
      ¬ ((arr i).cart_index = cart ∧ (arr i).frame_index = frm)) :
    ∃ (v : Nat) (arr' : Nat → LRUCache_Frame) (c' : Cache),
      v < c.Cache_Max_Frames ∧
      (∀ i, i < c.Cache_Max_Frames → (arr v).access_time ≤ (arr i).access_time) ∧
      (∀ i, i < v → (arr v).access_time < (arr i).access_time) ∧
      put_cart_cache cfg c cart frm buf = some c' ∧
      c'.LRUCache = some arr' ∧ c'.Cache_Max_Frames = c.Cache_Max_Frames ∧
      arr' v = { cart_index := cart, frame_index := frm,
                 FrameData := memcpy (arr v).FrameData 0 buf 0 cfg.CART_FRAME_SIZE,
                 access_time := int_of_uint32 c.Cache_Current_Time, free := 1 } ∧
      (∀ i, i ≠ v → arr' i = arr i) ∧
      (∃ c'', get_cart_cache c' (arr v).cart_index (arr v).frame_index = some (none, c'')) ∧
      (∀ i, i < c.Cache_Max_Frames → i ≠ v →
        ∃ c'', get_cart_cache c' (arr i).cart_index (arr i).frame_index
          = some (some (arr i).FrameData, c'')) ∧
      (∀ (c0 : Cache) (arr0 : Nat → LRUCache_Frame) (kc kf : Nat) (data : Buf),
        c0.LRUCache = some arr0 →
        get_cart_cache c0 kc kf = some (some data, c) →
        (∃ m, m < c.Cache_Max_Frames ∧
          ¬ ((arr0 m).cart_index = kc ∧ (arr0 m).frame_index = kf) ∧
          (arr0 m).access_time < int_of_uint32 c0.Cache_Current_Time) →
        ∃ c'', get_cart_cache c' kc kf = some (some data, c'')) := by
  obtain ⟨hv, hmin, hfirst⟩ := put_index_full arr c.Cache_Max_Frames hcap hfull
  have hnone : find_slot arr cart frm c.Cache_Max_Frames 0 = none :=
    find_slot_eq_none arr cart frm _ 0
      (fun i _ h2 hh => hnew i (by omega) ⟨hh.1, hh.2.1⟩)
  generalize hvdef : put_index arr c.Cache_Max_Frames = v at hv hmin hfirst
  let e : LRUCache_Frame :=
    { cart_index := cart, frame_index := frm,
      FrameData := memcpy (arr v).FrameData 0 buf 0 cfg.CART_FRAME_SIZE,
      access_time := int_of_uint32 c.Cache_Current_Time, free := 1 }
  let c' : Cache :=
    { c with
      LRUCache := some (set_slot arr v e)
      Cache_Current_Time := (c.Cache_Current_Time + 1) % 2 ^ 32 }
  have hput : put_cart_cache cfg c cart frm buf = some c' := by
    simp only [put_cart_cache, harr, hnone, hvdef, c', e]
  have hsame : ∀ i, i ≠ v → set_slot arr v e i = arr i := by
    intro i hi
    simp [set_slot, hi]
  have hat : set_slot arr v e v = e := by simp [set_slot]
  -- every other resident key is found in its own slot
  have hothers : ∀ i, i < c.Cache_Max_Frames → i ≠ v →
      ∃ c'', get_cart_cache c' (arr i).cart_index (arr i).frame_index
        = some (some (arr i).FrameData, c'') := by
    intro i hi hiv
    have hfind : find_slot (set_slot arr v e) (arr i).cart_index (arr i).frame_index
        c'.Cache_Max_Frames 0 = some i := by
      apply find_slot_eq_some _ _ _ _ 0 i (Nat.zero_le i) (by simpa [c'] using hi)
      · unfold holds
        rw [hsame i hiv]
        exact ⟨rfl, rfl, hfull i hi⟩
      · intro j _ hji hh
        unfold holds at hh
        by_cases hjv : j = v
        · subst hjv
          rw [hat] at hh
          exact hnew i hi ⟨hh.1.symm, hh.2.1.symm⟩
        · rw [hsame j hjv] at hh
          have := huniq j i (by omega) hi hh.1 hh.2.1
          omega
    have := get_cart_cache_hit c' (set_slot arr v e) _ _ i rfl hfind
    rw [hsame i hiv] at this
    exact ⟨_, this⟩
  refine ⟨v, set_slot arr v e, c', hv, hmin, hfirst, hput, rfl, rfl, hat, hsame, ?_,
    hothers, ?_⟩
  · -- the evicted key is in no slot
    have hfind : find_slot (set_slot arr v e) (arr v).cart_index (arr v).frame_index
        c'.Cache_Max_Frames 0 = none := by
      apply find_slot_eq_none
      intro j _ hj hh
      have hj' : j < c.Cache_Max_Frames := by simpa [c'] using hj
      unfold holds at hh
      by_cases hjv : j = v
      · subst hjv
        rw [hat] at hh
        exact hnew j hv ⟨hh.1.symm, hh.2.1.symm⟩
      · rw [hsame j hjv] at hh
        exact hjv (huniq j v hj' hv hh.1 hh.2.1)
    exact ⟨_, get_cart_cache_miss c' (set_slot arr v e) _ _ rfl hfind⟩
  · -- a key touched by `get_cart_cache` outlives the put
    intro c0 arr0 kc kf data harr0 hget ⟨m, hm, hkey, hold⟩
    obtain ⟨j, hj, hholds, hdata, hc⟩ := get_cart_cache_some_inv c0 c arr0 kc kf data harr0 hget
    have hmax : c.Cache_Max_Frames = c0.Cache_Max_Frames := by rw [hc]
    have harr' : arr = set_slot arr0 j { arr0 j with
        access_time := int_of_uint32 c0.Cache_Current_Time } := by
      have h := harr
      rw [hc] at h
      simpa using h.symm
    have hmj : m ≠ j := by
      intro h
      subst h
      exact hkey ⟨hholds.1, hholds.2.1⟩
    have hj_at : (arr j).access_time = int_of_uint32 c0.Cache_Current_Time := by
      rw [harr']; simp [set_slot]
    have hm_at : (arr m).access_time = (arr0 m).access_time := by
      rw [harr']; simp [set_slot, hmj]
    have hjv : j ≠ v := by
      intro h
      subst h
      have := hmin m hm
      omega
    obtain ⟨c'', hc''⟩ := hothers j (by omega) hjv
    have hjc : (arr j).cart_index = kc := by
      rw [harr']; simp [set_slot, hholds.1]
    have hjf : (arr j).frame_index = kf := by
      rw [harr']; simp [set_slot, hholds.2.1]
    have hjd : (arr j).FrameData = data := by
      rw [harr', hdata]; simp [set_slot]
    rw [hjc, hjf, hjd] at hc''
    exact ⟨c'', hc''⟩

/-- Witness for `lru_eviction`: in the full two-slot cache `full_cache` the put of the
key `(2, 2)` evicts the older key `(1, 2)` and keeps the touched key `(1, 1)`. -/
theorem lru_eviction_witness :
    ∃ c', put_cart_cache cfg1024 full_cache 2 2 (fun _ => 9) = some c' ∧
      (∃ c'', get_cart_cache c' 1 2 = some (none, c'')) ∧
      (∃ c'', get_cart_cache c' 1 1 = some (some (full_arr 0).FrameData, c'')) := by
  obtain ⟨v, arr', c', hv, hmin, _, hput, _, _, _, _, hev, hoth, _⟩ :=
    lru_eviction cfg1024 full_cache full_arr 2 2 (fun _ => 9) rfl (by decide) (by decide)
      (by
        intro i j hi hj
        have hi2 : i < 2 := hi
        have hj2 : j < 2 := hj
        interval_cases i <;> interval_cases j <;> simp [full_arr])
      (by decide)
  have h1 := hmin 1 (by decide)
  have hv1 : v = 1 := by
    have hv2 : v < 2 := hv
    interval_cases v
    · exact absurd h1 (by decide)
    · rfl
  subst hv1
  exact ⟨c', hput, hev, hoth 0 (by decide) (by decide)⟩

/-! ### Conversions and table updates -/

theorem uint32_of_int_eq (x : Int) (h0 : 0 ≤ x) (h1 : x < 2 ^ 32) :
    ((uint32_of_int x : Nat) : Int) = x := by
  unfold uint32_of_int
  rw [Int.emod_eq_of_lt h0 h1]
  exact Int.toNat_of_nonneg h0

theorem int_of_uint32_eq (t : Nat) (h : t < 2 ^ 31) : int_of_uint32 t = (t : Int) := by
  unfold int_of_uint32
  have : t % 2 ^ 32 = t := Nat.mod_eq_of_lt (by omega)
  rw [this, if_pos h]

theorem set_file_same {σ : Type} (d : Driver σ) (i : Int) (f : File) :
    (set_file d i f).FileArray i = f := by
  simp [set_file]

theorem set_file_other {σ : Type} (d : Driver σ) (i j : Int) (f : File) (h : j ≠ i) :
    (set_file d i f).FileArray j = d.FileArray j := by
  simp [set_file, h]

/-! ### Frame lemmas: what the controller commands leave alone -/

theorem put_cart_cache_alloc (cfg : Config) (c : Cache) (cart frm : Nat) (buf : Buf)
    (h : cache_alloc c) :
    ∃ c', put_cart_cache cfg c cart frm buf = some c' ∧ cache_alloc c' := by
  unfold cache_alloc at h
  cases harr : c.LRUCache with
  | none => rw [harr] at h; exact absurd h (by decide)
  | some arr =>
    cases hf : find_slot arr cart frm c.Cache_Max_Frames 0 with
    | none =>
      simp only [put_cart_cache, harr, hf]
      exact ⟨_, rfl, by simp [cache_alloc]⟩
    | some i =>
      simp only [put_cart_cache, harr, hf]
      exact ⟨_, rfl, by simp [cache_alloc]⟩

theorem get_cart_cache_alloc (c : Cache) (cart frm : Nat) (h : cache_alloc c) :
    ∃ r c', get_cart_cache c cart frm = some (r, c') ∧ cache_alloc c' := by
  unfold cache_alloc at h
  cases harr : c.LRUCache with
  | none => rw [harr] at h; exact absurd h (by decide)
  | some arr =>
    cases hf : find_slot arr cart frm c.Cache_Max_Frames 0 with
    | none =>
      exact ⟨_, _, get_cart_cache_miss c arr cart frm harr hf, by simp [cache_alloc, harr]⟩
    | some i =>
      exact ⟨_, _, get_cart_cache_hit c arr cart frm i harr hf, by simp [cache_alloc]⟩

theorem LDCART_opcode_frame {σ : Type} (cfg : Config) (bus : Bus σ) (d : Driver σ)
    (cart_index : Nat) :
    (LDCART_opcode cfg bus d cart_index).1.FileArray = d.FileArray ∧
    (LDCART_opcode cfg bus d cart_index).1.cache = d.cache := by
  simp only [LDCART_opcode]
  split_ifs <;> exact ⟨rfl, rfl⟩

theorem WRFRME_opcode_frame {σ : Type} (cfg : Config) (bus : Bus σ) (d : Driver σ)
    (frame_index : Nat) (buf : Buf) :
    (WRFRME_opcode cfg bus d frame_index buf).1.FileArray = d.FileArray ∧
    (WRFRME_opcode cfg bus d frame_index buf).1.cache = d.cache := by
  simp only [WRFRME_opcode]
  split_ifs <;> exact ⟨rfl, rfl⟩

theorem WRCART_opcode_frame {σ : Type} (cfg : Config) (bus : Bus σ) (d : Driver σ)
    (cart frame : Nat) (buf : Buf) :
    (WRCART_opcode cfg bus d cart frame buf).1.FileArray = d.FileArray ∧
    (WRCART_opcode cfg bus d cart frame buf).1.cache = d.cache := by
  simp only [WRCART_opcode]
  have h1 := LDCART_opcode_frame cfg bus d cart
  have h2 := WRFRME_opcode_frame cfg bus (LDCART_opcode cfg bus d cart).1 frame buf
  split_ifs
  · exact h1
  · exact ⟨h2.1.trans h1.1, h2.2.trans h1.2⟩

theorem RDFRME_opcode_frame {σ : Type} (cfg : Config) (bus : Bus σ) (d : Driver σ)
    (frame_index : Nat) (buf : Buf) (h : cache_alloc d.cache) :
    ∃ d' buf' r, RDFRME_opcode cfg bus d frame_index buf = some (d', buf', r) ∧
      d'.FileArray = d.FileArray ∧ cache_alloc d'.cache := by
  obtain ⟨r, c', hget, hc'⟩ := get_cart_cache_alloc d.cache d.loaded_cartridge frame_index h
  unfold RDFRME_opcode
  rw [hget]
  cases r with
  | none =>
    dsimp only
    split_ifs
    · exact ⟨_, _, _, rfl, rfl, hc'⟩
    · exact ⟨_, _, _, rfl, rfl, hc'⟩
  | some t => exact ⟨_, _, _, rfl, rfl, hc'⟩

theorem RDCART_opcode_frame {σ : Type} (cfg : Config) (bus : Bus σ) (d : Driver σ)
    (cart frame : Nat) (buf : Buf) (h : cache_alloc d.cache) :
    ∃ d' buf' r, RDCART_opcode cfg bus d cart frame buf = some (d', buf', r) ∧
      d'.FileArray = d.FileArray ∧ cache_alloc d'.cache := by
  obtain ⟨r, c', hget, hc'⟩ := get_cart_cache_alloc d.cache cart frame h
  unfold RDCART_opcode
  rw [hget]
  cases r with
  | some t => exact ⟨_, _, _, rfl, rfl, hc'⟩
  | none =>
    dsimp only
    have hl := LDCART_opcode_frame cfg bus { d with cache := c' } cart
    split_ifs with h1
    · exact ⟨_, _, _, rfl, hl.1, by rw [hl.2]; exact hc'⟩
    · obtain ⟨d2, buf2, r2, hrd, hfa, hca⟩ := RDFRME_opcode_frame cfg bus
        (LDCART_opcode cfg bus { d with cache := c' } cart).1 frame buf
        (by rw [hl.2]; exact hc')
      rw [hrd]
      dsimp only
      split_ifs with h2
      · exact ⟨_, _, _, rfl, hfa.trans hl.1, hca⟩
      · obtain ⟨c2, hput, hc2⟩ := put_cart_cache_alloc cfg d2.cache cart frame buf2 hca
        rw [hput]
        exact ⟨_, _, _, rfl, hfa.trans hl.1, hc2⟩

/-! ### `cart_write`: one iteration and the whole loop -/

theorem write_bytes_eq_min (cfg : Config) (hFS : 0 < cfg.CART_FRAME_SIZE)
    (remaining_bytes pos : Int) (hr : 0 < remaining_bytes) (hp : 0 ≤ pos) :
    write_bytes cfg remaining_bytes (pos.tmod cfg.CART_FRAME_SIZE)
      = min remaining_bytes (cfg.CART_FRAME_SIZE - pos % cfg.CART_FRAME_SIZE) := by
  rw [Int.tmod_eq_emod hp (le_of_lt hFS)]
  have h1 := Int.emod_nonneg pos (ne_of_gt hFS)
  have h2 := Int.emod_lt_of_pos pos hFS
  generalize pos % cfg.CART_FRAME_SIZE = fp at h1 h2
  unfold write_bytes
  by_cases hc : cfg.CART_FRAME_SIZE ≤ remaining_bytes + fp
  · rw [if_pos hc]
    omega
  · rw [if_neg hc]
    have h3 : (remaining_bytes + fp).tmod cfg.CART_FRAME_SIZE = remaining_bytes + fp := by
      rw [Int.tmod_eq_emod (by omega) (le_of_lt hFS)]
      exact Int.emod_eq_of_lt (by omega) (by omega)
    have h4 : remaining_bytes.tmod cfg.CART_FRAME_SIZE = remaining_bytes := by
      rw [Int.tmod_eq_emod (by omega) (le_of_lt hFS)]
      exact Int.emod_eq_of_lt (by omega) (by omega)
    rw [h3, h4, if_pos (by omega)]
    omega

/-- One iteration of the loop of `cart_write`: the position of the file moves on by the
segment length, the end position follows it, nothing else of the entry and no other entry
changes except the frame list of the file written. -/
theorem cart_write_loop_step {σ : Type} (cfg : Config) (bus : Bus σ) (fd : Int) (buf : Buf)
    (fuel : Nat) (d : Driver σ) (tempbuf : Buf) (remaining_bytes buf_loc : Int)
    (hr : 0 < remaining_bytes) (hc : cache_alloc d.cache) :
    ∃ (d4 : Driver σ) (tb : Buf),
      cart_write_loop cfg bus fd buf (fuel + 1) d tempbuf remaining_bytes buf_loc
        = cart_write_loop cfg bus fd buf fuel d4 tb
            (remaining_bytes
              - write_bytes cfg remaining_bytes
                  ((d.FileArray fd).current_pos.tmod cfg.CART_FRAME_SIZE))
            (buf_loc
              + write_bytes cfg remaining_bytes
                  ((d.FileArray fd).current_pos.tmod cfg.CART_FRAME_SIZE)) ∧
      (d4.FileArray fd).current_pos
        = (d.FileArray fd).current_pos
          + write_bytes cfg remaining_bytes
              ((d.FileArray fd).current_pos.tmod cfg.CART_FRAME_SIZE) ∧
      (d4.FileArray fd).end_pos
        = max (d.FileArray fd).end_pos ((d4.FileArray fd).current_pos) ∧
      (d4.FileArray fd).file_open = (d.FileArray fd).file_open ∧
      (d4.FileArray fd).file_path = (d.FileArray fd).file_path ∧
      (∀ j, j ≠ fd → d4.FileArray j = d.FileArray j) ∧
      cache_alloc d4.cache := by
  generalize hwb : write_bytes cfg remaining_bytes
    ((d.FileArray fd).current_pos.tmod cfg.CART_FRAME_SIZE) = wb
  -- the first half of the body: allocation of a frame or read of the frame
  have hstep1 : ∃ (d1 : Driver σ) (tb1 : Buf),
      (if (d.FileArray fd).current_pos.tdiv cfg.CART_FRAME_SIZE
            > (d.FileArray fd).frame_list_index then
          let a : Frame := { cart_index := d.avail_cart, frame_index := d.avail_frame }
          let f1 := { d.FileArray fd with
            FrameList := set_frame (d.FileArray fd).FrameList
              ((d.FileArray fd).current_pos.tdiv cfg.CART_FRAME_SIZE) a }
          let d1 := set_file d fd f1
          if (d.avail_frame : Int) ≥ (cfg.CART_CARTRIDGE_SIZE : Int) - 1 then
            some ({ d1 with avail_cart := (d.avail_cart + 1) % 2 ^ 16, avail_frame := 0 },
                  tempbuf)
          else some ({ d1 with avail_frame := (d.avail_frame + 1) % 2 ^ 16 }, tempbuf)
        else
          match RDCART_opcode cfg bus d
              ((d.FileArray fd).FrameList
                ((d.FileArray fd).current_pos.tdiv cfg.CART_FRAME_SIZE)).cart_index
              ((d.FileArray fd).FrameList
                ((d.FileArray fd).current_pos.tdiv cfg.CART_FRAME_SIZE)).frame_index
              tempbuf with
          | none => none
          | some (d1, tempbuf1, _) => some (d1, tempbuf1)) = some (d1, tb1) ∧
      (d1.FileArray fd).current_pos = (d.FileArray fd).current_pos ∧
      (d1.FileArray fd).end_pos = (d.FileArray fd).end_pos ∧
      (d1.FileArray fd).file_open = (d.FileArray fd).file_open ∧
      (d1.FileArray fd).file_path = (d.FileArray fd).file_path ∧
      (∀ j, j ≠ fd → d1.FileArray j = d.FileArray j) ∧
      cache_alloc d1.cache := by
    by_cases hl : (d.FileArray fd).current_pos.tdiv cfg.CART_FRAME_SIZE
        > (d.FileArray fd).frame_list_index
    · rw [if_pos hl]
      dsimp only
      split_ifs
      · exact ⟨_, _, rfl, by simp [set_file], by simp [set_file], by simp [set_file],
          by simp [set_file], fun j hj => by simp [set_file, hj], hc⟩
      · exact ⟨_, _, rfl, by simp [set_file], by simp [set_file], by simp [set_file],
          by simp [set_file], fun j hj => by simp [set_file, hj], hc⟩
    · rw [if_neg hl]
      obtain ⟨d1, tb1, r, hrd, hfa, hca⟩ := RDCART_opcode_frame cfg bus d
        ((d.FileArray fd).FrameList
          ((d.FileArray fd).current_pos.tdiv cfg.CART_FRAME_SIZE)).cart_index
        ((d.FileArray fd).FrameList
          ((d.FileArray fd).current_pos.tdiv cfg.CART_FRAME_SIZE)).frame_index tempbuf hc
      rw [hrd]
      exact ⟨d1, tb1, rfl, by rw [hfa], by rw [hfa], by rw [hfa], by rw [hfa],
        fun j _ => by rw [hfa], hca⟩
  obtain ⟨d1, tb1, h1, hcur1, hend1, hopen1, hpath1, hoth1, hc1⟩ := hstep1
  obtain ⟨cache2, hput, hc2⟩ := put_cart_cache_alloc cfg d1.cache
    ((d1.FileArray fd).FrameList
      ((d.FileArray fd).current_pos.tdiv cfg.CART_FRAME_SIZE)).cart_index
    ((d1.FileArray fd).FrameList
      ((d.FileArray fd).current_pos.tdiv cfg.CART_FRAME_SIZE)).frame_index
    (memcpy tb1 ((d.FileArray fd).current_pos.tmod cfg.CART_FRAME_SIZE) buf buf_loc wb) hc1
  have hw := WRCART_opcode_frame cfg bus { d1 with cache := cache2 }
    ((d1.FileArray fd).FrameList
      ((d.FileArray fd).current_pos.tdiv cfg.CART_FRAME_SIZE)).cart_index
    ((d1.FileArray fd).FrameList
      ((d.FileArray fd).current_pos.tdiv cfg.CART_FRAME_SIZE)).frame_index
    (memcpy tb1 ((d.FileArray fd).current_pos.tmod cfg.CART_FRAME_SIZE) buf buf_loc wb)
  rw [cart_write_loop, if_pos hr]
  simp only [hwb]
  rw [h1]
  simp only [hput]
  refine ⟨_, _, rfl, ?_, ?_, ?_, ?_, ?_, ?_⟩
  · simp only [set_file_same, hw.1, hcur1]
  · simp only [set_file_same, hw.1, hcur1, hend1]
    split_ifs with h <;> omega
  · simp only [set_file_same, hw.1, hopen1]
  · simp only [set_file_same, hw.1, hpath1]
  · intro j hj
    rw [set_file_other _ _ _ _ hj, hw.1]
    exact hoth1 j hj
  · show cache_alloc (WRCART_opcode cfg bus _ _ _ _).1.cache
    rw [hw.2]
    exact hc2

theorem cart_write_loop_done {σ : Type} (cfg : Config) (bus : Bus σ) (fd : Int) (buf : Buf)
    (fuel : Nat) (d : Driver σ) (tempbuf : Buf) (remaining_bytes buf_loc : Int)
    (h : remaining_bytes ≤ 0) :
    cart_write_loop cfg bus fd buf fuel d tempbuf remaining_bytes buf_loc = some d := by
  unfold cart_write_loop
  rw [if_neg (by omega)]

/-- The loop of `cart_write` ends when the fuel covers the bytes to write, and moves the
position by exactly the bytes to write. -/
theorem cart_write_loop_spec {σ : Type} (cfg : Config) (bus : Bus σ) (fd : Int) (buf : Buf)
    (hFS : 0 < cfg.CART_FRAME_SIZE) :
    ∀ (fuel : Nat) (d : Driver σ) (tempbuf : Buf) (remaining_bytes buf_loc : Int),
      cache_alloc d.cache → 0 ≤ (d.FileArray fd).current_pos →
      (d.FileArray fd).current_pos ≤ (d.FileArray fd).end_pos → 0 ≤ remaining_bytes →
      remaining_bytes.toNat ≤ fuel →
      ∃ d', cart_write_loop cfg bus fd buf fuel d tempbuf remaining_bytes buf_loc = some d' ∧
        (d'.FileArray fd).current_pos = (d.FileArray fd).current_pos + remaining_bytes ∧
        (d'.FileArray fd).end_pos
          = max (d.FileArray fd).end_pos ((d.FileArray fd).current_pos + remaining_bytes) ∧
        (d'.FileArray fd).file_open = (d.FileArray fd).file_open ∧
        (d'.FileArray fd).file_path = (d.FileArray fd).file_path ∧
        (∀ j, j ≠ fd → d'.FileArray j = d.FileArray j) ∧
        cache_alloc d'.cache := by
  intro fuel
  induction fuel with
  | zero =>
    intro d tempbuf remaining_bytes buf_loc hc hp hi hr hf
    have h0 : remaining_bytes = 0 := by omega
    subst h0
    refine ⟨d, cart_write_loop_done cfg bus fd buf 0 d tempbuf 0 buf_loc (le_refl 0), by simp,
      ?_, rfl, rfl, fun _ _ => rfl, hc⟩
    simpa using hi
  | succ fuel ih =>
    intro d tempbuf remaining_bytes buf_loc hc hp hi hr hf
    by_cases h0 : remaining_bytes ≤ 0
    · have h0 : remaining_bytes = 0 := by omega
      subst h0
      refine ⟨d, cart_write_loop_done cfg bus fd buf _ d tempbuf 0 buf_loc (le_refl 0),
        by simp, ?_, rfl, rfl, fun _ _ => rfl, hc⟩
      simpa using hi
    · have hr' : 0 < remaining_bytes := by omega
      obtain ⟨d4, tb, hloop, hcur, hend, hopen, hpath, hoth, hc4⟩ :=
        cart_write_loop_step cfg bus fd buf fuel d tempbuf remaining_bytes buf_loc hr' hc
      have hwb := write_bytes_eq_min cfg hFS remaining_bytes (d.FileArray fd).current_pos hr' hp
      have h1 := Int.emod_nonneg (d.FileArray fd).current_pos (ne_of_gt hFS)
      have h2 := Int.emod_lt_of_pos (d.FileArray fd).current_pos hFS
      generalize write_bytes cfg remaining_bytes
        ((d.FileArray fd).current_pos.tmod cfg.CART_FRAME_SIZE) = wb at hloop hcur hwb
      have hwb1 : 1 ≤ wb := by omega
      have hwb2 : wb ≤ remaining_bytes := by omega
      obtain ⟨d', hl', hcur', hend', hopen', hpath', hoth', hc'⟩ :=
        ih d4 tb (remaining_bytes - wb) (buf_loc + wb) hc4 (by omega)
          (by rw [hend]; exact le_max_right _ _) (by omega) (by omega)
      refine ⟨d', by rw [hloop, hl'], by omega, ?_, by rw [hopen', hopen],
        by rw [hpath', hpath], fun j hj => by rw [hoth' j hj, hoth j hj], hc'⟩
      rw [hend', hend, hcur]
      omega

/-! ### `cart_write` on a position that is not behind the end position -/

/-- The count of `cart_write`: on an open file handle (position between 0 and the end
position, cache allocated by `cart_poweron`), for every `count ≥ 0` and whatever the
controller answers, `cart_write` returns `count` (given fuel for `count` iterations),
moves the current position on by exactly `count` and sets the end position to the maximum of the old end position and the
new current position; the segment written in an iteration with `remaining_bytes` bytes
to go at position `pos` has length `min remaining_bytes (frame size - pos mod frame
size)`, so it ends at or before the end of the frame. -/
theorem cart_write_count {σ : Type} (cfg : Config) (bus : Bus σ) (fuel : Nat) (tempbuf : Buf)
    (d : Driver σ) (fd : Int) (buf : Buf) (count : Int)
    (hFS : 0 < cfg.CART_FRAME_SIZE)
    (hfd : 0 ≤ fd ∧ fd < cfg.CART_MAX_TOTAL_FILES)
    (hopen : (d.FileArray fd).file_open ≠ 0)
    (hcache : cache_alloc d.cache)
    (hpos : 0 ≤ (d.FileArray fd).current_pos)
    (hinv : (d.FileArray fd).current_pos ≤ (d.FileArray fd).end_pos)
    (hcount : 0 ≤ count) (hfuel : count.toNat ≤ fuel) :
    (∃ d', cart_write cfg bus fuel tempbuf d fd buf count = some (d', count) ∧
      (d'.FileArray fd).current_pos = (d.FileArray fd).current_pos + count ∧
      (d'.FileArray fd).end_pos
        = max (d.FileArray fd).end_pos ((d'.FileArray fd).current_pos)) ∧
    (∀ (remaining_bytes pos : Int), 0 < remaining_bytes → 0 ≤ pos →
      write_bytes cfg remaining_bytes (pos.tmod cfg.CART_FRAME_SIZE)
        = min remaining_bytes (cfg.CART_FRAME_SIZE - pos % cfg.CART_FRAME_SIZE) ∧
      pos % cfg.CART_FRAME_SIZE
        + write_bytes cfg remaining_bytes (pos.tmod cfg.CART_FRAME_SIZE)
        ≤ cfg.CART_FRAME_SIZE) := by
  constructor
  · obtain ⟨d', hl, hcur, hend, _, _, _, _⟩ :=
      cart_write_loop_spec cfg bus fd buf hFS fuel d tempbuf count 0 hcache hpos hinv hcount hfuel
    have hb : ¬ (fd ≥ cfg.CART_MAX_TOTAL_FILES ∨ fd < 0) := by omega
    refine ⟨d', ?_, hcur, by rw [hend, hcur]⟩
    simp only [cart_write, if_neg hb, if_neg hopen, hl]
  · intro remaining_bytes pos hr hp
    have h := write_bytes_eq_min cfg hFS remaining_bytes pos hr hp
    refine ⟨h, ?_⟩
    rw [h]
    omega

/-- Witness for `cart_write_count`: three bytes written through handle 1 of
`opened1024`. -/
theorem cart_write_count_witness :
    (0 : Int) < cfg1024.CART_FRAME_SIZE ∧ (opened1024.FileArray 1).file_open ≠ 0 ∧
    cache_alloc opened1024.cache ∧
    ∃ d', cart_write cfg1024 (faithful_bus cfg1024) 3 (fun _ => 0) opened1024 1
        (fun _ => 65) 3 = some (d', 3) ∧
      (d'.FileArray 1).current_pos = (opened1024.FileArray 1).current_pos + 3 ∧
      (d'.FileArray 1).end_pos
        = max (opened1024.FileArray 1).end_pos ((d'.FileArray 1).current_pos) :=
  ⟨by decide, by decide, by unfold cache_alloc; decide,
    (cart_write_count cfg1024 (faithful_bus cfg1024) 3 (fun _ => 0) opened1024 1
      (fun _ => 65) 3 (by decide) (by decide) (by decide) (by unfold cache_alloc; decide)
      (by decide) (by decide) (by decide) (by decide)).1⟩

/-! ### `cart_seek`: claim C7 -/

theorem cart_read_loop_done {σ : Type} (cfg : Config) (bus : Bus σ) (fd : Int)
    (read_length frame_pos : Int) (fuel : Nat) (d : Driver σ) (buf tempbuf : Buf)
    (remaining_bytes buf_loc : Int) (h : remaining_bytes ≤ 0) :
    cart_read_loop cfg bus fd read_length frame_pos fuel d buf tempbuf remaining_bytes buf_loc
      = some (d, buf, read_length) := by
  unfold cart_read_loop
  rw [if_neg (by omega)]

/-- C7 (seek bound): with `loc` a `uint32_t` and the end position of the entry an `int`
that is not negative.  For a handle out of range or closed `cart_seek` returns `-1` and
changes nothing.  For an open handle it returns `-1` and changes nothing when `loc` is
greater than the end position, and otherwise returns `0` and stores `loc` in the current
position of that entry, changing nothing else; so the seek to `end_pos + 1` fails, the
seek to `end_pos` succeeds, and a `cart_read` of any `count ≥ 0` that follows it returns
`0` (without touching the state or the buffer, whatever the fuel and the contents of the
uninitialised locals). -/
theorem seek_bound {σ : Type} (cfg : Config) (bus : Bus σ) (d : Driver σ) (fd : Int)
    (loc : Nat) (hloc : loc < 2 ^ 32)
    (hend : 0 ≤ (d.FileArray fd).end_pos) (hend2 : (d.FileArray fd).end_pos < 2 ^ 31) :
    ((fd ≥ cfg.CART_MAX_TOTAL_FILES ∨ fd < 0 ∨ (d.FileArray fd).file_open = 0) →
        cart_seek cfg d fd loc = (d, -1)) ∧
    ((0 ≤ fd ∧ fd < cfg.CART_MAX_TOTAL_FILES ∧ (d.FileArray fd).file_open ≠ 0) →
      ((d.FileArray fd).end_pos < loc → cart_seek cfg d fd loc = (d, -1)) ∧
      ((loc : Int) ≤ (d.FileArray fd).end_pos →
        cart_seek cfg d fd loc
          = (set_file d fd { d.FileArray fd with current_pos := loc }, 0)) ∧
      cart_seek cfg d fd ((d.FileArray fd).end_pos + 1).toNat = (d, -1) ∧
      (cart_seek cfg d fd (d.FileArray fd).end_pos.toNat).2 = 0 ∧
      ∀ (fuel : Nat) (frame_pos : Int) (tempbuf buf : Buf) (count : Int), 0 ≤ count →
        cart_read cfg bus fuel frame_pos tempbuf
            (cart_seek cfg d fd (d.FileArray fd).end_pos.toNat).1 fd buf count
          = some ((cart_seek cfg d fd (d.FileArray fd).end_pos.toNat).1, buf, 0)) := by
  have hu := uint32_of_int_eq (d.FileArray fd).end_pos hend (by omega)
  have key : ∀ l : Nat, l < 2 ^ 32 →
      (0 ≤ fd ∧ fd < cfg.CART_MAX_TOTAL_FILES ∧ (d.FileArray fd).file_open ≠ 0) →
      ((d.FileArray fd).end_pos < l → cart_seek cfg d fd l = (d, -1)) ∧
      ((l : Int) ≤ (d.FileArray fd).end_pos →
        cart_seek cfg d fd l
          = (set_file d fd { d.FileArray fd with current_pos := l }, 0)) := by
    intro l hl ⟨h0, h1, h2⟩
    have hb : ¬ (fd ≥ cfg.CART_MAX_TOTAL_FILES ∨ fd < 0) := by omega
    have hm : l % 2 ^ 32 = l := Nat.mod_eq_of_lt hl
    constructor
    · intro h
      have : l % 2 ^ 32 > uint32_of_int (d.FileArray fd).end_pos := by omega
      simp only [cart_seek, if_neg hb, if_neg h2, if_pos this]
    · intro h
      have : ¬ l % 2 ^ 32 > uint32_of_int (d.FileArray fd).end_pos := by omega
      simp only [cart_seek, if_neg hb, if_neg h2, if_neg this]
      rw [int_of_uint32_eq l (by omega)]
  constructor
  · rintro (h | h | h)
    · simp only [cart_seek, if_pos (Or.inl h)]
    · simp only [cart_seek, if_pos (Or.inr h)]
    · by_cases hb : fd ≥ cfg.CART_MAX_TOTAL_FILES ∨ fd < 0
      · simp only [cart_seek, if_pos hb]
      · simp only [cart_seek, if_neg hb, if_pos h]
  · intro hv
    obtain ⟨h0, h1, h2⟩ := hv
    have hb : ¬ (fd ≥ cfg.CART_MAX_TOTAL_FILES ∨ fd < 0) := by omega
    have hseek := (key (d.FileArray fd).end_pos.toNat (by omega) ⟨h0, h1, h2⟩).2 (by omega)
    rw [Int.toNat_of_nonneg hend] at hseek
    refine ⟨(key loc hloc ⟨h0, h1, h2⟩).1, (key loc hloc ⟨h0, h1, h2⟩).2,
      (key _ (by omega) ⟨h0, h1, h2⟩).1 (by omega), by rw [hseek], ?_⟩
    intro fuel frame_pos tempbuf buf count hcount
    rw [hseek]
    simp only [cart_read, if_neg hb, set_file_same, if_neg h2]
    rw [cart_read_loop_done]
    · by_cases hc : count > 0
      · simp [hc]
      · have : count = 0 := by omega
        simp [this]
    · split <;> omega

/-- Witness for `seek_bound`: handle 1 of `opened1024` (end position 0) and `loc = 0`;
the seek succeeds and the read that follows returns 0. -/
theorem seek_bound_witness :
    (0 : Nat) < 2 ^ 32 ∧ 0 ≤ (opened1024.FileArray 1).end_pos ∧
    (opened1024.FileArray 1).end_pos < 2 ^ 31 ∧
    (0 ≤ (1 : Int) ∧ (1 : Int) < cfg1024.CART_MAX_TOTAL_FILES ∧
      (opened1024.FileArray 1).file_open ≠ 0) ∧
    cart_seek cfg1024 opened1024 1 ((opened1024.FileArray 1).end_pos + 1).toNat
      = (opened1024, -1) ∧
    (cart_seek cfg1024 opened1024 1 (opened1024.FileArray 1).end_pos.toNat).2 = 0 ∧
    cart_read cfg1024 (faithful_bus cfg1024) 0 0 (fun _ => 0)
        (cart_seek cfg1024 opened1024 1 (opened1024.FileArray 1).end_pos.toNat).1 1
        (fun _ => 0) 16
      = some ((cart_seek cfg1024 opened1024 1 (opened1024.FileArray 1).end_pos.toNat).1,
          fun _ => 0, 0) :=
  have h := (seek_bound cfg1024 (faithful_bus cfg1024) opened1024 1 0 (by decide) (by decide)
    (by decide)).2 ⟨by decide, by decide, by decide⟩
  ⟨by decide, by decide, by decide, ⟨by decide, by decide, by decide⟩, h.2.2.1, h.2.2.2.1,
    h.2.2.2.2 0 0 (fun _ => 0) (fun _ => 0) 16 (by decide)⟩

/-! ### `cart_open` -/

theorem int16_of_int_eq (x : Int) (h0 : 0 ≤ x) (h1 : x < 2 ^ 15) : int16_of_int x = x := by
  unfold int16_of_int
  have : x % 2 ^ 16 = x := Int.emod_eq_of_lt h0 (by omega)
  rw [this, if_pos h1]

/-- The search loop of `cart_open` finds nothing when no entry it looks at has the path. -/
theorem open_search_none {σ : Type} (d : Driver σ) (path : String) :
    ∀ (n : Nat) (s : Int),
      (∀ i : Int, s ≤ i → i < s + n → (d.FileArray i).file_path ≠ path) →
      open_search d path n s = none := by
  intro n
  induction n with
  | zero => intro s _; rfl
  | succ n ih =>
    intro s h
    rw [open_search, if_neg (h s (le_refl s) (by push_cast; omega))]
    exact ih (s + 1) (fun i h1 h2 => h i (by omega) (by push_cast; omega))

/-- What `cart_open` does when its search finds nothing: the counter is incremented, the
entry at the new counter value is filled and that value is returned. -/
theorem cart_open_new {σ : Type} (d : Driver σ) (path : String)
    (h : open_search d path d.file_counter.toNat 0 = none) :
    (cart_open d path).2 = int16_of_int (d.file_counter + 1) ∧
    (cart_open d path).1.file_counter = d.file_counter + 1 ∧
    ((cart_open d path).1.FileArray (d.file_counter + 1)).file_path = path ∧
    ((cart_open d path).1.FileArray (d.file_counter + 1)).file_open = 1 ∧
    ((cart_open d path).1.FileArray (d.file_counter + 1)).current_pos = 0 ∧
    ((cart_open d path).1.FileArray (d.file_counter + 1)).end_pos = 0 ∧
    (∀ j, j ≠ d.file_counter + 1 → (cart_open d path).1.FileArray j = d.FileArray j) := by
  simp only [cart_open, h]
  refine ⟨by simp, by simp [set_file], by simp [set_file], by simp [set_file],
    by simp [set_file], by simp [set_file], ?_⟩
  intro j hj
  simp [set_file, hj]

/-! ### `cart_open`: claim C8 -/

/-- C8 (code defect): right after `cart_poweron` (counter 0, entry 0 closed) the first
`cart_open` of any path returns handle 1 and leaves entry 1 open with that path; a second
`cart_open` of the same path, the file still open, does not return `-1`: the search loop
runs over the entries below `file_counter` and the open file sits at `file_counter`.  For
a path other than the one stored in entry 0 the second call returns the new handle 2 and
creates the entry 2 with the same path, both entries open. -/
theorem cart_open_twice {σ : Type} (d : Driver σ) (path : String)
    (h0 : d.file_counter = 0) (hclosed : (d.FileArray 0).file_open = 0) :
    (cart_open d path).2 = 1 ∧
    ((cart_open d path).1.FileArray 1).file_path = path ∧
    ((cart_open d path).1.FileArray 1).file_open = 1 ∧
    (cart_open (cart_open d path).1 path).2 ≠ -1 ∧
    ((d.FileArray 0).file_path ≠ path →
      (cart_open (cart_open d path).1 path).2 = 2 ∧
      (cart_open (cart_open d path).1 path).1.file_counter = 2 ∧
      ((cart_open (cart_open d path).1 path).1.FileArray 2).file_path = path ∧
      ((cart_open (cart_open d path).1 path).1.FileArray 2).file_open = 1 ∧
      ((cart_open (cart_open d path).1 path).1.FileArray 1).file_open = 1) := by
  have hs : open_search d path d.file_counter.toNat 0 = none := by
    rw [h0]; rfl
  obtain ⟨hret, hfc, hpath, hopen, _, _, hoth⟩ := cart_open_new d path hs
  rw [h0] at hret hfc hpath hopen hoth
  norm_num at hret hfc hpath hopen hoth
  have e1 : int16_of_int 1 = 1 := by decide
  have e2 : int16_of_int 2 = 2 := by decide
  have e0 : int16_of_int 0 = 0 := by decide
  generalize (cart_open d path).1 = d1 at hfc hpath hopen hoth ⊢
  have h00 : d1.FileArray 0 = d.FileArray 0 := hoth 0 (by decide)
  have hnew : (d.FileArray 0).file_path ≠ path →
      open_search d1 path d1.file_counter.toNat 0 = none := by
    intro hp
    apply open_search_none
    intro i hi1 hi2
    rw [hfc] at hi2
    have : i = 0 := by
      have : ((1 : Int).toNat : Int) = 1 := by decide
      omega
    subst this
    rw [h00]
    exact hp
  refine ⟨by rw [hret, e1], hpath, hopen, ?_, ?_⟩
  · by_cases hp : (d.FileArray 0).file_path = path
    · have hfound : open_search d1 path d1.file_counter.toNat 0 = some 0 := by
        rw [hfc]
        show open_search d1 path 1 0 = some 0
        rw [open_search, if_pos (by rw [h00]; exact hp)]
      simp only [cart_open, hfound, h00, hclosed]
      rw [if_neg (by decide), e0]
      show (0 : Int) ≠ -1
      decide
    · obtain ⟨hret2, _⟩ := cart_open_new d1 path (hnew hp)
      rw [hret2, hfc]
      decide
  · intro hp
    obtain ⟨hret2, hfc2, hpath2, hopen2, _, _, hoth2⟩ := cart_open_new d1 path (hnew hp)
    rw [hfc] at hret2 hfc2 hpath2 hopen2 hoth2
    norm_num at hret2 hfc2 hpath2 hopen2 hoth2
    refine ⟨by rw [hret2, e2], hfc2, hpath2, hopen2, ?_⟩
    rw [hoth2 1 (by decide)]
    exact hopen

/-- Witness for `cart_open_twice`: the state `on1024` left by `cart_poweron` and the
path `"a"`; the second open returns the handle 2. -/
theorem cart_open_twice_witness :
    on1024.file_counter = 0 ∧ (on1024.FileArray 0).file_open = 0 ∧
    (on1024.FileArray 0).file_path ≠ "a" ∧
    (cart_open on1024 "a").2 = 1 ∧
    (cart_open (cart_open on1024 "a").1 "a").2 = 2 ∧
    (cart_open (cart_open on1024 "a").1 "a").1.file_counter = 2 :=
  have h := cart_open_twice on1024 "a" (by decide) (by decide)
  ⟨by decide, by decide, by decide, h.1, (h.2.2.2.2 (by decide)).1,
    (h.2.2.2.2 (by decide)).2.1⟩

/-! ### `cart_open`: claim C10 -/

theorem path_of_injective (a b : Nat) (h : path_of a = path_of b) : a = b := by
  unfold path_of at h
  have h1 := congrArg (fun s : String => s.data.count 'a') h
  have h2 := congrArg (fun s : String => s.data.count 'b') h
  simp [List.count_replicate] at h1 h2
  omega

/-- Opening `k` new paths from the state `cart_poweron` leaves fills the entries 1 to `k`
and leaves the counter at `k`. -/
theorem open_many_spec {σ : Type} (d : Driver σ)
    (h0 : d.file_counter = 0) (hp : (d.FileArray 0).file_path = "") :
    ∀ k : Nat,
      (open_many d k).file_counter = k ∧
      (∀ i : Nat, i ≤ k → ((open_many d k).FileArray i).file_path = path_of i) ∧
      open_search (open_many d k) (path_of (k + 1)) (open_many d k).file_counter.toNat 0
        = none := by
  have key : ∀ k : Nat,
      (open_many d k).file_counter = k →
      (∀ i : Nat, i ≤ k → ((open_many d k).FileArray i).file_path = path_of i) →
      open_search (open_many d k) (path_of (k + 1)) (open_many d k).file_counter.toNat 0
        = none := by
    intro k hfc hpaths
    apply open_search_none
    intro i hi1 hi2
    rw [hfc] at hi2
    have hi3 : i.toNat ≤ k := by omega
    have hi4 : ((i.toNat : Nat) : Int) = i := Int.toNat_of_nonneg hi1
    have := hpaths i.toNat hi3
    rw [hi4] at this
    rw [this]
    intro heq
    have := path_of_injective _ _ heq
    omega
  intro k
  induction k with
  | zero =>
    have hfc : (open_many d 0).file_counter = (0 : Nat) := by simpa [open_many] using h0
    have hpaths : ∀ i : Nat, i ≤ 0 → ((open_many d 0).FileArray i).file_path = path_of i := by
      intro i hi
      have : i = 0 := by omega
      subst this
      simpa [open_many, path_of] using hp
    exact ⟨hfc, hpaths, key 0 hfc hpaths⟩
  | succ k ih =>
    obtain ⟨hfc, hpaths, hnone⟩ := ih
    obtain ⟨_, hfc', hpath', _, _, _, hoth'⟩ := cart_open_new (open_many d k) (path_of (k + 1)) hnone
    rw [hfc] at hfc' hpath' hoth'
    have hfc2 : (open_many d (k + 1)).file_counter = ((k + 1 : Nat) : Int) := by
      show (cart_open (open_many d k) (path_of (k + 1))).1.file_counter = _
      rw [hfc']; push_cast; rfl
    have hpaths2 : ∀ i : Nat, i ≤ k + 1 →
        ((open_many d (k + 1)).FileArray i).file_path = path_of i := by
      intro i hi
      show ((cart_open (open_many d k) (path_of (k + 1))).1.FileArray i).file_path = _
      by_cases hik : i = k + 1
      · subst hik
        push_cast
        exact hpath'
      · rw [hoth' i (by omega)]
        exact hpaths i (by omega)
    exact ⟨hfc2, hpaths2, key (k + 1) hfc2 hpaths2⟩

/-- C10 (code defect): in a file table of `n + 1` entries, starting from the state
`cart_poweron` leaves (counter 0, entry 0 with the empty path), the first `n` opens of new
paths return the handles `1, ..., n`, and the next open of a new path returns the handle
`n + 1 = CART_MAX_TOTAL_FILES`: it is not below `CART_MAX_TOTAL_FILES`, and the
`cart_close` of it that follows at once returns `-1` and changes nothing. -/
theorem cart_open_table_full {σ : Type} (cfg : Config) (d : Driver σ) (n : Nat)
    (hmax : cfg.CART_MAX_TOTAL_FILES = n + 1) (hsmall : n + 1 < 2 ^ 15)
    (h0 : d.file_counter = 0) (hp : (d.FileArray 0).file_path = "") :
    (∀ k, k < n → (cart_open (open_many d k) (path_of (k + 1))).2 = k + 1) ∧
    (cart_open (open_many d n) (path_of (n + 1))).2 = cfg.CART_MAX_TOTAL_FILES ∧
    ¬ ((cart_open (open_many d n) (path_of (n + 1))).2 < cfg.CART_MAX_TOTAL_FILES) ∧
    cart_close cfg (cart_open (open_many d n) (path_of (n + 1))).1
        (cart_open (open_many d n) (path_of (n + 1))).2
      = ((cart_open (open_many d n) (path_of (n + 1))).1, -1) := by
  have hret : ∀ k, k ≤ n → (cart_open (open_many d k) (path_of (k + 1))).2 = k + 1 := by
    intro k hk
    obtain ⟨hfc, _, hnone⟩ := open_many_spec d h0 hp k
    obtain ⟨hr, _⟩ := cart_open_new (open_many d k) (path_of (k + 1)) hnone
    rw [hr, hfc]
    exact int16_of_int_eq _ (by omega) (by omega)
  have hlast := hret n (le_refl n)
  refine ⟨fun k hk => hret k (by omega), by rw [hlast, hmax], by rw [hlast, hmax]; omega, ?_⟩
  rw [hlast]
  simp only [cart_close]
  rw [if_pos (Or.inl (by rw [hmax]))]

/-- Witness for `cart_open_table_full`: the table of 1024 entries of `cfg1024` and the
state `on1024`; the open that follows 1023 opens returns 1024. -/
theorem cart_open_table_full_witness :
    cfg1024.CART_MAX_TOTAL_FILES = (1023 : Nat) + 1 ∧ on1024.file_counter = 0 ∧
    (on1024.FileArray 0).file_path = "" ∧
    (cart_open (open_many on1024 1023) (path_of (1023 + 1))).2 = 1024 ∧
    (cart_close cfg1024 (cart_open (open_many on1024 1023) (path_of (1023 + 1))).1
        (cart_open (open_many on1024 1023) (path_of (1023 + 1))).2).2 = -1 :=
  have h := cart_open_table_full cfg1024 on1024 1023 (by decide) (by decide) (by decide)
    (by decide)
  ⟨by decide, by decide, by decide, h.2.1, by rw [h.2.2.2]⟩

/-! ### `cart_open`: claim C9 -/

/-- C9 (code defect): open `"a"` (handle 1), write three bytes, close (returns 0), open
`"a"` again: the second open returns the handle 2, not 1, and makes a new entry
(`file_counter` 2) of end position 0, while the three bytes stay with the entry 1. -/
theorem reopen_makes_new_entry : reopen_after_close = some [1, 3, 0, 2, 2, 3, 0] := by
  decide!

/-! ### `cart_write` and `cart_read`: claims C1, C3, C6 -/

/-- C1 (code defect): after a whole frame of bytes `1`, the bytes `77, 88` written at
position 5 and read back from position 5 come back as `1, 1`, both with the uninitialised
`frame_pos` of `cart_read` holding 5 (the offset of the position in its frame) and
holding 0; all five calls succeed (1024, 0, 2, 0, 2). -/
theorem read_after_write_fails :
    rewrite_then_read 5 = some [1024, 0, 2, 0, 2, 1, 1] ∧
    rewrite_then_read 0 = some [1024, 0, 2, 0, 2, 1, 1] := by
  decide!

/-- C3 (code defect): logical frame 0 is full of bytes `1` at address (0, 0); the write of
one byte `9` at offset 0 moves logical frame 0 to the fresh address (0, 1) and stores
there, at the controller and in the cache, the byte `9` followed by what the uninitialised
array `tempbuf` held (`0` when it held zeros, `5` when it held fives), not the byte `1`
of before; the write makes one bus request (the write-frame command) and never reads
the old frame, which keeps its bytes at (0, 0). -/
theorem partial_write_loses_frame :
    partial_rewrite zeros = some [0, 0, 1, 0, 1, 9, 0, 0, 1, 1] ∧
    partial_rewrite (fun _ => 5) = some [0, 0, 1, 0, 1, 9, 5, 5, 1, 1] := by
  decide!

/-- C6 (code defect): a read of 1024 bytes at position 0 of a file of 1024 bytes returns
1024; the position then is 1025, one past the end position 1024, when the uninitialised
`frame_pos` holds `-1`, and 1024 when it holds `0`; when it holds `1024` the first
iteration copies no byte and the call has not returned after two iterations. -/
theorem read_advance_depends_on_frame_pos :
    read_whole_frame (-1) = some [1024, 1025, 1024] ∧
    read_whole_frame 0 = some [1024, 1024, 1024] ∧
    read_whole_frame 1024 = none := by
  decide!

/-! ### `cart_close`: claim C11 -/

/-- C11: `cart_close` returns `-1` and changes nothing when the handle is out of range
(negative or at least `CART_MAX_TOTAL_FILES`) or the entry at the handle is not open; in
every other case it returns `0` and the state after it is the state before with the open
flag of that one entry set to `0`: path, current position, end position, frame list of
the entry and every other entry, the counter, the cursor, the cache and the controller
are as before. -/
theorem cart_close_spec {σ : Type} (cfg : Config) (d : Driver σ) (fd : Int) :
    ((fd ≥ cfg.CART_MAX_TOTAL_FILES ∨ fd < 0 ∨ (d.FileArray fd).file_open = 0) →
      cart_close cfg d fd = (d, -1)) ∧
    (¬ (fd ≥ cfg.CART_MAX_TOTAL_FILES ∨ fd < 0 ∨ (d.FileArray fd).file_open = 0) →
      (cart_close cfg d fd).2 = 0 ∧
      ((cart_close cfg d fd).1.FileArray fd).file_open = 0 ∧
      ((cart_close cfg d fd).1.FileArray fd).file_path = (d.FileArray fd).file_path ∧
      ((cart_close cfg d fd).1.FileArray fd).current_pos = (d.FileArray fd).current_pos ∧
      ((cart_close cfg d fd).1.FileArray fd).end_pos = (d.FileArray fd).end_pos ∧
      ((cart_close cfg d fd).1.FileArray fd).FrameList = (d.FileArray fd).FrameList ∧
      ((cart_close cfg d fd).1.FileArray fd).frame_list_index
        = (d.FileArray fd).frame_list_index ∧
      (∀ j, j ≠ fd → (cart_close cfg d fd).1.FileArray j = d.FileArray j) ∧
      (cart_close cfg d fd).1.file_counter = d.file_counter ∧
      (cart_close cfg d fd).1.loaded_cartridge = d.loaded_cartridge ∧
      (cart_close cfg d fd).1.avail_cart = d.avail_cart ∧
      (cart_close cfg d fd).1.avail_frame = d.avail_frame ∧
      (cart_close cfg d fd).1.cache = d.cache ∧
      (cart_close cfg d fd).1.ctl = d.ctl) := by
  constructor
  · rintro (h | h | h)
    · simp only [cart_close, if_pos (Or.inl h)]
    · simp only [cart_close, if_pos (Or.inr h)]
    · by_cases hb : fd ≥ cfg.CART_MAX_TOTAL_FILES ∨ fd < 0
      · simp only [cart_close, if_pos hb]
      · simp only [cart_close, if_neg hb, if_pos h]
  · intro h
    have hb : ¬ (fd ≥ cfg.CART_MAX_TOTAL_FILES ∨ fd < 0) := fun hb =>
      h (hb.elim Or.inl (fun x => Or.inr (Or.inl x)))
    have ho : ¬ (d.FileArray fd).file_open = 0 := fun ho => h (Or.inr (Or.inr ho))
    have hc : cart_close cfg d fd
        = (set_file d fd { d.FileArray fd with file_open := 0 }, 0) := by
      simp only [cart_close, if_neg hb, if_neg ho]
    rw [hc]
    refine ⟨rfl, ?_, ?_, ?_, ?_, ?_, ?_, ?_, rfl, rfl, rfl, rfl, rfl, rfl⟩
    · rw [set_file_same]
    · rw [set_file_same]
    · rw [set_file_same]
    · rw [set_file_same]
    · rw [set_file_same]
    · rw [set_file_same]
    · intro j hj
      exact set_file_other d fd j _ hj

/-- Witness for `cart_close_spec`: the open handle 1 of `opened1024` is closed with
result `0`, and the closed handle 0 is refused. -/
theorem cart_close_spec_witness :
    ¬ ((1 : Int) ≥ cfg1024.CART_MAX_TOTAL_FILES ∨ (1 : Int) < 0 ∨
        (opened1024.FileArray 1).file_open = 0) ∧
    (cart_close cfg1024 opened1024 1).2 = 0 ∧
    ((cart_close cfg1024 opened1024 1).1.FileArray 1).file_open = 0 ∧
    (opened1024.FileArray 0).file_open = 0 ∧
    cart_close cfg1024 opened1024 0 = (opened1024, -1) :=
  have h := cart_close_spec cfg1024 opened1024 1
  have h0 := cart_close_spec cfg1024 opened1024 0
  ⟨by decide, (h.2 (by decide)).1, (h.2 (by decide)).2.1, by decide,
    h0.1 (Or.inr (Or.inr (by decide)))⟩

/-! ### Codec: claims C14, C15, C16 -/

/-- Decoding a register that is the sum of five in-range fields at their places. -/
theorem extract_cart_opcode_of_sum (a b c d e : Nat)
    (h1 : a < 2 ^ 8) (h2 : b < 2 ^ 8) (h3 : c < 2) (h4 : d < 2 ^ 16) (h5 : e < 2 ^ 16) :
    extract_cart_opcode (a * 2 ^ 56 + b * 2 ^ 48 + c * 2 ^ 47 + d * 2 ^ 31 + e * 2 ^ 15)
      = { KY1 := a, KY2 := b, RT1 := c, CT1 := d, FM1 := e } := by
  rw [extract_cart_opcode_eq_div_mod]
  norm_num at h1 h2 h4 h5 ⊢
  refine ⟨?_, ?_, ?_, ?_, ?_⟩ <;> omega

/-- C14 (bit-exact wire layout): for every in-range field tuple the register made by
`create_cart_regstate` is `command * 2^56 + sub_command * 2^48 + return_flag * 2^47 +
cartridge_index * 2^31 + frame_index * 2^15`, a 64-bit value; its bits 63..56 are the
command, 55..48 the sub-command, 47 the return flag, 46..31 the cartridge index, 30..15
the frame index, and its 15 low bits are zero. -/
theorem wire_layout (KY1 KY2 RT1 CT1 FM1 : Nat)
    (h1 : KY1 < 2 ^ 8) (h2 : KY2 < 2 ^ 8) (h3 : RT1 < 2)
    (h4 : CT1 < 2 ^ 16) (h5 : FM1 < 2 ^ 16) :
    create_cart_regstate KY1 KY2 RT1 CT1 FM1
      = KY1 * 2 ^ 56 + KY2 * 2 ^ 48 + RT1 * 2 ^ 47 + CT1 * 2 ^ 31 + FM1 * 2 ^ 15 ∧
    create_cart_regstate KY1 KY2 RT1 CT1 FM1 < 2 ^ 64 ∧
    create_cart_regstate KY1 KY2 RT1 CT1 FM1 / 2 ^ 56 = KY1 ∧
    create_cart_regstate KY1 KY2 RT1 CT1 FM1 / 2 ^ 48 % 2 ^ 8 = KY2 ∧
    create_cart_regstate KY1 KY2 RT1 CT1 FM1 / 2 ^ 47 % 2 = RT1 ∧
    create_cart_regstate KY1 KY2 RT1 CT1 FM1 / 2 ^ 31 % 2 ^ 16 = CT1 ∧
    create_cart_regstate KY1 KY2 RT1 CT1 FM1 / 2 ^ 15 % 2 ^ 16 = FM1 ∧
    create_cart_regstate KY1 KY2 RT1 CT1 FM1 % 2 ^ 15 = 0 := by
  rw [create_cart_regstate_eq_sum, Nat.mod_eq_of_lt h1, Nat.mod_eq_of_lt h2,
    Nat.mod_eq_of_lt h3, Nat.mod_eq_of_lt h4, Nat.mod_eq_of_lt h5]
  norm_num at h1 h2 h4 h5 ⊢
  refine ⟨?_, ?_, ?_, ?_, ?_, ?_, ?_⟩ <;> omega

/-- Witness for `wire_layout`: the write-frame command for frame 1023 with cartridge
field 63. -/
theorem wire_layout_witness :
    (4 : Nat) < 2 ^ 8 ∧ (0 : Nat) < 2 ^ 8 ∧ (1 : Nat) < 2 ∧ (63 : Nat) < 2 ^ 16 ∧
    (1023 : Nat) < 2 ^ 16 ∧
    create_cart_regstate 4 0 1 63 1023
      = 4 * 2 ^ 56 + 0 * 2 ^ 48 + 1 * 2 ^ 47 + 63 * 2 ^ 31 + 1023 * 2 ^ 15 :=
  ⟨by decide, by decide, by decide, by decide, by decide,
    (wire_layout 4 0 1 63 1023 (by decide) (by decide) (by decide) (by decide)
      (by decide)).1⟩

/-- C15, the claim as stated fails: the command `256` does not fit in 8 bits, and
`create_cart_regstate` returns a wire value for it, the one of the command `0`; the value
is not the `-1` that `cart_poweron` tests the encoder's result for. -/
theorem encoder_accepts_wide_field :
    ¬ (256 < 2 ^ 8) ∧
    create_cart_regstate 256 0 0 0 0 = 0 ∧
    create_cart_regstate 256 0 0 0 0 = create_cart_regstate 0 0 0 0 0 ∧
    create_cart_regstate 256 0 0 0 0 ≠ 2 ^ 64 - 1 := by
  decide

/-- C15 as amended: `create_cart_regstate` has no failing result.  For all arguments,
in range or not, it returns a wire value below `2^64` that is never `-1` (the value
`cart_poweron` compares it with): every field is cut to its width (command and
sub-command to 8 bits, return flag to 1 bit, the two indices to 16 bits) and the value is
the one of the cut fields, which `extract_cart_opcode` gives back. -/
theorem encoder_truncates (KY1 KY2 RT1 CT1 FM1 : Nat) :
    create_cart_regstate KY1 KY2 RT1 CT1 FM1
      = create_cart_regstate (KY1 % 2 ^ 8) (KY2 % 2 ^ 8) (RT1 % 2) (CT1 % 2 ^ 16)
          (FM1 % 2 ^ 16) ∧
    create_cart_regstate KY1 KY2 RT1 CT1 FM1 < 2 ^ 64 ∧
    create_cart_regstate KY1 KY2 RT1 CT1 FM1 ≠ 2 ^ 64 - 1 ∧
    extract_cart_opcode (create_cart_regstate KY1 KY2 RT1 CT1 FM1)
      = { KY1 := KY1 % 2 ^ 8, KY2 := KY2 % 2 ^ 8, RT1 := RT1 % 2, CT1 := CT1 % 2 ^ 16,
          FM1 := FM1 % 2 ^ 16 } := by
  have a := Nat.mod_lt KY1 (show 0 < 2 ^ 8 by norm_num)
  have b := Nat.mod_lt KY2 (show 0 < 2 ^ 8 by norm_num)
  have c := Nat.mod_lt RT1 (show 0 < 2 by norm_num)
  have d := Nat.mod_lt CT1 (show 0 < 2 ^ 16 by norm_num)
  have e := Nat.mod_lt FM1 (show 0 < 2 ^ 16 by norm_num)
  have hsum := create_cart_regstate_eq_sum KY1 KY2 RT1 CT1 FM1
  have hsum2 := create_cart_regstate_eq_sum (KY1 % 2 ^ 8) (KY2 % 2 ^ 8) (RT1 % 2)
    (CT1 % 2 ^ 16) (FM1 % 2 ^ 16)
  rw [Nat.mod_mod, Nat.mod_mod, Nat.mod_mod, Nat.mod_mod, Nat.mod_mod] at hsum2
  refine ⟨by rw [hsum, hsum2], ?_, ?_, ?_⟩
  · rw [hsum]; omega
  · rw [hsum]; omega
  · rw [hsum]
    exact extract_cart_opcode_of_sum _ _ _ _ _ a b c d e

/-- C16, the claim as stated fails: the wire value `1` decodes to five fields `0`, which
encode to `0`. -/
theorem reencode_drops_low_bits :
    (1 : Nat) < 2 ^ 64 ∧
    create_cart_regstate (extract_cart_opcode 1).KY1 (extract_cart_opcode 1).KY2
      (extract_cart_opcode 1).RT1 (extract_cart_opcode 1).CT1 (extract_cart_opcode 1).FM1
      ≠ 1 := by
  decide

/-- C16 as amended: for every 64-bit wire value `x`, encoding the five fields decoded
from `x` gives `x` with its 15 reserved low bits cleared, `x - x % 2^15`; it gives `x`
back exactly when those 15 bits of `x` are zero. -/
theorem reencode_clears_reserved (x : Nat) (hx : x < 2 ^ 64) :
    create_cart_regstate (extract_cart_opcode x).KY1 (extract_cart_opcode x).KY2
      (extract_cart_opcode x).RT1 (extract_cart_opcode x).CT1 (extract_cart_opcode x).FM1
      = x - x % 2 ^ 15 ∧
    (create_cart_regstate (extract_cart_opcode x).KY1 (extract_cart_opcode x).KY2
      (extract_cart_opcode x).RT1 (extract_cart_opcode x).CT1 (extract_cart_opcode x).FM1
      = x ↔ x % 2 ^ 15 = 0) := by
  rw [create_cart_regstate_eq_sum, extract_cart_opcode_eq_div_mod]
  norm_num at hx ⊢
  constructor <;> omega

/-- Witness for `reencode_clears_reserved`: the wire value `2^15 + 5`. -/
theorem reencode_clears_reserved_witness :
    (2 ^ 15 + 5 : Nat) < 2 ^ 64 ∧
    create_cart_regstate (extract_cart_opcode (2 ^ 15 + 5)).KY1
      (extract_cart_opcode (2 ^ 15 + 5)).KY2 (extract_cart_opcode (2 ^ 15 + 5)).RT1
      (extract_cart_opcode (2 ^ 15 + 5)).CT1 (extract_cart_opcode (2 ^ 15 + 5)).FM1
      = (2 ^ 15 + 5) - (2 ^ 15 + 5) % 2 ^ 15 :=
  ⟨by decide, (reencode_clears_reserved (2 ^ 15 + 5) (by decide)).1⟩

/-! ### Cache: claims C13 and C17 -/

/-- The second loop of `put_cart_cache` ends on a slot of the range it scans, or leaves
`Time_Min` on such a slot or on its start value. -/
theorem put_scan_range (arr : Nat → LRUCache_Frame) :
    ∀ (n s tm : Nat),
      ((put_scan arr n s tm).1 = -1 ∧
          ((put_scan arr n s tm).2 = tm ∨
            (s ≤ (put_scan arr n s tm).2 ∧ (put_scan arr n s tm).2 < s + n))) ∨
      (∃ i : Nat, (put_scan arr n s tm).1 = (i : Int) ∧ s ≤ i ∧ i < s + n) := by
  intro n
  induction n with
  | zero => intro s tm; exact Or.inl ⟨rfl, Or.inl rfl⟩
  | succ n ih =>
    intro s tm
    rw [put_scan]
    by_cases hf : (arr s).free = 0
    · rw [if_pos hf]
      exact Or.inr ⟨s, rfl, le_refl s, by omega⟩
    · rw [if_neg hf]
      by_cases hlt : (arr s).access_time < (arr tm).access_time
      · rw [if_pos hlt]
        rcases ih (s + 1) s with ⟨h1, h2⟩ | ⟨i, h1, h2, h3⟩
        · refine Or.inl ⟨h1, Or.inr ?_⟩
          rcases h2 with h | h
          · rw [h]; omega
          · omega
        · exact Or.inr ⟨i, h1, by omega, by omega⟩
      · rw [if_neg hlt]
        rcases ih (s + 1) tm with ⟨h1, h2⟩ | ⟨i, h1, h2, h3⟩
        · refine Or.inl ⟨h1, ?_⟩
          rcases h2 with h | h
          · exact Or.inl h
          · exact Or.inr (by omega)
        · exact Or.inr ⟨i, h1, by omega, by omega⟩

/-- The slot `put_cart_cache` writes for a new key lies inside a cache of capacity at
least 1. -/
theorem put_index_lt (arr : Nat → LRUCache_Frame) (n : Nat) (hn : 1 ≤ n) :
    put_index arr n < n := by
  unfold put_index
  rcases put_scan_range arr n 0 0 with ⟨h1, h2⟩ | ⟨i, h1, _, h3⟩
  · simp only [h1, if_true]
    rcases h2 with h | h
    · rw [h]; simpa using hn
    · simpa using h.2
  · have hne : ((i : Nat) : Int) ≠ -1 := by omega
    simp only [h1, if_neg hne]
    simpa using h3

/-- C13: on an initialised cache of capacity at least 1, `get_cart_cache (cart, frm)`
right after `put_cart_cache (cart, frm, buf)` finds the key and returns frame data whose
bytes (the `CART_FRAME_SIZE` bytes of a frame) are those of `buf`, whether the key was
resident before the put or not; when it was resident, in slot `i`, the put rewrites that
slot only and keeps its key, so no second entry is made. -/
theorem put_then_get (cfg : Config) (c : Cache) (arr : Nat → LRUCache_Frame)
    (cart frm : Nat) (buf : Buf)
    (harr : c.LRUCache = some arr) (hcap : 1 ≤ c.Cache_Max_Frames) :
    ∃ (c1 : Cache) (arr1 : Nat → LRUCache_Frame) (data : Buf) (c2 : Cache),
      put_cart_cache cfg c cart frm buf = some c1 ∧
      c1.LRUCache = some arr1 ∧
      c1.Cache_Max_Frames = c.Cache_Max_Frames ∧
      get_cart_cache c1 cart frm = some (some data, c2) ∧
      (∀ j : Int, 0 ≤ j → j < cfg.CART_FRAME_SIZE → data j = buf j) ∧
      (∀ i, find_slot arr cart frm c.Cache_Max_Frames 0 = some i →
        (∀ k, k ≠ i → arr1 k = arr k) ∧
        (arr1 i).cart_index = cart ∧ (arr1 i).frame_index = frm ∧ (arr1 i).free = 1 ∧
        data = (arr1 i).FrameData) := by
  have hcopy : ∀ (old : Buf) (j : Int), 0 ≤ j → j < cfg.CART_FRAME_SIZE →
      memcpy old 0 buf 0 cfg.CART_FRAME_SIZE j = buf j := by
    intro old j h0 h1
    unfold memcpy
    rw [if_pos ⟨h0, by omega⟩]
    congr 1
    omega
  cases hf : find_slot arr cart frm c.Cache_Max_Frames 0 with
  | some i =>
    obtain ⟨_, hi2, hi3⟩ := find_slot_some_holds arr cart frm _ _ _ hf
    let e : LRUCache_Frame := { arr i with
      access_time := int_of_uint32 c.Cache_Current_Time
      FrameData := memcpy (arr i).FrameData 0 buf 0 cfg.CART_FRAME_SIZE }
    let c1 : Cache := { c with
      LRUCache := some (set_slot arr i e)
      Cache_Current_Time := (c.Cache_Current_Time + 1) % 2 ^ 32 }
    have hput : put_cart_cache cfg c cart frm buf = some c1 := by
      simp only [put_cart_cache, harr, hf, c1, e]
    have hat : set_slot arr i e i = e := by simp [set_slot]
    have hsame : ∀ k, k ≠ i → set_slot arr i e k = arr k := by
      intro k hk; simp [set_slot, hk]
    have hfirst : ∀ k, 0 ≤ k → k < i → ¬ holds arr cart frm k := by
      intro k _ hk hh
      have := find_slot_eq_some arr cart frm c.Cache_Max_Frames 0 k (Nat.zero_le k)
        (by omega) hh ?_
      · rw [hf] at this
        have : i = k := by simpa using this
        omega
      · intro m _ hm hh2
        -- the first holder below `k` would be found instead of `i`
        have hex : ∃ m', m' < k ∧ holds arr cart frm m' := ⟨m, hm, hh2⟩
        classical
        let m0 := Nat.find hex
        have hm0 : m0 < k ∧ holds arr cart frm m0 := Nat.find_spec hex
        have := find_slot_eq_some arr cart frm c.Cache_Max_Frames 0 m0 (Nat.zero_le m0)
          (by omega) hm0.2
          (fun q _ hq hhq => Nat.find_min hex hq ⟨by omega, hhq⟩)
        rw [hf] at this
        have : i = m0 := by simpa using this
        omega
    have hfind : find_slot (set_slot arr i e) cart frm c1.Cache_Max_Frames 0 = some i := by
      apply find_slot_eq_some _ _ _ _ 0 i (Nat.zero_le i) (by simpa [c1] using hi2)
      · unfold holds
        rw [hat]
        exact ⟨hi3.1, hi3.2.1, hi3.2.2⟩
      · intro k h0 hk hh
        unfold holds at hh
        rw [hsame k (by omega)] at hh
        exact hfirst k h0 hk hh
    have hget := get_cart_cache_hit c1 (set_slot arr i e) cart frm i rfl hfind
    rw [hat] at hget
    refine ⟨c1, set_slot arr i e, e.FrameData, _, hput, rfl, rfl, hget, ?_, ?_⟩
    · intro j h0 h1
      exact hcopy _ j h0 h1
    · intro i' hi'
      have : i' = i := by simpa using hi'.symm
      subst this
      refine ⟨hsame, ?_, ?_, ?_, ?_⟩
      · rw [hat]; exact hi3.1
      · rw [hat]; exact hi3.2.1
      · rw [hat]; exact hi3.2.2
      · rw [hat]
  | none =>
    have hidx := put_index_lt arr c.Cache_Max_Frames hcap
    generalize hv : put_index arr c.Cache_Max_Frames = v at hidx
    let e : LRUCache_Frame :=
      { FrameData := memcpy (arr v).FrameData 0 buf 0 cfg.CART_FRAME_SIZE
        cart_index := cart
        free := 1
        frame_index := frm
        access_time := int_of_uint32 c.Cache_Current_Time }
    let c1 : Cache := { c with
      LRUCache := some (set_slot arr v e)
      Cache_Current_Time := (c.Cache_Current_Time + 1) % 2 ^ 32 }
    have hput : put_cart_cache cfg c cart frm buf = some c1 := by
      simp only [put_cart_cache, harr, hf, hv, c1, e]
    have hat : set_slot arr v e v = e := by simp [set_slot]
    have hsame : ∀ k, k ≠ v → set_slot arr v e k = arr k := by
      intro k hk; simp [set_slot, hk]
    have hnot : ∀ k, k < c.Cache_Max_Frames → ¬ holds arr cart frm k := by
      intro k hk hh
      classical
      have hex : ∃ m', m' < c.Cache_Max_Frames ∧ holds arr cart frm m' := ⟨k, hk, hh⟩
      let m0 := Nat.find hex
      have hm0 : m0 < c.Cache_Max_Frames ∧ holds arr cart frm m0 := Nat.find_spec hex
      have := find_slot_eq_some arr cart frm c.Cache_Max_Frames 0 m0 (Nat.zero_le m0)
        (by omega) hm0.2
        (fun q _ hq hhq => Nat.find_min hex hq ⟨by omega, hhq⟩)
      rw [hf] at this
      simp at this
    have hfind : find_slot (set_slot arr v e) cart frm c1.Cache_Max_Frames 0 = some v := by
      apply find_slot_eq_some _ _ _ _ 0 v (Nat.zero_le v) (by simpa [c1] using hidx)
      · unfold holds
        rw [hat]
        exact ⟨rfl, rfl, rfl⟩
      · intro k _ hk hh
        unfold holds at hh
        rw [hsame k (by omega)] at hh
        exact hnot k (by omega) hh
    have hget := get_cart_cache_hit c1 (set_slot arr v e) cart frm v rfl hfind
    rw [hat] at hget
    refine ⟨c1, set_slot arr v e, e.FrameData, _, hput, rfl, rfl, hget, ?_, ?_⟩
    · intro j h0 h1
      exact hcopy _ j h0 h1
    · intro i hi
      simp at hi

/-- Witness for `put_then_get`: the key `(1, 1)`, resident in `full_cache`, is put with
bytes `9` and read back. -/
theorem put_then_get_witness :
    full_cache.LRUCache = some full_arr ∧ 1 ≤ full_cache.Cache_Max_Frames ∧
    ∃ (c1 : Cache) (data : Buf) (c2 : Cache),
      put_cart_cache cfg1024 full_cache 1 1 (fun _ => 9) = some c1 ∧
      get_cart_cache c1 1 1 = some (some data, c2) ∧
      (∀ j : Int, 0 ≤ j → j < cfg1024.CART_FRAME_SIZE → data j = 9) := by
  obtain ⟨c1, _, data, c2, h1, _, _, h2, h3, _⟩ :=
    put_then_get cfg1024 full_cache full_arr 1 1 (fun _ => 9) rfl (by decide)
  exact ⟨rfl, by decide, c1, data, c2, h1, h2, h3⟩

/-- C17 (code defect): `set_cart_cache_size` never fails.  Called after `init_cart_cache`
has built the cache it returns `0` and stores the new capacity (the array that was
allocated is kept): it assigns `max_frames` to `Cache_Max_Frames` before it compares the
two.  On the cache of default capacity 15 the call with 20 returns `0` and leaves the
capacity at 20. -/
theorem set_size_after_init (c : Cache) (max_frames : Nat) :
    cache_alloc (init_cart_cache c).1 ∧
    set_cart_cache_size (init_cart_cache c).1 max_frames
      = ({ (init_cart_cache c).1 with Cache_Max_Frames := max_frames % 2 ^ 32 }, 0) ∧
    (init_cart_cache (Driver.start Controller.fresh).cache).1.Cache_Max_Frames = 15 ∧
    (set_cart_cache_size (init_cart_cache (Driver.start Controller.fresh).cache).1 20).2 = 0 ∧
    (set_cart_cache_size
      (init_cart_cache (Driver.start Controller.fresh).cache).1 20).1.Cache_Max_Frames = 20 := by
  refine ⟨rfl, ?_, by decide, by decide, by decide⟩
  simp [set_cart_cache_size]

/-! ### Controller failures: claims C18, C12, C19 -/

/-- C18 (code defect): `LDCART_opcode` for a cartridge other than the loaded one, when
the controller answers the mount command with the return flag set (`RT1 = 1`): the call
returns `0` and records the target as loaded.  The response is compared with `-1`, a
value the one-bit return flag does not take; only for a response with `RT1` equal to
`2^64 - 1` does the call return `-1` and keep the loaded cartridge. -/
theorem mount_failure_not_detected {σ : Type} (cfg : Config) (bus : Bus σ) (d : Driver σ)
    (target : Nat) (hne : d.loaded_cartridge ≠ target) :
    ((bus d.ctl (create_cart_regstate cfg.CART_OP_LDCART 0 0 target 0) none).1.RT1 = 1 →
      (LDCART_opcode cfg bus d target).2 = 0 ∧
      (LDCART_opcode cfg bus d target).1.loaded_cartridge = target) ∧
    ((bus d.ctl (create_cart_regstate cfg.CART_OP_LDCART 0 0 target 0) none).1.RT1
        = 2 ^ 64 - 1 →
      (LDCART_opcode cfg bus d target).2 = -1 ∧
      (LDCART_opcode cfg bus d target).1.loaded_cartridge = d.loaded_cartridge) := by
  constructor
  · intro h
    simp [LDCART_opcode, hne, h]
  · intro h
    simp [LDCART_opcode, hne, h]

/-- Witness for `mount_failure_not_detected`: cartridge 63 is loaded in `on1024`, the
mount of cartridge 5 is answered with the return flag 1. -/
theorem mount_failure_not_detected_witness :
    on1024.loaded_cartridge ≠ 5 ∧
    (flag_bus 1 on1024.ctl (create_cart_regstate cfg1024.CART_OP_LDCART 0 0 5 0) none).1.RT1
      = 1 ∧
    (LDCART_opcode cfg1024 (flag_bus 1) on1024 5).2 = 0 ∧
    (LDCART_opcode cfg1024 (flag_bus 1) on1024 5).1.loaded_cartridge = 5 :=
  have h := (mount_failure_not_detected cfg1024 (flag_bus 1) on1024 5 (by decide)).1 rfl
  ⟨by decide, rfl, h.1, h.2⟩

/-- C12 (code defect): on an open handle and with a controller that answers every command
with the same return flag, whatever the flag (`1`, the failure flag, or `2^64 - 1`, the
value the commands of the driver test for), `cart_write` of `count > 0` bytes returns
`count`, not `-1`; with the flag `2^64 - 1` the call `WRCART_opcode` for the frame does
return `-1`, and `cart_write` does not look at it. -/
theorem cart_write_ignores_failure (cfg : Config) (flag : Nat) (fuel : Nat) (tempbuf : Buf)
    (d : Driver Controller) (fd : Int) (buf : Buf) (count : Int)
    (hFS : 0 < cfg.CART_FRAME_SIZE)
    (hfd : 0 ≤ fd ∧ fd < cfg.CART_MAX_TOTAL_FILES)
    (hopen : (d.FileArray fd).file_open ≠ 0)
    (hcache : cache_alloc d.cache)
    (hpos : 0 ≤ (d.FileArray fd).current_pos)
    (hinv : (d.FileArray fd).current_pos ≤ (d.FileArray fd).end_pos)
    (hcount : 0 < count) (hfuel : count.toNat ≤ fuel) :
    (∃ d', cart_write cfg (flag_bus flag) fuel tempbuf d fd buf count = some (d', count)) ∧
    count ≠ -1 ∧
    (∀ (d0 : Driver Controller) (cart frame : Nat) (b : Buf),
      (WRCART_opcode cfg (flag_bus (2 ^ 64 - 1)) d0 cart frame b).2.2 = -1) := by
  refine ⟨?_, by omega, ?_⟩
  · obtain ⟨d', hl, _⟩ :=
      cart_write_loop_spec cfg (flag_bus flag) fd buf hFS fuel d tempbuf count 0 hcache hpos
        hinv (by omega) hfuel
    have hb : ¬ (fd ≥ cfg.CART_MAX_TOTAL_FILES ∨ fd < 0) := by omega
    exact ⟨d', by simp only [cart_write, if_neg hb, if_neg hopen, hl]⟩
  · intro d0 cart frame b
    by_cases hl : d0.loaded_cartridge = cart
    · simp [WRCART_opcode, LDCART_opcode, WRFRME_opcode, flag_bus, hl]
    · simp [WRCART_opcode, LDCART_opcode, flag_bus, hl]

/-- Witness for `cart_write_ignores_failure`: three bytes written through handle 1 of
`opened1024` while the controller answers with the return flag 1. -/
theorem cart_write_ignores_failure_witness :
    (0 : Int) < cfg1024.CART_FRAME_SIZE ∧ (opened1024.FileArray 1).file_open ≠ 0 ∧
    cache_alloc opened1024.cache ∧ (0 : Int) < 3 ∧
    ∃ d', cart_write cfg1024 (flag_bus 1) 3 (fun _ => 0) opened1024 1 (fun _ => 65) 3
      = some (d', 3) :=
  ⟨by decide, by decide, by unfold cache_alloc; decide, by decide,
    (cart_write_ignores_failure cfg1024 1 3 (fun _ => 0) opened1024 1 (fun _ => 65) 3
      (by decide) (by decide) (by decide) (by unfold cache_alloc; decide) (by decide)
      (by decide) (by decide) (by decide)).1⟩

/-- C19, the claim as stated fails, for a success and for a failure response.  On the
state left by `cart_poweron`: when the controller answers the power-off command with
success, `cart_poweroff` returns `0` with the cache released, and the loaded-cartridge
variable still holds 63, not the value `65535` (`-1`) of "none"; when the controller
answers with failure (`RT1 = 1`), `cart_poweroff` returns `-1`, the cache is still
allocated and the loaded-cartridge variable still holds 63. -/
theorem poweroff_keeps_loaded_cartridge :
    (cart_poweroff cfg1024 bus1024 on1024).2 = 0 ∧
    ¬ cache_alloc (cart_poweroff cfg1024 bus1024 on1024).1.cache ∧
    (cart_poweroff cfg1024 bus1024 on1024).1.loaded_cartridge = 63 ∧
    (Driver.start Controller.fresh).loaded_cartridge = 65535 ∧
    (cart_poweroff cfg1024 (flag_bus 1) on1024).2 = -1 ∧
    cache_alloc (cart_poweroff cfg1024 (flag_bus 1) on1024).1.cache ∧
    (cart_poweroff cfg1024 (flag_bus 1) on1024).1.loaded_cartridge = 63 := by
  refine ⟨by decide, ?_, by decide, by decide, by decide, ?_, by decide⟩
  · unfold cache_alloc
    decide
  · unfold cache_alloc
    decide

/-- C19 as amended: when the controller answers the power-off command with success
(`RT1 = 0`), `cart_poweroff` returns `0` and the cache it leaves is the one
`close_cart_cache` makes, with the pointer null; when the controller answers with failure
(`RT1 ≠ 0`), `cart_poweroff` returns `-1` and leaves the cache as it was; for every
response the loaded-cartridge variable is as before the call. -/
theorem poweroff_releases_cache {σ : Type} (cfg : Config) (bus : Bus σ) (d : Driver σ) :
    ((bus d.ctl (create_cart_regstate cfg.CART_OP_POWOFF 0 0 0 0) none).1.RT1 = 0 →
      (cart_poweroff cfg bus d).2 = 0 ∧
      (cart_poweroff cfg bus d).1.cache = (close_cart_cache d.cache).1 ∧
      (cart_poweroff cfg bus d).1.cache.LRUCache = none ∧
      ¬ cache_alloc (cart_poweroff cfg bus d).1.cache) ∧
    ((bus d.ctl (create_cart_regstate cfg.CART_OP_POWOFF 0 0 0 0) none).1.RT1 ≠ 0 →
      (cart_poweroff cfg bus d).2 = -1 ∧
      (cart_poweroff cfg bus d).1.cache = d.cache) ∧
    (cart_poweroff cfg bus d).1.loaded_cartridge = d.loaded_cartridge := by
  by_cases h : (bus d.ctl (create_cart_regstate cfg.CART_OP_POWOFF 0 0 0 0) none).1.RT1 = 0
  · simp [cart_poweroff, h, close_cart_cache, cache_alloc]
  · simp [cart_poweroff, h]

/-- Witness for `poweroff_releases_cache`: power off of `on1024` with the storing
controller, which answers with success, and with a controller that answers with
failure. -/
theorem poweroff_releases_cache_witness :
    (bus1024 on1024.ctl (create_cart_regstate cfg1024.CART_OP_POWOFF 0 0 0 0) none).1.RT1
      = 0 ∧
    (flag_bus 1 on1024.ctl (create_cart_regstate cfg1024.CART_OP_POWOFF 0 0 0 0) none).1.RT1
      ≠ 0 ∧
    (cart_poweroff cfg1024 bus1024 on1024).2 = 0 ∧
    (cart_poweroff cfg1024 bus1024 on1024).1.cache.LRUCache = none ∧
    (cart_poweroff cfg1024 bus1024 on1024).1.loaded_cartridge = on1024.loaded_cartridge ∧
    (cart_poweroff cfg1024 (flag_bus 1) on1024).2 = -1 ∧
    (cart_poweroff cfg1024 (flag_bus 1) on1024).1.cache = on1024.cache :=
  have h := poweroff_releases_cache cfg1024 bus1024 on1024
  have hf := poweroff_releases_cache cfg1024 (flag_bus 1) on1024
  ⟨by decide, by decide, (h.1 (by decide)).1, (h.1 (by decide)).2.2.1, h.2.2,
    (hf.2.1 (by decide)).1, (hf.2.1 (by decide)).2⟩

/-! ### `cart_poweron`: claim C20 -/

/-- C20 (code defect): from program start and with every command answered with success,
`cart_poweron` sends the initialise command (code 0), then the zero command (code 1) with
no mount before it, then for the cartridges 1 to 63 a mount command (code 2) followed by
the zero command: there is no mount command for cartridge 0.  It returns `0` with
cartridge 63 recorded as loaded, the counter 0, the cursor at (0, 0) and no entry open. -/
theorem poweron_skips_first_mount :
    poweron_commands
      = (0, 0) :: (1, 0) :: ((List.range 63).map fun i => [(2, i + 1), (1, 0)]).flatten ∧
    (2, 0) ∉ poweron_commands ∧
    poweron_commands.length = 128 ∧
    poweron_outcome = [0, 63, 0, 0, 0, 0] := by
  decide!

/-! ### Cache: claim C21 -/

/-- When the scan finds no slot, no slot below the capacity holds the key. -/
theorem find_slot_none_holds (arr : Nat → LRUCache_Frame) (cart frm : Nat) :
    ∀ (n s : Nat), find_slot arr cart frm n s = none →
      ∀ i, s ≤ i → i < s + n → ¬ holds arr cart frm i := by
  intro n
  induction n with
  | zero => intro s _ i h1 h2; omega
  | succ n ih =>
    intro s h i h1 h2
    rw [find_slot] at h
    split at h
    · simp at h
    · rename_i hs
      by_cases his : i = s
      · subst his; exact hs
      · exact ih (s + 1) h i (by omega) (by omega)

/-- One cache call keeps the cache allocated, keeps its capacity and keeps the keys of
the occupied slots pairwise different. -/
theorem run_cache_op_unique (cfg : Config) (c : Cache) (arr : Nat → LRUCache_Frame)
    (op : CacheOp) (harr : c.LRUCache = some arr) (hcap : 1 ≤ c.Cache_Max_Frames)
    (hu : keys_unique arr c.Cache_Max_Frames) :
    ∃ c1 arr1, run_cache_op cfg c op = some c1 ∧ c1.LRUCache = some arr1 ∧
      c1.Cache_Max_Frames = c.Cache_Max_Frames ∧ keys_unique arr1 c1.Cache_Max_Frames := by
  cases op with
  | put cart frm buf =>
    cases hf : find_slot arr cart frm c.Cache_Max_Frames 0 with
    | some i =>
      have hrun : run_cache_op cfg c (.put cart frm buf) = some { c with
          LRUCache := some (set_slot arr i { arr i with
            access_time := int_of_uint32 c.Cache_Current_Time
            FrameData := memcpy (arr i).FrameData 0 buf 0 cfg.CART_FRAME_SIZE })
          Cache_Current_Time := (c.Cache_Current_Time + 1) % 2 ^ 32 } := by
        simp only [run_cache_op, put_cart_cache, harr, hf]
      refine ⟨_, _, hrun, rfl, rfl, ?_⟩
      intro a b ha hb hfa hfb hc hfr
      have key : ∀ k, (set_slot arr i { arr i with
            access_time := int_of_uint32 c.Cache_Current_Time
            FrameData := memcpy (arr i).FrameData 0 buf 0 cfg.CART_FRAME_SIZE } k).free
            = (arr k).free ∧
          (set_slot arr i { arr i with
            access_time := int_of_uint32 c.Cache_Current_Time
            FrameData := memcpy (arr i).FrameData 0 buf 0 cfg.CART_FRAME_SIZE } k).cart_index
            = (arr k).cart_index ∧
          (set_slot arr i { arr i with
            access_time := int_of_uint32 c.Cache_Current_Time
            FrameData := memcpy (arr i).FrameData 0 buf 0 cfg.CART_FRAME_SIZE } k).frame_index
            = (arr k).frame_index := by
        intro k
        by_cases hk : k = i
        · subst hk; simp [set_slot]
        · simp [set_slot, hk]
      rw [(key a).1] at hfa
      rw [(key b).1] at hfb
      rw [(key a).2.1, (key b).2.1] at hc
      rw [(key a).2.2, (key b).2.2] at hfr
      exact hu a b ha hb hfa hfb hc hfr
    | none =>
      have hnot := find_slot_none_holds arr cart frm _ _ hf
      have hv := put_index_lt arr c.Cache_Max_Frames hcap
      generalize hvdef : put_index arr c.Cache_Max_Frames = v at hv
      have hrun : run_cache_op cfg c (.put cart frm buf) = some { c with
          LRUCache := some (set_slot arr v
            { FrameData := memcpy (arr v).FrameData 0 buf 0 cfg.CART_FRAME_SIZE
              cart_index := cart
              free := 1
              frame_index := frm
              access_time := int_of_uint32 c.Cache_Current_Time })
          Cache_Current_Time := (c.Cache_Current_Time + 1) % 2 ^ 32 } := by
        simp only [run_cache_op, put_cart_cache, harr, hf, hvdef]
      refine ⟨_, _, hrun, rfl, rfl, ?_⟩
      intro a b ha hb hfa hfb hc hfr
      have ha' : a < c.Cache_Max_Frames := ha
      have hb' : b < c.Cache_Max_Frames := hb
      by_cases hav : a = v
      · by_cases hbv : b = v
        · rw [hav, hbv]
        · exfalso
          subst hav
          simp only [set_slot, if_true, if_neg hbv] at hfb hc hfr
          exact hnot b (Nat.zero_le b) (by omega) ⟨hc.symm, hfr.symm, hfb⟩
      · by_cases hbv : b = v
        · exfalso
          subst hbv
          simp only [set_slot, if_true, if_neg hav] at hfa hc hfr
          exact hnot a (Nat.zero_le a) (by omega) ⟨hc, hfr, hfa⟩
        · simp only [set_slot, if_neg hav, if_neg hbv] at hfa hfb hc hfr
          exact hu a b ha' hb' hfa hfb hc hfr
  | get cart frm =>
    cases hf : find_slot arr cart frm c.Cache_Max_Frames 0 with
    | none =>
      refine ⟨c, arr, ?_, harr, rfl, hu⟩
      simp only [run_cache_op, get_cart_cache_miss c arr cart frm harr hf, Option.map]
    | some i =>
      have hrun : run_cache_op cfg c (.get cart frm) = some { c with
          LRUCache := some (set_slot arr i { arr i with
            access_time := int_of_uint32 c.Cache_Current_Time })
          Cache_Current_Time := (c.Cache_Current_Time + 1) % 2 ^ 32 } := by
        simp only [run_cache_op, get_cart_cache_hit c arr cart frm i harr hf, Option.map]
      refine ⟨_, _, hrun, rfl, rfl, ?_⟩
      intro a b ha hb hfa hfb hc hfr
      have key : ∀ k, (set_slot arr i { arr i with
            access_time := int_of_uint32 c.Cache_Current_Time } k).free = (arr k).free ∧
          (set_slot arr i { arr i with
            access_time := int_of_uint32 c.Cache_Current_Time } k).cart_index
            = (arr k).cart_index ∧
          (set_slot arr i { arr i with
            access_time := int_of_uint32 c.Cache_Current_Time } k).frame_index
            = (arr k).frame_index := by
        intro k
        by_cases hk : k = i
        · subst hk; simp [set_slot]
        · simp [set_slot, hk]
      rw [(key a).1] at hfa
      rw [(key b).1] at hfb
      rw [(key a).2.1, (key b).2.1] at hc
      rw [(key a).2.2, (key b).2.2] at hfr
      exact hu a b ha hb hfa hfb hc hfr
  | delete cart frm =>
    cases hf : find_slot arr cart frm c.Cache_Max_Frames 0 with
    | none =>
      refine ⟨c, arr, ?_, harr, rfl, hu⟩
      simp only [run_cache_op, delete_cart_cache, harr, hf, Option.map]
    | some i =>
      have hrun : run_cache_op cfg c (.delete cart frm) = some { c with
          LRUCache := some (set_slot arr i { arr i with free := 0 }) } := by
        simp only [run_cache_op, delete_cart_cache, harr, hf, Option.map]
      refine ⟨_, _, hrun, rfl, rfl, ?_⟩
      intro a b ha hb hfa hfb hc hfr
      have hai : a ≠ i := by
        intro h; subst h; simp [set_slot] at hfa
      have hbi : b ≠ i := by
        intro h; subst h; simp [set_slot] at hfb
      simp only [set_slot, if_neg hai, if_neg hbi] at hfa hfb hc hfr
      exact hu a b ha hb hfa hfb hc hfr

/-- A run of cache calls keeps the cache allocated and the occupied keys pairwise
different. -/
theorem run_cache_ops_unique (cfg : Config) :
    ∀ (ops : List CacheOp) (c : Cache) (arr : Nat → LRUCache_Frame),
      c.LRUCache = some arr → 1 ≤ c.Cache_Max_Frames →
      keys_unique arr c.Cache_Max_Frames →
      ∃ c1 arr1, run_cache_ops cfg c ops = some c1 ∧ c1.LRUCache = some arr1 ∧
        c1.Cache_Max_Frames = c.Cache_Max_Frames ∧
        keys_unique arr1 c1.Cache_Max_Frames := by
  intro ops
  induction ops with
  | nil => intro c arr harr _ hu; exact ⟨c, arr, rfl, harr, rfl, hu⟩
  | cons op ops ih =>
    intro c arr harr hcap hu
    obtain ⟨c1, arr1, h1, harr1, hmax1, hu1⟩ := run_cache_op_unique cfg c arr op harr hcap hu
    obtain ⟨c2, arr2, h2, harr2, hmax2, hu2⟩ := ih c1 arr1 harr1 (by omega) hu1
    exact ⟨c2, arr2, by simp only [run_cache_ops, h1, Option.bind, h2], harr2, by omega, hu2⟩

/-- C21 (cache key uniqueness): from the cache `init_cart_cache` makes (whatever the
capacity set before; every slot unoccupied), every finite sequence of `put_cart_cache`,
`get_cart_cache` and `delete_cart_cache` calls runs through and leaves a cache in which
no two occupied slots hold the same (cartridge index, frame index) pair. -/
theorem cache_keys_unique (cfg : Config) (c0 : Cache) (ops : List CacheOp) :
    (init_cart_cache c0).1.LRUCache = some (fun _ => zero_frame) ∧ zero_frame.free = 0 ∧
    ∃ c arr, run_cache_ops cfg (init_cart_cache c0).1 ops = some c ∧
      c.LRUCache = some arr ∧
      ∀ i j, i < c.Cache_Max_Frames → j < c.Cache_Max_Frames →
        (arr i).free = 1 → (arr j).free = 1 →
        (arr i).cart_index = (arr j).cart_index →
        (arr i).frame_index = (arr j).frame_index → i = j := by
  refine ⟨rfl, rfl, ?_⟩
  · have hcap : 1 ≤ (init_cart_cache c0).1.Cache_Max_Frames := by
      simp only [init_cart_cache]
      split <;> omega
    have hu : keys_unique (fun _ => zero_frame) (init_cart_cache c0).1.Cache_Max_Frames := by
      intro i j _ _ hfi
      simp [zero_frame] at hfi
    obtain ⟨c, arr, h1, h2, _, h4⟩ :=
      run_cache_ops_unique cfg ops (init_cart_cache c0).1 (fun _ => zero_frame) rfl hcap hu
    exact ⟨c, arr, h1, h2, h4⟩

/-! ## The position invariant and the stability of frame addresses -/

/-- C22 (code defect): the invariant `0 ≤ current position ≤ end position` does not
hold in every state reached from `cart_poweron`.  After open `"a"`, write of 1024 bytes
and seek to 0 the file has current position 0 and end position 1024; a read of 1024
bytes returns 1024 and, when the uninitialised local `frame_pos` of `cart_read` holds
`-1`, leaves the current position at 1025, past the end position 1024.  When the local
holds 0 the same read leaves the current position at 1024. -/
theorem position_invariant_broken :
    read_positions (-1) = some [0, 1024, 1024, 1025, 1024] ∧
    read_positions 0 = some [0, 1024, 1024, 1024, 1024] := by
  constructor <;> decide!

/-- C23 (code defect): the address of a logical frame is not stable.  After open `"a"`
and a write of 1024 bytes, logical frame 0 of the file has address (0, 0) and the cursor
is (0, 1); a later write of two bytes at position 5, inside logical frame 0, stores the
address (0, 1) for logical frame 0 and moves the cursor to (0, 2). -/
theorem rewrite_moves_frame_address :
    rewrite_addresses = some [0, 0, 0, 1, 0, 1, 0, 2] := by
  decide!

/-! ### The allocation cursor -/

theorem LDCART_opcode_cursor {σ : Type} (cfg : Config) (bus : Bus σ) (d : Driver σ)
    (cart_index : Nat) :
    (LDCART_opcode cfg bus d cart_index).1.avail_cart = d.avail_cart ∧
    (LDCART_opcode cfg bus d cart_index).1.avail_frame = d.avail_frame := by
  simp only [LDCART_opcode]
  split_ifs <;> exact ⟨rfl, rfl⟩

theorem WRFRME_opcode_cursor {σ : Type} (cfg : Config) (bus : Bus σ) (d : Driver σ)
    (frame_index : Nat) (buf : Buf) :
    (WRFRME_opcode cfg bus d frame_index buf).1.avail_cart = d.avail_cart ∧
    (WRFRME_opcode cfg bus d frame_index buf).1.avail_frame = d.avail_frame := by
  simp only [WRFRME_opcode]
  split_ifs <;> exact ⟨rfl, rfl⟩

theorem WRCART_opcode_cursor {σ : Type} (cfg : Config) (bus : Bus σ) (d : Driver σ)
    (cart frame : Nat) (buf : Buf) :
    (WRCART_opcode cfg bus d cart frame buf).1.avail_cart = d.avail_cart ∧
    (WRCART_opcode cfg bus d cart frame buf).1.avail_frame = d.avail_frame := by
  simp only [WRCART_opcode]
  have h1 := LDCART_opcode_cursor cfg bus d cart
  have h2 := WRFRME_opcode_cursor cfg bus (LDCART_opcode cfg bus d cart).1 frame buf
  split_ifs
  · exact h1
  · exact ⟨h2.1.trans h1.1, h2.2.trans h1.2⟩

/-- `RDFRME_opcode`, when it returns, leaves the file table and the cursor alone. -/
theorem RDFRME_opcode_some {σ : Type} (cfg : Config) (bus : Bus σ) (d d' : Driver σ)
    (frame_index : Nat) (buf buf' : Buf) (r : Int)
    (h : RDFRME_opcode cfg bus d frame_index buf = some (d', buf', r)) :
    d'.FileArray = d.FileArray ∧ d'.avail_cart = d.avail_cart ∧
    d'.avail_frame = d.avail_frame := by
  unfold RDFRME_opcode at h
  split at h
  · simp at h
  · dsimp only at h
    split_ifs at h <;>
    · simp only [Option.some.injEq, Prod.mk.injEq] at h
      obtain ⟨h1, _, _⟩ := h
      subst h1
      exact ⟨rfl, rfl, rfl⟩
  · simp only [Option.some.injEq, Prod.mk.injEq] at h
    obtain ⟨h1, _, _⟩ := h
    subst h1
    exact ⟨rfl, rfl, rfl⟩

/-- `RDCART_opcode`, when it returns, leaves the file table and the cursor alone. -/
theorem RDCART_opcode_some {σ : Type} (cfg : Config) (bus : Bus σ) (d d' : Driver σ)
    (cart frame : Nat) (buf buf' : Buf) (r : Int)
    (h : RDCART_opcode cfg bus d cart frame buf = some (d', buf', r)) :
    d'.FileArray = d.FileArray ∧ d'.avail_cart = d.avail_cart ∧
    d'.avail_frame = d.avail_frame := by
  unfold RDCART_opcode at h
  split at h
  · simp at h
  · simp only [Option.some.injEq, Prod.mk.injEq] at h
    obtain ⟨h1, _, _⟩ := h
    subst h1
    exact ⟨rfl, rfl, rfl⟩
  · rename_i cache _
    dsimp only at h
    have hl := LDCART_opcode_frame cfg bus { d with cache := cache } cart
    have hlc := LDCART_opcode_cursor cfg bus { d with cache := cache } cart
    split_ifs at h with h1
    · simp only [Option.some.injEq, Prod.mk.injEq] at h
      obtain ⟨h1, _, _⟩ := h
      subst h1
      exact ⟨hl.1, hlc.1, hlc.2⟩
    · split at h
      · simp at h
      · rename_i d2 buf2 r2 hrd
        have h2 := RDFRME_opcode_some cfg bus _ d2 frame buf buf2 r2 hrd
        split_ifs at h with h3
        · simp only [Option.some.injEq, Prod.mk.injEq] at h
          obtain ⟨h4, _, _⟩ := h
          subst h4
          exact ⟨h2.1.trans hl.1, h2.2.1.trans hlc.1, h2.2.2.trans hlc.2⟩
        · split at h
          · simp at h
          · simp only [Option.some.injEq, Prod.mk.injEq] at h
            obtain ⟨h4, _, _⟩ := h
            subst h4
            exact ⟨h2.1.trans hl.1, h2.2.1.trans hlc.1, h2.2.2.trans hlc.2⟩

/-- The loop of `cart_read`, when it returns, leaves the cursor alone. -/
theorem cart_read_loop_cursor {σ : Type} (cfg : Config) (bus : Bus σ) (fd : Int)
    (read_length frame_pos : Int) :
    ∀ (fuel : Nat) (d : Driver σ) (buf tempbuf : Buf) (remaining_bytes buf_loc : Int)
      (d' : Driver σ) (buf' : Buf) (r : Int),
      cart_read_loop cfg bus fd read_length frame_pos fuel d buf tempbuf remaining_bytes
        buf_loc = some (d', buf', r) →
      d'.avail_cart = d.avail_cart ∧ d'.avail_frame = d.avail_frame := by
  intro fuel
  induction fuel with
  | zero =>
    intro d buf tempbuf remaining_bytes buf_loc d' buf' r h
    by_cases hr : remaining_bytes > 0
    · rw [cart_read_loop, if_pos hr] at h
      simp at h
    · rw [cart_read_loop_done _ _ _ _ _ _ _ _ _ _ _ (by omega)] at h
      simp only [Option.some.injEq, Prod.mk.injEq] at h
      rw [← h.1]
      exact ⟨rfl, rfl⟩
  | succ fuel ih =>
    intro d buf tempbuf remaining_bytes buf_loc d' buf' r h
    by_cases hr : remaining_bytes > 0
    · rw [cart_read_loop, if_pos hr] at h
      dsimp only at h
      generalize hrd : RDCART_opcode cfg bus d _ _ tempbuf = res at h
      cases res with
      | none => simp at h
      | some t =>
        obtain ⟨d1, tempbuf1, r1⟩ := t
        have h1 := RDCART_opcode_some cfg bus d d1 _ _ tempbuf tempbuf1 r1 hrd
        dsimp only at h
        by_cases hr1 : r1 = -1
        · rw [if_pos hr1] at h
          simp only [Option.some.injEq, Prod.mk.injEq] at h
          rw [← h.1]
          exact ⟨h1.2.1, h1.2.2⟩
        · rw [if_neg hr1] at h
          have h2 := ih _ _ _ _ _ d' buf' r h
          simp only [set_file] at h2
          exact ⟨h2.1.trans h1.2.1, h2.2.trans h1.2.2⟩
    · rw [cart_read_loop_done _ _ _ _ _ _ _ _ _ _ _ (by omega)] at h
      simp only [Option.some.injEq, Prod.mk.injEq] at h
      rw [← h.1]
      exact ⟨rfl, rfl⟩

/-- `cart_read`, when it returns, leaves the cursor alone. -/
theorem cart_read_cursor {σ : Type} (cfg : Config) (bus : Bus σ) (fuel : Nat)
    (frame_pos : Int) (tempbuf : Buf) (d : Driver σ) (fd : Int) (buf : Buf) (count : Int)
    (d' : Driver σ) (buf' : Buf) (r : Int)
    (h : cart_read cfg bus fuel frame_pos tempbuf d fd buf count = some (d', buf', r)) :
    d'.avail_cart = d.avail_cart ∧ d'.avail_frame = d.avail_frame := by
  unfold cart_read at h
  split_ifs at h
  · simp only [Option.some.injEq, Prod.mk.injEq] at h
    rw [← h.1]
    exact ⟨rfl, rfl⟩
  · simp only [Option.some.injEq, Prod.mk.injEq] at h
    rw [← h.1]
    exact ⟨rfl, rfl⟩
  · exact cart_read_loop_cursor cfg bus fd _ frame_pos fuel d buf tempbuf _ _ d' buf' r h
  · exact cart_read_loop_cursor cfg bus fd _ frame_pos fuel d buf tempbuf _ _ d' buf' r h

/-- The loop of `cart_write` with fuel left and bytes to go is one iteration followed by
the loop. -/
theorem cart_write_loop_unroll {σ : Type} (cfg : Config) (bus : Bus σ) (fd : Int) (buf : Buf)
    (fuel : Nat) (d : Driver σ) (tempbuf : Buf) (remaining_bytes buf_loc : Int)
    (hr : 0 < remaining_bytes) :
    cart_write_loop cfg bus fd buf (fuel + 1) d tempbuf remaining_bytes buf_loc =
      (cart_write_iter cfg bus fd buf d tempbuf remaining_bytes buf_loc).bind fun r =>
        cart_write_loop cfg bus fd buf fuel r.1 r.2
          (remaining_bytes - write_bytes cfg remaining_bytes
            ((d.FileArray fd).current_pos.tmod cfg.CART_FRAME_SIZE))
          (buf_loc + write_bytes cfg remaining_bytes
            ((d.FileArray fd).current_pos.tmod cfg.CART_FRAME_SIZE)) := by
  rw [cart_write_loop, if_pos hr]
  simp only [cart_write_iter, cart_write_store, allocate]
  by_cases hl : (d.FileArray fd).current_pos.tdiv cfg.CART_FRAME_SIZE
      > (d.FileArray fd).frame_list_index
  · simp only [if_pos hl]
    by_cases hf : (d.avail_frame : Int) ≥ (cfg.CART_CARTRIDGE_SIZE : Int) - 1
    · simp only [if_pos hf]
      split <;> rfl
    · simp only [if_neg hf]
      split <;> rfl
  · simp only [if_neg hl]
    split
    · rfl
    · split <;> rfl

/-- What `allocate` leaves alone and what it stores. -/
theorem allocate_file {σ : Type} (cfg : Config) (d : Driver σ) (fd list_loc : Int) :
    (allocate cfg d fd list_loc).FileArray fd
      = { d.FileArray fd with
          FrameList := set_frame (d.FileArray fd).FrameList list_loc
            { cart_index := d.avail_cart, frame_index := d.avail_frame } } ∧
    (∀ j, j ≠ fd → (allocate cfg d fd list_loc).FileArray j = d.FileArray j) ∧
    (allocate cfg d fd list_loc).cache = d.cache := by
  unfold allocate
  dsimp only
  split_ifs
  · exact ⟨by simp [set_file], fun j hj => by simp [set_file, hj], rfl⟩
  · exact ⟨by simp [set_file], fun j hj => by simp [set_file, hj], rfl⟩

/-- The cursor after `allocate`: the next frame of the cartridge, or frame 0 of the next
cartridge (a 16-bit index) after the last frame of a cartridge. -/
theorem allocate_cursor {σ : Type} (cfg : Config) (d : Driver σ) (fd list_loc : Int)
    (hS1 : 1 ≤ cfg.CART_CARTRIDGE_SIZE) (hS2 : cfg.CART_CARTRIDGE_SIZE ≤ 2 ^ 16)
    (hf : d.avail_frame < cfg.CART_CARTRIDGE_SIZE) :
    (allocate cfg d fd list_loc).avail_cart
      = (if d.avail_frame + 1 = cfg.CART_CARTRIDGE_SIZE then (d.avail_cart + 1) % 2 ^ 16
         else d.avail_cart) ∧
    (allocate cfg d fd list_loc).avail_frame
      = (if d.avail_frame + 1 = cfg.CART_CARTRIDGE_SIZE then 0 else d.avail_frame + 1) ∧
    (allocate cfg d fd list_loc).avail_frame < cfg.CART_CARTRIDGE_SIZE := by
  unfold allocate
  dsimp only
  by_cases h : (d.avail_frame : Int) ≥ (cfg.CART_CARTRIDGE_SIZE : Int) - 1
  · have h1 : d.avail_frame + 1 = cfg.CART_CARTRIDGE_SIZE := by omega
    rw [if_pos h, if_pos h1, if_pos h1]
    exact ⟨rfl, rfl, by show 0 < cfg.CART_CARTRIDGE_SIZE; omega⟩
  · have h1 : ¬ d.avail_frame + 1 = cfg.CART_CARTRIDGE_SIZE := by omega
    have h2 : (d.avail_frame + 1) % 2 ^ 16 = d.avail_frame + 1 :=
      Nat.mod_eq_of_lt (by omega)
    rw [if_neg h, if_neg h1, if_neg h1]
    refine ⟨rfl, h2, ?_⟩
    show (d.avail_frame + 1) % 2 ^ 16 < cfg.CART_CARTRIDGE_SIZE
    rw [h2]
    omega

/-- The rank of the cursor after `allocate`, as long as the cartridge index does not
wrap. -/
theorem allocate_rank {σ : Type} (cfg : Config) (d : Driver σ) (fd list_loc : Int)
    (hS1 : 1 ≤ cfg.CART_CARTRIDGE_SIZE) (hS2 : cfg.CART_CARTRIDGE_SIZE ≤ 2 ^ 16)
    (hf : d.avail_frame < cfg.CART_CARTRIDGE_SIZE)
    (hw : cursor_rank cfg d + 1 < 2 ^ 16 * cfg.CART_CARTRIDGE_SIZE) :
    cursor_rank cfg (allocate cfg d fd list_loc) = cursor_rank cfg d + 1 := by
  obtain ⟨hc, hfr, _⟩ := allocate_cursor cfg d fd list_loc hS1 hS2 hf
  unfold cursor_rank at hw ⊢
  rw [hc, hfr]
  by_cases h1 : d.avail_frame + 1 = cfg.CART_CARTRIDGE_SIZE
  · rw [if_pos h1, if_pos h1]
    have h2 : d.avail_cart + 1 < 2 ^ 16 := by
      by_contra hcon
      have h3 : 2 ^ 16 ≤ d.avail_cart + 1 := by omega
      have h4 := Nat.mul_le_mul_right cfg.CART_CARTRIDGE_SIZE h3
      rw [Nat.add_mul] at h4
      omega
    rw [Nat.mod_eq_of_lt h2, Nat.add_mul]
    omega
  · rw [if_neg h1, if_neg h1]
    omega

/-- The second half of an iteration of the loop of `cart_write`, when it ends: the cursor
is left alone, the position of the file moves on, the cache is the one `put_cart_cache`
returns. -/
theorem cart_write_store_some {σ : Type} (cfg : Config) (bus : Bus σ) (fd : Int) (buf : Buf)
    (d1 : Driver σ) (tempbuf1 : Buf) (frame_pos list_loc wb buf_loc : Int) (d4 : Driver σ)
    (tempbuf4 : Buf)
    (h : cart_write_store cfg bus fd buf d1 tempbuf1 frame_pos list_loc wb buf_loc
      = some (d4, tempbuf4)) :
    d4.avail_cart = d1.avail_cart ∧ d4.avail_frame = d1.avail_frame ∧
    d4.FileArray fd
      = { d1.FileArray fd with
          current_pos := (d1.FileArray fd).current_pos + wb,
          end_pos :=
            if (d1.FileArray fd).end_pos < (d1.FileArray fd).current_pos + wb
            then (d1.FileArray fd).current_pos + wb else (d1.FileArray fd).end_pos } ∧
    (∀ j, j ≠ fd → d4.FileArray j = d1.FileArray j) ∧
    (cache_alloc d1.cache → cache_alloc d4.cache) := by
  unfold cart_write_store at h
  dsimp only at h
  generalize hput : put_cart_cache cfg d1.cache _ _ _ = pc at h
  cases pc with
  | none => simp at h
  | some cache2 =>
    dsimp only at h
    simp only [Option.some.injEq, Prod.mk.injEq] at h
    obtain ⟨h4, _⟩ := h
    subst h4
    have hw := WRCART_opcode_frame cfg bus { d1 with cache := cache2 }
      ((d1.FileArray fd).FrameList list_loc).cart_index
      ((d1.FileArray fd).FrameList list_loc).frame_index
      (memcpy tempbuf1 frame_pos buf buf_loc wb)
    have hwc := WRCART_opcode_cursor cfg bus { d1 with cache := cache2 }
      ((d1.FileArray fd).FrameList list_loc).cart_index
      ((d1.FileArray fd).FrameList list_loc).frame_index
      (memcpy tempbuf1 frame_pos buf buf_loc wb)
    refine ⟨hwc.1, hwc.2, ?_, ?_, ?_⟩
    · rw [set_file_same, hw.1]
    · intro j hj
      rw [set_file_other _ _ _ _ hj, hw.1]
    · intro hc1
      obtain ⟨c2, hp2, hc2⟩ := put_cart_cache_alloc cfg d1.cache
        ((d1.FileArray fd).FrameList list_loc).cart_index
        ((d1.FileArray fd).FrameList list_loc).frame_index
        (memcpy tempbuf1 frame_pos buf buf_loc wb) hc1
      rw [hput] at hp2
      simp only [Option.some.injEq] at hp2
      subst hp2
      show cache_alloc (WRCART_opcode cfg bus _ _ _ _).1.cache
      rw [hw.2]
      exact hc2

/-- The second half of an iteration of the loop of `cart_write` ends when the cache is
allocated. -/
theorem cart_write_store_alloc {σ : Type} (cfg : Config) (bus : Bus σ) (fd : Int) (buf : Buf)
    (d1 : Driver σ) (tempbuf1 : Buf) (frame_pos list_loc wb buf_loc : Int)
    (hc : cache_alloc d1.cache) :
    ∃ d4 tempbuf4, cart_write_store cfg bus fd buf d1 tempbuf1 frame_pos list_loc wb buf_loc
      = some (d4, tempbuf4) := by
  obtain ⟨cache2, hput, _⟩ := put_cart_cache_alloc cfg d1.cache
    ((d1.FileArray fd).FrameList list_loc).cart_index
    ((d1.FileArray fd).FrameList list_loc).frame_index
    (memcpy tempbuf1 frame_pos buf buf_loc wb) hc
  unfold cart_write_store
  dsimp only
  rw [hput]
  exact ⟨_, _, rfl⟩

/-- An iteration of the loop of `cart_write` that ends: the state `d1` after the
allocation (or after the read of the frame), and what the rest of the iteration does to
it. -/
theorem cart_write_iter_some {σ : Type} (cfg : Config) (bus : Bus σ) (fd : Int) (buf : Buf)
    (d : Driver σ) (tempbuf : Buf) (remaining_bytes buf_loc : Int) (d4 : Driver σ)
    (tempbuf4 : Buf)
    (h : cart_write_iter cfg bus fd buf d tempbuf remaining_bytes buf_loc
      = some (d4, tempbuf4)) :
    ∃ (d1 : Driver σ) (tempbuf1 : Buf),
      (((d.FileArray fd).current_pos.tdiv cfg.CART_FRAME_SIZE
            > (d.FileArray fd).frame_list_index ∧
          d1 = allocate cfg d fd ((d.FileArray fd).current_pos.tdiv cfg.CART_FRAME_SIZE)) ∨
        (¬ (d.FileArray fd).current_pos.tdiv cfg.CART_FRAME_SIZE
            > (d.FileArray fd).frame_list_index ∧
          d1.FileArray = d.FileArray ∧ d1.avail_cart = d.avail_cart ∧
          d1.avail_frame = d.avail_frame)) ∧
      cart_write_store cfg bus fd buf d1 tempbuf1
        ((d.FileArray fd).current_pos.tmod cfg.CART_FRAME_SIZE)
        ((d.FileArray fd).current_pos.tdiv cfg.CART_FRAME_SIZE)
        (write_bytes cfg remaining_bytes
          ((d.FileArray fd).current_pos.tmod cfg.CART_FRAME_SIZE)) buf_loc
        = some (d4, tempbuf4) := by
  unfold cart_write_iter at h
  dsimp only at h
  by_cases hl : (d.FileArray fd).current_pos.tdiv cfg.CART_FRAME_SIZE
      > (d.FileArray fd).frame_list_index
  · rw [if_pos hl] at h
    exact ⟨_, _, Or.inl ⟨hl, rfl⟩, h⟩
  · rw [if_neg hl] at h
    generalize hrd : RDCART_opcode cfg bus d _ _ tempbuf = res at h
    cases res with
    | none => simp at h
    | some t =>
      obtain ⟨d1, tempbuf1, r1⟩ := t
      have h1 := RDCART_opcode_some cfg bus d d1 _ _ tempbuf tempbuf1 r1 hrd
      exact ⟨d1, tempbuf1, Or.inr ⟨hl, h1.1, h1.2.1, h1.2.2⟩, h⟩

/-- The cursor after an iteration of the loop of `cart_write` that ends: the cursor of
`allocate` when the iteration allocates, the cursor before it otherwise; and the address
stored for the logical frame is the cursor before the allocation. -/
theorem cart_write_iter_cursor {σ : Type} (cfg : Config) (bus : Bus σ) (fd : Int) (buf : Buf)
    (d : Driver σ) (tempbuf : Buf) (remaining_bytes buf_loc : Int) (d4 : Driver σ)
    (tempbuf4 : Buf)
    (h : cart_write_iter cfg bus fd buf d tempbuf remaining_bytes buf_loc
      = some (d4, tempbuf4)) :
    ((d.FileArray fd).current_pos.tdiv cfg.CART_FRAME_SIZE
        > (d.FileArray fd).frame_list_index →
      (d4.FileArray fd).FrameList ((d.FileArray fd).current_pos.tdiv cfg.CART_FRAME_SIZE)
        = { cart_index := d.avail_cart, frame_index := d.avail_frame } ∧
      d4.avail_cart
        = (allocate cfg d fd
            ((d.FileArray fd).current_pos.tdiv cfg.CART_FRAME_SIZE)).avail_cart ∧
      d4.avail_frame
        = (allocate cfg d fd
            ((d.FileArray fd).current_pos.tdiv cfg.CART_FRAME_SIZE)).avail_frame) ∧
    (¬ (d.FileArray fd).current_pos.tdiv cfg.CART_FRAME_SIZE
        > (d.FileArray fd).frame_list_index →
      d4.avail_cart = d.avail_cart ∧ d4.avail_frame = d.avail_frame) := by
  obtain ⟨d1, tempbuf1, hd1, hst⟩ :=
    cart_write_iter_some cfg bus fd buf d tempbuf remaining_bytes buf_loc d4 tempbuf4 h
  obtain ⟨hc, hf, hfile, _, _⟩ := cart_write_store_some cfg bus fd buf d1 tempbuf1 _ _ _ _ d4
    tempbuf4 hst
  constructor
  · intro hl
    rcases hd1 with ⟨_, h1⟩ | ⟨hn, _⟩
    · subst h1
      refine ⟨?_, hc, hf⟩
      rw [hfile, (allocate_file cfg d fd _).1]
      simp [set_frame]
    · exact absurd hl hn
  · intro hl
    rcases hd1 with ⟨hp, _⟩ | ⟨_, _, h2, h3⟩
    · exact absurd hp hl
    · exact ⟨hc.trans h2, hf.trans h3⟩

theorem cart_open_cursor {σ : Type} (d : Driver σ) (path : String) :
    (cart_open d path).1.avail_cart = d.avail_cart ∧
    (cart_open d path).1.avail_frame = d.avail_frame := by
  unfold cart_open
  split
  · split_ifs <;> exact ⟨rfl, rfl⟩
  · exact ⟨rfl, rfl⟩

theorem cart_close_cursor {σ : Type} (cfg : Config) (d : Driver σ) (fd : Int) :
    (cart_close cfg d fd).1.avail_cart = d.avail_cart ∧
    (cart_close cfg d fd).1.avail_frame = d.avail_frame := by
  unfold cart_close
  split_ifs <;> exact ⟨rfl, rfl⟩

theorem cart_seek_cursor {σ : Type} (cfg : Config) (d : Driver σ) (fd : Int) (loc : Nat) :
    (cart_seek cfg d fd loc).1.avail_cart = d.avail_cart ∧
    (cart_seek cfg d fd loc).1.avail_frame = d.avail_frame := by
  unfold cart_seek
  split_ifs <;> exact ⟨rfl, rfl⟩

theorem cursor_rank_congr {σ : Type} (cfg : Config) (d d' : Driver σ)
    (h : d'.avail_cart = d.avail_cart ∧ d'.avail_frame = d.avail_frame) :
    cursor_rank cfg d' = cursor_rank cfg d := by
  unfold cursor_rank
  rw [h.1, h.2]

/-- Along the states that come after a state the frame index of the cursor stays inside
the cartridge, and, as long as the cartridge index does not wrap, the rank of the cursor
does not decrease and grows by at most one in an iteration of the loop of
`cart_write`. -/
theorem follows_rank {σ : Type} (cfg : Config) (bus : Bus σ)
    (hS1 : 1 ≤ cfg.CART_CARTRIDGE_SIZE) (hS2 : cfg.CART_CARTRIDGE_SIZE ≤ 2 ^ 16)
    (n : Nat) (d e : Driver σ) (h : follows cfg bus n d e) :
    d.avail_frame < cfg.CART_CARTRIDGE_SIZE →
    e.avail_frame < cfg.CART_CARTRIDGE_SIZE ∧
    (cursor_rank cfg d + n < 2 ^ 16 * cfg.CART_CARTRIDGE_SIZE →
      cursor_rank cfg d ≤ cursor_rank cfg e ∧ cursor_rank cfg e ≤ cursor_rank cfg d + n) := by
  induction h with
  | here d => exact fun hf => ⟨hf, fun _ => ⟨le_refl _, le_refl _⟩⟩
  | iter n d d4 e fd buf tempbuf tempbuf4 remaining_bytes buf_loc hit _ ih =>
    intro hf
    obtain ⟨ha, hn⟩ := cart_write_iter_cursor cfg bus fd buf d tempbuf remaining_bytes buf_loc
      d4 tempbuf4 hit
    by_cases hl : (d.FileArray fd).current_pos.tdiv cfg.CART_FRAME_SIZE
        > (d.FileArray fd).frame_list_index
    · obtain ⟨_, hc, hfr⟩ := ha hl
      have hal := allocate_cursor cfg d fd
        ((d.FileArray fd).current_pos.tdiv cfg.CART_FRAME_SIZE) hS1 hS2 hf
      have hf4 : d4.avail_frame < cfg.CART_CARTRIDGE_SIZE := by rw [hfr]; exact hal.2.2
      refine ⟨(ih hf4).1, fun hw => ?_⟩
      have hr := allocate_rank cfg d fd
        ((d.FileArray fd).current_pos.tdiv cfg.CART_FRAME_SIZE) hS1 hS2 hf (by omega)
      have hr4 : cursor_rank cfg d4 = cursor_rank cfg d + 1 := by
        rw [cursor_rank_congr cfg _ d4 ⟨hc, hfr⟩, hr]
      have := (ih hf4).2 (by omega)
      omega
    · have h4 := hn hl
      have hf4 : d4.avail_frame < cfg.CART_CARTRIDGE_SIZE := by rw [h4.2]; exact hf
      refine ⟨(ih hf4).1, fun hw => ?_⟩
      have hr4 := cursor_rank_congr cfg d d4 h4
      have := (ih hf4).2 (by omega)
      omega
  | opened n d e path _ ih =>
    intro hf
    have h1 := cart_open_cursor d path
    have hr := cursor_rank_congr cfg d _ h1
    have := ih (by rw [h1.2]; exact hf)
    rw [hr] at this
    exact this
  | closed n d e fd _ ih =>
    intro hf
    have h1 := cart_close_cursor cfg d fd
    have hr := cursor_rank_congr cfg d _ h1
    have := ih (by rw [h1.2]; exact hf)
    rw [hr] at this
    exact this
  | sought n d e fd loc _ ih =>
    intro hf
    have h1 := cart_seek_cursor cfg d fd loc
    have hr := cursor_rank_congr cfg d _ h1
    have := ih (by rw [h1.2]; exact hf)
    rw [hr] at this
    exact this
  | read n d d1 e fuel frame_pos tempbuf fd buf buf1 count r hrd _ ih =>
    intro hf
    have h1 := cart_read_cursor cfg bus fuel frame_pos tempbuf d fd buf count d1 buf1 r hrd
    have hr := cursor_rank_congr cfg d _ h1
    have := ih (by rw [h1.2]; exact hf)
    rw [hr] at this
    exact this

theorem follows_trans {σ : Type} (cfg : Config) (bus : Bus σ) (n m : Nat)
    (a b c : Driver σ) (h1 : follows cfg bus n a b) (h2 : follows cfg bus m b c) :
    follows cfg bus (n + m) a c := by
  induction h1 with
  | here d => rw [Nat.zero_add]; exact h2
  | iter n d d4 e fd buf tempbuf tempbuf4 remaining_bytes buf_loc hit _ ih =>
    rw [Nat.add_right_comm]
    exact follows.iter _ d d4 c fd buf tempbuf tempbuf4 remaining_bytes buf_loc hit (ih h2)
  | opened n d e path _ ih => exact follows.opened _ d c path (ih h2)
  | closed n d e fd _ ih => exact follows.closed _ d c fd (ih h2)
  | sought n d e fd loc _ ih => exact follows.sought _ d c fd loc (ih h2)
  | read n d d1 e fuel frame_pos tempbuf fd buf buf1 count r hrd _ ih =>
    exact follows.read _ d d1 c fuel frame_pos tempbuf fd buf buf1 count r hrd (ih h2)

/-- The state at the end of the loop of `cart_write` comes after the state at its start,
by at most as many iterations as there is fuel. -/
theorem cart_write_loop_follows {σ : Type} (cfg : Config) (bus : Bus σ) (fd : Int)
    (buf : Buf) :
    ∀ (fuel : Nat) (d : Driver σ) (tempbuf : Buf) (remaining_bytes buf_loc : Int)
      (d' : Driver σ),
      cart_write_loop cfg bus fd buf fuel d tempbuf remaining_bytes buf_loc = some d' →
      ∃ n, n ≤ fuel ∧ follows cfg bus n d d' := by
  intro fuel
  induction fuel with
  | zero =>
    intro d tempbuf remaining_bytes buf_loc d' h
    by_cases hr : remaining_bytes > 0
    · rw [cart_write_loop, if_pos hr] at h
      simp at h
    · rw [cart_write_loop_done _ _ _ _ _ _ _ _ _ (by omega)] at h
      simp only [Option.some.injEq] at h
      subst h
      exact ⟨0, le_refl _, follows.here d⟩
  | succ fuel ih =>
    intro d tempbuf remaining_bytes buf_loc d' h
    by_cases hr : remaining_bytes > 0
    · rw [cart_write_loop_unroll cfg bus fd buf fuel d tempbuf remaining_bytes buf_loc hr] at h
      cases hit : cart_write_iter cfg bus fd buf d tempbuf remaining_bytes buf_loc with
      | none => rw [hit] at h; simp at h
      | some t =>
        obtain ⟨d4, tempbuf4⟩ := t
        rw [hit] at h
        simp only [Option.some_bind] at h
        obtain ⟨n, hn, hfo⟩ := ih _ _ _ _ _ h
        exact ⟨n + 1, by omega,
          follows.iter n d d4 d' fd buf tempbuf tempbuf4 remaining_bytes buf_loc hit hfo⟩
    · rw [cart_write_loop_done _ _ _ _ _ _ _ _ _ (by omega)] at h
      simp only [Option.some.injEq] at h
      subst h
      exact ⟨0, Nat.zero_le _, follows.here d⟩

theorem cart_write_follows {σ : Type} (cfg : Config) (bus : Bus σ) (fuel : Nat)
    (tempbuf : Buf) (d : Driver σ) (fd : Int) (buf : Buf) (count : Int) (d' : Driver σ)
    (r : Int) (h : cart_write cfg bus fuel tempbuf d fd buf count = some (d', r)) :
    ∃ n, n ≤ fuel ∧ follows cfg bus n d d' := by
  unfold cart_write at h
  split_ifs at h
  · simp only [Option.some.injEq, Prod.mk.injEq] at h
    rw [← h.1]
    exact ⟨0, Nat.zero_le _, follows.here d⟩
  · simp only [Option.some.injEq, Prod.mk.injEq] at h
    rw [← h.1]
    exact ⟨0, Nat.zero_le _, follows.here d⟩
  · cases hl : cart_write_loop cfg bus fd buf fuel d tempbuf count 0 with
    | none => rw [hl] at h; simp at h
    | some d1 =>
      rw [hl] at h
      simp only [Option.some.injEq, Prod.mk.injEq] at h
      rw [← h.1]
      exact cart_write_loop_follows cfg bus fd buf fuel d tempbuf count 0 d1 hl

/-- The state after a sequence of file operations comes after the state before it, by at
most as many iterations of the loop of `cart_write` as the writes have fuel. -/
theorem run_file_ops_follows {σ : Type} (cfg : Config) (bus : Bus σ) :
    ∀ (ops : List FileOp) (d d' : Driver σ), run_file_ops cfg bus d ops = some d' →
      ∃ n, n ≤ write_fuel ops ∧ follows cfg bus n d d' := by
  intro ops
  induction ops with
  | nil =>
    intro d d' h
    simp only [run_file_ops, Option.some.injEq] at h
    subst h
    exact ⟨0, Nat.zero_le _, follows.here d⟩
  | cons op ops ih =>
    intro d d' h
    simp only [run_file_ops] at h
    cases h1 : run_file_op cfg bus d op with
    | none => rw [h1] at h; simp at h
    | some d1 =>
      rw [h1] at h
      simp only [Option.some_bind] at h
      obtain ⟨n, hn, hfo⟩ := ih d1 d' h
      cases op with
      | call_open path =>
        simp only [run_file_op, Option.some.injEq] at h1
        subst h1
        exact ⟨n, by simpa [write_fuel] using hn, follows.opened n d d' path hfo⟩
      | call_close fd =>
        simp only [run_file_op, Option.some.injEq] at h1
        subst h1
        exact ⟨n, by simpa [write_fuel] using hn, follows.closed n d d' fd hfo⟩
      | call_seek fd loc =>
        simp only [run_file_op, Option.some.injEq] at h1
        subst h1
        exact ⟨n, by simpa [write_fuel] using hn, follows.sought n d d' fd loc hfo⟩
      | call_read fuel frame_pos tempbuf fd buf count =>
        simp only [run_file_op, Option.map_eq_some'] at h1
        obtain ⟨⟨d2, buf2, r⟩, hrd, hd⟩ := h1
        dsimp only at hd
        subst hd
        exact ⟨n, by simpa [write_fuel] using hn,
          follows.read n d d2 d' fuel frame_pos tempbuf fd buf buf2 count r hrd hfo⟩
      | call_write fuel tempbuf fd buf count =>
        simp only [run_file_op, Option.map_eq_some'] at h1
        obtain ⟨⟨d2, r⟩, hwr, hd⟩ := h1
        dsimp only at hd
        subst hd
        obtain ⟨m, hm, hfw⟩ := cart_write_follows cfg bus fuel tempbuf d fd buf count d2 r hwr
        exact ⟨m + n, by simp only [write_fuel]; omega, follows_trans cfg bus m n d d2 d' hfw hfo⟩

/-- An iteration of the loop of `cart_write` that allocates ends when the cache is
allocated. -/
theorem cart_write_iter_alloc {σ : Type} (cfg : Config) (bus : Bus σ) (fd : Int) (buf : Buf)
    (d : Driver σ) (tempbuf : Buf) (remaining_bytes buf_loc : Int)
    (hc : cache_alloc d.cache)
    (hl : (d.FileArray fd).current_pos.tdiv cfg.CART_FRAME_SIZE
      > (d.FileArray fd).frame_list_index) :
    ∃ d4 tempbuf4, cart_write_iter cfg bus fd buf d tempbuf remaining_bytes buf_loc
      = some (d4, tempbuf4) := by
  unfold cart_write_iter
  dsimp only
  rw [if_pos hl]
  exact cart_write_store_alloc cfg bus fd buf _ tempbuf _ _ _ _
    (by rw [(allocate_file cfg d fd _).2.2]; exact hc)

/-- One round of `rewrite_many`: seek to 0 and write of one byte through handle 1.  The
write allocates: logical frame 0 gets the cursor as its address and the cursor moves
on. -/
theorem rewrite_round (d : Driver Controller) (hopen : (d.FileArray 1).file_open = 1)
    (hfli : (d.FileArray 1).frame_list_index = -1) (hc : cache_alloc d.cache)
    (hf : d.avail_frame < 1024) :
    ∃ d', cart_write cfg1024 bus1024 1 zeros (cart_seek cfg1024 d 1 0).1 1 (fun _ => 9) 1
        = some (d', 1) ∧
      (d'.FileArray 1).file_open = 1 ∧ (d'.FileArray 1).frame_list_index = -1 ∧
      cache_alloc d'.cache ∧
      (d'.FileArray 1).FrameList 0
        = { cart_index := d.avail_cart, frame_index := d.avail_frame } ∧
      d'.avail_cart
        = (if d.avail_frame + 1 = 1024 then (d.avail_cart + 1) % 2 ^ 16 else d.avail_cart) ∧
      d'.avail_frame = (if d.avail_frame + 1 = 1024 then 0 else d.avail_frame + 1) := by
  have hs : (cart_seek cfg1024 d 1 0).1
      = set_file d 1 { d.FileArray 1 with current_pos := 0 } := by
    have h1 : ¬ ((1 : Int) ≥ cfg1024.CART_MAX_TOTAL_FILES ∨ (1 : Int) < 0) := by decide
    have h2 : ¬ (d.FileArray 1).file_open = 0 := by rw [hopen]; decide
    have h3 : ¬ 0 % 2 ^ 32 > uint32_of_int (d.FileArray 1).end_pos := by
      simp
    unfold cart_seek
    rw [if_neg h1, if_neg h2, if_neg h3]
    rfl
  generalize hsd : (cart_seek cfg1024 d 1 0).1 = s at hs
  have hs1 : s.FileArray 1 = { d.FileArray 1 with current_pos := 0 } := by
    rw [hs, set_file_same]
  have hcur : (s.FileArray 1).current_pos = 0 := by rw [hs1]
  have hsfli : (s.FileArray 1).frame_list_index = -1 := by rw [hs1]; exact hfli
  have hsopen : (s.FileArray 1).file_open = 1 := by rw [hs1]; exact hopen
  have hsc : s.cache = d.cache := by rw [hs]; rfl
  have hsac : s.avail_cart = d.avail_cart := by rw [hs]; rfl
  have hsaf : s.avail_frame = d.avail_frame := by rw [hs]; rfl
  have hdiv : (s.FileArray 1).current_pos.tdiv cfg1024.CART_FRAME_SIZE = 0 := by
    rw [hcur]; decide
  have hmod : (s.FileArray 1).current_pos.tmod cfg1024.CART_FRAME_SIZE = 0 := by
    rw [hcur]; decide
  have hl : (s.FileArray 1).current_pos.tdiv cfg1024.CART_FRAME_SIZE
      > (s.FileArray 1).frame_list_index := by
    rw [hdiv, hsfli]; decide
  obtain ⟨d4, tempbuf4, hit⟩ := cart_write_iter_alloc cfg1024 bus1024 1 (fun _ => 9) s zeros 1 0
    (by rw [hsc]; exact hc) hl
  obtain ⟨d1, tempbuf1, hd1, hst⟩ :=
    cart_write_iter_some cfg1024 bus1024 1 (fun _ => 9) s zeros 1 0 d4 tempbuf4 hit
  obtain ⟨h4c, h4f, h4file, _, h4cache⟩ :=
    cart_write_store_some cfg1024 bus1024 1 (fun _ => 9) d1 tempbuf1 _ _ _ _ d4 tempbuf4 hst
  have hd1eq : d1 = allocate cfg1024 s 1 0 := by
    rcases hd1 with ⟨_, h⟩ | ⟨hn, _⟩
    · rw [h, hdiv]
    · exact absurd hl hn
  subst hd1eq
  obtain ⟨hafile, _, hacache⟩ := allocate_file cfg1024 s 1 0
  obtain ⟨hacart, haframe, _⟩ := allocate_cursor cfg1024 s 1 0 (by decide) (by decide)
    (by rw [hsaf]; exact hf)
  have hwb : write_bytes cfg1024 1 0 = 1 := by decide
  have hloop : cart_write_loop cfg1024 bus1024 1 (fun _ => 9) 1 s zeros 1 0 = some d4 := by
    rw [cart_write_loop_unroll cfg1024 bus1024 1 (fun _ => 9) 0 s zeros 1 0 (by decide), hit]
    simp only [Option.some_bind]
    rw [hmod, hwb]
    exact cart_write_loop_done _ _ _ _ _ _ _ _ _ (by decide)
  have hb : ¬ ((1 : Int) ≥ cfg1024.CART_MAX_TOTAL_FILES ∨ (1 : Int) < 0) := by decide
  have hso : ¬ (s.FileArray 1).file_open = 0 := by rw [hsopen]; decide
  refine ⟨d4, ?_, ?_, ?_, ?_, ?_, ?_, ?_⟩
  · unfold cart_write
    rw [if_neg hb, if_neg hso, hloop]
  · rw [h4file, hafile]
    exact hsopen
  · rw [h4file, hafile]
    exact hsfli
  · exact h4cache (by rw [hacache, hsc]; exact hc)
  · rw [h4file, hafile, hsac, hsaf]
    simp [set_frame, hdiv]
  · rw [h4c, hacart, hsac, hsaf]
    rfl
  · rw [h4f, haframe, hsaf]
    rfl

theorem rewrite_many_succ (n : Nat) :
    rewrite_many (n + 1)
      = (rewrite_many n).bind fun d =>
          (cart_write cfg1024 bus1024 1 zeros (cart_seek cfg1024 d 1 0).1 1 (fun _ => 9) 1).map
            fun w => w.1 := rfl

/-- After `n` rounds of `rewrite_many` the cursor is the `n`-th successor of (0, 0) with
the cartridge index taken modulo `2 ^ 16`, and the address of logical frame 0 of the file
is the cursor before the last round. -/
theorem rewrite_many_spec :
    ∀ n : Nat, ∃ d : Driver Controller, rewrite_many n = some d ∧
      (d.FileArray 1).file_open = 1 ∧ (d.FileArray 1).frame_list_index = -1 ∧
      cache_alloc d.cache ∧
      d.avail_cart = (n / 1024) % 65536 ∧ d.avail_frame = n % 1024 ∧
      (1 ≤ n → (d.FileArray 1).FrameList 0
        = { cart_index := ((n - 1) / 1024) % 65536, frame_index := (n - 1) % 1024 }) := by
  intro n
  induction n with
  | zero =>
    refine ⟨opened1024, rfl, by decide!, by decide!, ?_, by decide!, by decide!, ?_⟩
    · unfold cache_alloc
      decide!
    · intro h
      omega
  | succ n ih =>
    obtain ⟨d, hd, hopen, hfli, hc, hac, haf, _⟩ := ih
    obtain ⟨d', hw, hopen', hfli', hc', hfl, hac', haf'⟩ :=
      rewrite_round d hopen hfli hc (by rw [haf]; omega)
    refine ⟨d', ?_, hopen', hfli', hc', ?_, ?_, ?_⟩
    · rw [rewrite_many_succ, hd]
      simp only [Option.some_bind, hw, Option.map_some']
    · rw [hac', haf, hac]
      split_ifs with h <;> omega
    · rw [haf', haf]
      split_ifs with h <;> omega
    · intro _
      rw [hfl, hac, haf]
      simp

/-- `cart_poweron`, when it returns 0, has set the cursor to (0, 0). -/
theorem cart_poweron_cursor {σ : Type} (cfg : Config) (bus : Bus σ) (d : Driver σ)
    (h : (cart_poweron cfg bus d).2 = 0) :
    (cart_poweron cfg bus d).1.avail_cart = 0 ∧ (cart_poweron cfg bus d).1.avail_frame = 0 := by
  unfold cart_poweron at h ⊢
  dsimp only at h ⊢
  split_ifs at h ⊢
  · simp at h
  · simp at h
  · simp at h
  · exact ⟨rfl, rfl⟩

/-! ### The allocation cursor: claim C24 -/

/-- C24 (code defect): the cursor is not monotone and an address is handed out twice.
From the state after `cart_poweron` and open `"a"`, rounds of seek to 0 and write of one
byte through handle 1 each allocate a frame.  The first round stores the address (0, 0)
for logical frame 0.  After 67108863 (`2 ^ 26 - 1`) rounds the cursor is (65535, 1023);
the write of the next round leaves it at (0, 0), a smaller cursor; and the round after
that stores the address (0, 0) for logical frame 0 again.  Every round allocates because
the guard of the allocation compares with `frame_list_index`, which stays at `-1`, and
the cursor is never compared with the number of cartridges. -/
theorem cursor_wraps :
    ∃ e a b c : Driver Controller,
      rewrite_many 1 = some e ∧
      (e.FileArray 1).FrameList 0 = { cart_index := 0, frame_index := 0 } ∧
      rewrite_many 67108863 = some a ∧ a.avail_cart = 65535 ∧ a.avail_frame = 1023 ∧
      rewrite_many 67108864 = some b ∧ b.avail_cart = 0 ∧ b.avail_frame = 0 ∧
      cart_write cfg1024 bus1024 1 zeros (cart_seek cfg1024 a 1 0).1 1 (fun _ => 9) 1
        = some (b, 1) ∧
      rewrite_many 67108865 = some c ∧
      (c.FileArray 1).FrameList 0 = { cart_index := 0, frame_index := 0 } := by
  obtain ⟨e, he, _, _, _, _, _, hfe⟩ := rewrite_many_spec 1
  obtain ⟨a, ha, hao, hai, hacache, hac, haf, _⟩ := rewrite_many_spec 67108863
  obtain ⟨b, hb, _, _, _, hbc, hbf, _⟩ := rewrite_many_spec 67108864
  obtain ⟨c, hc, _, _, _, _, _, hfc⟩ := rewrite_many_spec 67108865
  obtain ⟨b', hw, _⟩ := rewrite_round a hao hai hacache (by rw [haf]; omega)
  have hbb : b' = b := by
    have h0 : rewrite_many (67108863 + 1) = some b' := by
      rw [rewrite_many_succ, ha]
      simp only [Option.some_bind, hw, Option.map_some']
    have h1 : rewrite_many 67108864 = some b' := h0
    rw [hb] at h1
    simp only [Option.some.injEq] at h1
    exact h1.symm
  rw [hbb] at hw
  refine ⟨e, a, b, c, he, ?_, ha, ?_, ?_, hb, ?_, ?_, hw, hc, ?_⟩
  · rw [hfe (le_refl 1)]
  · rw [hac]
  · rw [haf]
  · rw [hbc]
  · rw [hbf]
  · rw [hfc (by omega)]

/-- The allocation cursor as long as its 16-bit cartridge index has not wrapped, for a
cartridge size between 1 and `2 ^ 16`.  (1) `cart_poweron`, when it returns 0, leaves the cursor at
(0, 0).  (2) The loop of `cart_write` with bytes to go is one iteration followed by the
loop.  (3) An iteration that ends, from a cursor whose frame index is below the
cartridge size, keeps the frame index below the cartridge size; when it allocates it
stores the current cursor as the address of the logical frame and moves the cursor to
(cart, frame + 1), or to ((cart + 1) mod `2 ^ 16`, 0) after the last frame of a
cartridge; when it does not allocate it leaves the cursor alone.  (4) The state after a
sequence of file operations that return comes after the state before it by at most as
many iterations as the writes have fuel; the frame index stays below the cartridge size
and, as long as the rank of the cursor plus that number stays below `2 ^ 16` times the
cartridge size, the rank of the cursor does not decrease.  (5) After an iteration that
allocated at the cursor `(cart, frame)`, no state coming after it within that bound has
the cursor `(cart, frame)` again, so no later allocation hands out the same address.
(6) `cart_open`, `cart_close`, `cart_seek` and a `cart_read` that returns leave the cursor
alone. -/
theorem cursor_monotone_until_wrap {σ : Type} (cfg : Config) (bus : Bus σ)
    (hS1 : 1 ≤ cfg.CART_CARTRIDGE_SIZE) (hS2 : cfg.CART_CARTRIDGE_SIZE ≤ 2 ^ 16) :
    (∀ d : Driver σ, (cart_poweron cfg bus d).2 = 0 →
      (cart_poweron cfg bus d).1.avail_cart = 0 ∧
      (cart_poweron cfg bus d).1.avail_frame = 0) ∧
    (∀ (fd : Int) (buf : Buf) (fuel : Nat) (d : Driver σ) (tempbuf : Buf)
        (remaining_bytes buf_loc : Int), 0 < remaining_bytes →
      cart_write_loop cfg bus fd buf (fuel + 1) d tempbuf remaining_bytes buf_loc =
        (cart_write_iter cfg bus fd buf d tempbuf remaining_bytes buf_loc).bind fun r =>
          cart_write_loop cfg bus fd buf fuel r.1 r.2
            (remaining_bytes - write_bytes cfg remaining_bytes
              ((d.FileArray fd).current_pos.tmod cfg.CART_FRAME_SIZE))
            (buf_loc + write_bytes cfg remaining_bytes
              ((d.FileArray fd).current_pos.tmod cfg.CART_FRAME_SIZE))) ∧
    (∀ (fd : Int) (buf : Buf) (d : Driver σ) (tempbuf : Buf) (remaining_bytes buf_loc : Int)
        (d4 : Driver σ) (tempbuf4 : Buf),
      cart_write_iter cfg bus fd buf d tempbuf remaining_bytes buf_loc
        = some (d4, tempbuf4) →
      d.avail_frame < cfg.CART_CARTRIDGE_SIZE →
      d4.avail_frame < cfg.CART_CARTRIDGE_SIZE ∧
      ((d.FileArray fd).current_pos.tdiv cfg.CART_FRAME_SIZE
          > (d.FileArray fd).frame_list_index →
        (d4.FileArray fd).FrameList ((d.FileArray fd).current_pos.tdiv cfg.CART_FRAME_SIZE)
          = { cart_index := d.avail_cart, frame_index := d.avail_frame } ∧
        d4.avail_cart
          = (if d.avail_frame + 1 = cfg.CART_CARTRIDGE_SIZE then (d.avail_cart + 1) % 2 ^ 16
             else d.avail_cart) ∧
        d4.avail_frame
          = (if d.avail_frame + 1 = cfg.CART_CARTRIDGE_SIZE then 0
             else d.avail_frame + 1)) ∧
      (¬ (d.FileArray fd).current_pos.tdiv cfg.CART_FRAME_SIZE
          > (d.FileArray fd).frame_list_index →
        d4.avail_cart = d.avail_cart ∧ d4.avail_frame = d.avail_frame)) ∧
    (∀ (ops : List FileOp) (d d' : Driver σ), run_file_ops cfg bus d ops = some d' →
      (∃ n, n ≤ write_fuel ops ∧ follows cfg bus n d d') ∧
      (d.avail_frame < cfg.CART_CARTRIDGE_SIZE →
        d'.avail_frame < cfg.CART_CARTRIDGE_SIZE ∧
        (cursor_rank cfg d + write_fuel ops < 2 ^ 16 * cfg.CART_CARTRIDGE_SIZE →
          cursor_rank cfg d ≤ cursor_rank cfg d' ∧
          cursor_rank cfg d' ≤ cursor_rank cfg d + write_fuel ops))) ∧
    (∀ (fd : Int) (buf : Buf) (d : Driver σ) (tempbuf : Buf) (remaining_bytes buf_loc : Int)
        (d4 : Driver σ) (tempbuf4 : Buf) (n : Nat) (e : Driver σ),
      cart_write_iter cfg bus fd buf d tempbuf remaining_bytes buf_loc
        = some (d4, tempbuf4) →
      (d.FileArray fd).current_pos.tdiv cfg.CART_FRAME_SIZE
        > (d.FileArray fd).frame_list_index →
      d.avail_frame < cfg.CART_CARTRIDGE_SIZE →
      follows cfg bus n d4 e →
      cursor_rank cfg d + 1 + n < 2 ^ 16 * cfg.CART_CARTRIDGE_SIZE →
      cursor_rank cfg d < cursor_rank cfg e ∧
      ¬ (e.avail_cart = d.avail_cart ∧ e.avail_frame = d.avail_frame)) ∧
    (∀ (d : Driver σ) (path : String) (fd : Int) (loc : Nat),
      ((cart_open d path).1.avail_cart = d.avail_cart ∧
        (cart_open d path).1.avail_frame = d.avail_frame) ∧
      ((cart_close cfg d fd).1.avail_cart = d.avail_cart ∧
        (cart_close cfg d fd).1.avail_frame = d.avail_frame) ∧
      ((cart_seek cfg d fd loc).1.avail_cart = d.avail_cart ∧
        (cart_seek cfg d fd loc).1.avail_frame = d.avail_frame) ∧
      ∀ (fuel : Nat) (frame_pos : Int) (tempbuf buf : Buf) (count : Int) (d' : Driver σ)
          (buf' : Buf) (r : Int),
        cart_read cfg bus fuel frame_pos tempbuf d fd buf count = some (d', buf', r) →
        d'.avail_cart = d.avail_cart ∧ d'.avail_frame = d.avail_frame) := by
  refine ⟨fun d h => cart_poweron_cursor cfg bus d h,
    fun fd buf fuel d tempbuf remaining_bytes buf_loc hr =>
      cart_write_loop_unroll cfg bus fd buf fuel d tempbuf remaining_bytes buf_loc hr,
    ?_, ?_, ?_,
    fun d path fd loc => ⟨cart_open_cursor d path, cart_close_cursor cfg d fd,
      cart_seek_cursor cfg d fd loc,
      fun fuel frame_pos tempbuf buf count d' buf' r h =>
        cart_read_cursor cfg bus fuel frame_pos tempbuf d fd buf count d' buf' r h⟩⟩
  · intro fd buf d tempbuf remaining_bytes buf_loc d4 tempbuf4 hit hf
    obtain ⟨ha, hn⟩ := cart_write_iter_cursor cfg bus fd buf d tempbuf remaining_bytes buf_loc
      d4 tempbuf4 hit
    obtain ⟨hac, haf, halt⟩ := allocate_cursor cfg d fd
      ((d.FileArray fd).current_pos.tdiv cfg.CART_FRAME_SIZE) hS1 hS2 hf
    refine ⟨?_, fun hl => ?_, hn⟩
    · by_cases hl : (d.FileArray fd).current_pos.tdiv cfg.CART_FRAME_SIZE
          > (d.FileArray fd).frame_list_index
      · rw [(ha hl).2.2]
        exact halt
      · rw [(hn hl).2]
        exact hf
    · obtain ⟨h1, h2, h3⟩ := ha hl
      exact ⟨h1, h2.trans hac, h3.trans haf⟩
  · intro ops d d' hrun
    obtain ⟨n, hn, hfo⟩ := run_file_ops_follows cfg bus ops d d' hrun
    refine ⟨⟨n, hn, hfo⟩, fun hf => ?_⟩
    obtain ⟨h1, h2⟩ := follows_rank cfg bus hS1 hS2 n d d' hfo hf
    refine ⟨h1, fun hw => ?_⟩
    have := h2 (by omega)
    omega
  · intro fd buf d tempbuf remaining_bytes buf_loc d4 tempbuf4 n e hit hl hf hfo hw
    obtain ⟨ha, _⟩ := cart_write_iter_cursor cfg bus fd buf d tempbuf remaining_bytes buf_loc
      d4 tempbuf4 hit
    obtain ⟨_, hc, hfr⟩ := ha hl
    have hal := allocate_cursor cfg d fd
      ((d.FileArray fd).current_pos.tdiv cfg.CART_FRAME_SIZE) hS1 hS2 hf
    have hr := allocate_rank cfg d fd
      ((d.FileArray fd).current_pos.tdiv cfg.CART_FRAME_SIZE) hS1 hS2 hf (by omega)
    have hr4 : cursor_rank cfg d4 = cursor_rank cfg d + 1 := by
      rw [cursor_rank_congr cfg _ d4 ⟨hc, hfr⟩, hr]
    have h4 := (follows_rank cfg bus hS1 hS2 n d4 e hfo (by rw [hfr]; exact hal.2.2)).2
      (by omega)
    have hlt : cursor_rank cfg d < cursor_rank cfg e := by omega
    refine ⟨hlt, fun heq => ?_⟩
    have := cursor_rank_congr cfg d e heq
    omega

/-- Witness for `cursor_monotone_until_wrap`: the constants of `cfg1024` and the
controller `bus1024`; from `opened1024` a write of one byte through handle 1 returns and
moves the rank of the cursor from 0 to 1. -/
theorem cursor_monotone_until_wrap_witness :
    1 ≤ cfg1024.CART_CARTRIDGE_SIZE ∧ cfg1024.CART_CARTRIDGE_SIZE ≤ 2 ^ 16 ∧
    ∃ d' : Driver Controller,
      run_file_ops cfg1024 bus1024 opened1024 [FileOp.call_write 1 zeros 1 (fun _ => 9) 1]
        = some d' ∧
      cursor_rank cfg1024 opened1024 = 0 ∧ cursor_rank cfg1024 d' = 1 ∧
      d'.avail_frame < cfg1024.CART_CARTRIDGE_SIZE ∧
      cursor_rank cfg1024 opened1024 ≤ cursor_rank cfg1024 d' := by
  have hsome : (run_file_ops cfg1024 bus1024 opened1024
      [FileOp.call_write 1 zeros 1 (fun _ => 9) 1]).isSome = true := by decide!
  obtain ⟨d', hd'⟩ := Option.isSome_iff_exists.mp hsome
  have hrank : ((run_file_ops cfg1024 bus1024 opened1024
      [FileOp.call_write 1 zeros 1 (fun _ => 9) 1]).map (cursor_rank cfg1024)) = some 1 := by
    decide!
  rw [hd'] at hrank
  simp only [Option.map_some', Option.some.injEq] at hrank
  have h := (cursor_monotone_until_wrap cfg1024 bus1024 (by decide) (by decide)).2.2.2.1
    [FileOp.call_write 1 zeros 1 (fun _ => 9) 1] opened1024 d' hd'
  have h2 := h.2 (by decide)
  exact ⟨by decide, by decide, d', hd', by decide, hrank, h2.1,
    (h2.2 (by decide)).1⟩

/-! ### The cache clock at `2 ^ 31`: claim C4 -/

theorem memcpy_zeros (n : Int) : memcpy (fun _ => 0) 0 zeros 0 n = fun _ => 0 := by
  funext j
  unfold memcpy zeros
  split_ifs <;> rfl

/-- A put of the key (1, 1) on `aged n` gives `aged (n + 1)`. -/
theorem put_aged (n : Nat) (h : n + 2 < 2 ^ 32) :
    put_cart_cache cfg1024 (aged n) 1 1 zeros = some (aged (n + 1)) := by
  have hmod : (n + 1 + 1) % 2 ^ 32 = n + 1 + 1 := Nat.mod_eq_of_lt (by omega)
  have hfind : find_slot (fun i =>
      if i = 0 then
        ({ cart_index := 1, frame_index := 1, FrameData := fun _ => 0,
           access_time := int_of_uint32 n, free := 1 } : LRUCache_Frame)
      else zero_frame) 1 1 2 0 = some 0 := by
    simp [find_slot]
  unfold put_cart_cache aged
  simp only [hfind, hmod]
  refine congrArg some ?_
  refine congrArg (fun a => Cache.mk (some a) 2 (n + 1 + 1)) ?_
  funext i
  by_cases hi : i = 0
  · subst hi
    simp only [set_slot, if_true, memcpy_zeros]
  · simp only [set_slot, if_neg hi]

/-- The first put of the key (1, 1) after `init_cart_cache` gives `aged 0`. -/
theorem aged_cache_one : aged_cache 1 = some (aged 0) := by
  have hinit : (init_cart_cache
      (set_cart_cache_size (Driver.start Controller.fresh).cache 2).1).1
      = Cache.mk (some (fun _ => zero_frame)) 2 0 := rfl
  have hfind : find_slot (fun _ => zero_frame) 1 1 2 0 = none := by
    simp [find_slot, zero_frame]
  have hidx : put_index (fun _ => zero_frame) 2 = 0 := by
    simp [put_index, put_scan, zero_frame]
  unfold aged_cache put_repeat put_repeat
  rw [hinit]
  simp only [Option.some_bind]
  unfold put_cart_cache aged
  simp only [hfind, hidx]
  refine congrArg some ?_
  refine congrArg (fun a => Cache.mk (some a) 2 (0 + 1)) ?_
  funext i
  by_cases hi : i = 0
  · subst hi
    simp only [set_slot, if_true, zero_frame, memcpy_zeros]
  · simp only [set_slot, if_neg hi]

theorem aged_cache_succ (n : Nat) :
    aged_cache (n + 1) = (aged_cache n).bind fun c1 => put_cart_cache cfg1024 c1 1 1 zeros :=
  rfl

/-- After `n + 1` puts of the key (1, 1) the cache is `aged n`. -/
theorem aged_cache_spec (n : Nat) (h : n + 1 < 2 ^ 32) :
    aged_cache (n + 1) = some (aged n) := by
  induction n with
  | zero => exact aged_cache_one
  | succ n ih =>
    rw [aged_cache_succ, ih (by omega), Option.some_bind]
    exact put_aged n (by omega)

/-- C4 (code defect): the key touched last is evicted once the cache clock has reached
`2 ^ 31`.  On a cache of capacity 2, after puts of the key (1, 1), the scenario put (1, 2),
get (1, 1), put (2, 2) evicts (1, 2) and keeps the touched key (1, 1) when 5 puts came
before; when 2147483647 (`2 ^ 31 - 1`) puts came before, the touch is stamped with the
clock value `2 ^ 31`, stored in the `int` field as a negative number, and the put of
(2, 2) evicts the touched key (1, 1) while the untouched older key (1, 2) stays. -/
theorem lru_evicts_touched_key :
    (aged_cache 5).bind (touch_then_evict cfg1024) = some [true, true, false, true] ∧
    (aged_cache 2147483647).bind (touch_then_evict cfg1024)
      = some [true, false, true, true] := by
  constructor
  · decide!
  · rw [aged_cache_spec 2147483646 (by norm_num)]
    decide!

/-- C5 (code defect): after a read has left the current position (1025) behind the end
position (1024), which happens when the uninitialised local `frame_pos` of `cart_read`
holds `-1`, a `cart_write` of count 0 returns 0 and leaves the end position at 1024, not
at the maximum 1025 of the old end position and the new current position.  When the
local holds 0 the position is 1024 and the end position is that maximum. -/
theorem write_nothing_keeps_end :
    write_nothing_after_read (-1) = some [1025, 1024, 0, 1025, 1024] ∧
    write_nothing_after_read 0 = some [1024, 1024, 0, 1024, 1024] := by
  constructor <;> decide!

end Cart
